import Mathlib

/-!
STM32 RTC scheduler: the job table, the epoch clock and their orchestration

Shallow embedding of `source/scheduler.c`, `include/scheduler.h`,
`source/rtc.c` and `source/core_stop.c`.

* `uint8_t` and `uint32_t` values are natural numbers. Arithmetic that can wrap
  on values of its C type is reduced modulo the width of the type
  (`sub32`, `add32`, the year field of the RTC date). The other operations
  cannot wrap: `++numOfJobs` runs only under `numOfJobs < MAX_NUM_OF_JOBS`,
  `remainingTime -= elapsedTime` runs only in the branch where
  `elapsedTime < remainingTime`, and `indexOfNextJob = i` stores a loop index
  below `numOfJobs`.
* A callback (`Callback_t`, a function pointer) is its address; `0` is `NULL`.
* The global `scheduler` object and the RTC peripheral are passed explicitly:
  every operation takes the state before the call and gives the state after it.
  The RTC calendar does not tick during one call.
* `jobs` maps a slot index to the job stored there. The C array has the slots
  `0 .. MAX_NUM_OF_JOBS - 1`; larger indices are kept in the model only so that
  a write outside the array would be visible in the resulting state.
-/

namespace Scheduler

/-- Maximum number of jobs that are allowed to be configured (`scheduler.h`). -/
def MAX_NUM_OF_JOBS : Nat := 10

/-- Structure of a single job (`scheduler.h`). -/
structure Job_t where
  /-- The period of the job in seconds. -/
  period : Nat
  /-- The current remaining time in seconds until the next execution. -/
  remainingTime : Nat
  /-- Flag to indicate whether the job is pending for execution. -/
  isPending : Nat
  /-- Address of the callback; `0` is the null pointer. -/
  callback : Nat
deriving DecidableEq, Repr

/-- Structure of the scheduler (`scheduler.h`). -/
structure Scheduler_t where
  /-- Epoch at which the scheduler was launched or last processed. -/
  startTime : Nat
  /-- Flag to indicate whether the scheduler is running. -/
  isRunning : Nat
  /-- The actual number of jobs that the scheduler is scheduling. -/
  numOfJobs : Nat
  /-- The job slots, by index. -/
  jobs : Nat → Job_t

/-- The `scheduler` object as the C runtime leaves it before `main`: static
storage, all bytes zero. -/
def bootScheduler : Scheduler_t :=
  { startTime := 0, isRunning := 0, numOfJobs := 0, jobs := fun _ => ⟨0, 0, 0, 0⟩ }

/-- Function `SchedulerInit`: sets `startTime`, `isRunning` and `numOfJobs` to zero and
does not touch the job slots. -/
def SchedulerInit (scheduler : Scheduler_t) : Scheduler_t :=
  { scheduler with startTime := 0, isRunning := 0, numOfJobs := 0 }

/-- The HAL macro `assert_param(expr)`. Its definition lives in the HAL
configuration header, which is not among the sources, so the build switch
`USE_FULL_ASSERT` is a parameter. Without the switch the macro expands to
nothing. With it, a false `expr` calls `assert_failed` (`error_handler.c`),
which prints and then loops forever. The value tells whether control goes on
past the assertion. -/
def assert_param (USE_FULL_ASSERT : Bool) (expr : Bool) : Bool :=
  !USE_FULL_ASSERT || expr

/-- Function `SchedulerAddJob(period, callback)`.

The first component is the returned `uint8_t`, or `none` when the call never
returns because an assertion entered `assert_failed`; the second component is
the scheduler object afterwards. The local `result` is initialised to `0` and
no branch of the C function assigns anything else to it. -/
def SchedulerAddJob (USE_FULL_ASSERT : Bool) (period callback : Nat)
    (scheduler : Scheduler_t) : Option Nat × Scheduler_t :=
  let result : Nat := 0
  if assert_param USE_FULL_ASSERT (decide (period > 0)) = false then
    (none, scheduler)
  else if assert_param USE_FULL_ASSERT (decide (callback ≠ 0)) = false then
    (none, scheduler)
  else if scheduler.isRunning = 0 then
    if scheduler.numOfJobs < MAX_NUM_OF_JOBS then
      (some result,
        { scheduler with
          jobs := Function.update scheduler.jobs scheduler.numOfJobs
            { period := period, remainingTime := period, isPending := 0,
              callback := callback }
          numOfJobs := scheduler.numOfJobs + 1 })
    else
      (some 0, scheduler)
  else
    (some 0, scheduler)

/-- Body of the loop of `Scheduler_ProcessRemainingTime` for slot `i`. -/
def Scheduler_ProcessRemainingTime.body (elapsedTime : Nat)
    (scheduler : Scheduler_t) (i : Nat) : Scheduler_t :=
  if elapsedTime ≥ (scheduler.jobs i).remainingTime then
    { scheduler with
      jobs := Function.update scheduler.jobs i
        { scheduler.jobs i with
          remainingTime := (scheduler.jobs i).period, isPending := 1 } }
  else
    { scheduler with
      jobs := Function.update scheduler.jobs i
        { scheduler.jobs i with
          remainingTime := (scheduler.jobs i).remainingTime - elapsedTime } }

/-- Function `Scheduler_ProcessRemainingTime(elapsedTime)`: the loop
`for (i = 0; i < scheduler.numOfJobs; ++i)`; the body does not write
`numOfJobs`, so the indices visited are `0, 1, .., numOfJobs - 1` in order. -/
def Scheduler_ProcessRemainingTime (elapsedTime : Nat)
    (scheduler : Scheduler_t) : Scheduler_t :=
  (List.range scheduler.numOfJobs).foldl
    (Scheduler_ProcessRemainingTime.body elapsedTime) scheduler

/-- Body of the search loop of `SchedulerProcess`: the value of
`indexOfNextJob` after the iteration for index `i`. -/
def SchedulerProcess.searchBody (scheduler : Scheduler_t)
    (indexOfNextJob i : Nat) : Nat :=
  if (scheduler.jobs i).remainingTime <
      (scheduler.jobs indexOfNextJob).remainingTime then i
  else indexOfNextJob

/-- The search loop of `SchedulerProcess`: `indexOfNextJob` starts at `0` and
the loop visits `i = 0, 1, .., numOfJobs - 1` in order. -/
def SchedulerProcess.indexOfNextJob (scheduler : Scheduler_t) : Nat :=
  (List.range scheduler.numOfJobs).foldl
    (SchedulerProcess.searchBody scheduler) 0

/-- A sequence of `Scheduler_ProcessRemainingTime` calls, one per element of
`elapsedTimes`, in order. -/
def processRemainingTimes (elapsedTimes : List Nat)
    (scheduler : Scheduler_t) : Scheduler_t :=
  elapsedTimes.foldl (fun s e => Scheduler_ProcessRemainingTime e s) scheduler

/-- The per-job transformation of an advance by `elapsed`, as the
specification words it: a job whose remaining time is covered by `elapsed` is
reset to its period and marked pending, any other job has `elapsed` taken off
its remaining time and keeps its pending flag. -/
def advanceJob (elapsed : Nat) (job : Job_t) : Job_t :=
  if elapsed ≥ job.remainingTime then
    { job with remainingTime := job.period, isPending := 1 }
  else
    { job with remainingTime := job.remainingTime - elapsed }

/-- The job that an admission writes into its slot. -/
def admittedJob (period callback : Nat) : Job_t :=
  { period := period, remainingTime := period, isPending := 0, callback := callback }

/-- The scheduler with two jobs admitted and started: used as a concrete
running state. -/
def runningExample : Scheduler_t :=
  { startTime := 1000, isRunning := 1, numOfJobs := 2,
    jobs := fun i => if i = 0 then ⟨5, 5, 0, 1⟩ else if i = 1 then ⟨10, 10, 0, 2⟩
      else ⟨0, 0, 0, 0⟩ }

/-- A stopped scheduler whose table holds ten jobs. -/
def fullExample : Scheduler_t :=
  { startTime := 0, isRunning := 0, numOfJobs := 10,
    jobs := fun i => if i < 10 then ⟨i + 1, i + 1, 0, 1⟩ else ⟨0, 0, 0, 0⟩ }

/-- Both parameter assertions of `SchedulerAddJob` let control through. -/
def assertsPass (USE_FULL_ASSERT : Bool) (period callback : Nat) : Prop :=
  USE_FULL_ASSERT = true → 0 < period ∧ callback ≠ 0

instance (a : Bool) (period callback : Nat) : Decidable (assertsPass a period callback) := by
  unfold assertsPass; infer_instance

/-- The state after an admission into slot `numOfJobs`. -/
def admitJob (period callback : Nat) (s : Scheduler_t) : Scheduler_t :=
  { s with
    jobs := Function.update s.jobs s.numOfJobs (admittedJob period callback)
    numOfJobs := s.numOfJobs + 1 }

/-- A table of three jobs part-way through their periods; job 1 and job 2 tie
for the lowest remaining time. -/
def threeJobs : Scheduler_t :=
  { startTime := 40, isRunning := 1, numOfJobs := 3,
    jobs := fun i => if i = 0 then ⟨5, 4, 0, 1⟩ else if i = 1 then ⟨10, 2, 0, 2⟩
      else if i = 2 then ⟨7, 2, 1, 3⟩ else ⟨0, 0, 0, 0⟩ }

/-! The epoch clock (`rtc.c`) -/

/-- Reduction of a value to the range of `uint32_t`. -/
def wrap32 (x : Nat) : Nat := x % 4294967296

/-- Subtraction of two `uint32_t` values, as C computes it (modulo `2^32`). -/
def sub32 (a b : Nat) : Nat := wrap32 (a + (4294967296 - wrap32 b))

/-- Addition of two `uint32_t` values, as C computes it (modulo `2^32`). -/
def add32 (a b : Nat) : Nat := wrap32 (a + b)

/-- Broken-down time `struct tm` of the C library (`time.h`). -/
structure tm where
  /-- Seconds after the minute. -/
  tm_sec : Nat
  /-- Minutes after the hour. -/
  tm_min : Nat
  /-- Hours since midnight. -/
  tm_hour : Nat
  /-- Day of the month, from 1. -/
  tm_mday : Nat
  /-- Months since January. -/
  tm_mon : Nat
  /-- Years since 1900. -/
  tm_year : Nat
  /-- Days since Sunday. -/
  tm_wday : Nat
  /-- Days since January 1. -/
  tm_yday : Nat
  /-- Daylight saving time flag. -/
  tm_isdst : Nat
deriving DecidableEq, Repr

/-- Gregorian leap year test of the C library. -/
def isleap (y : Nat) : Bool :=
  (y % 4 == 0 && y % 100 != 0) || y % 400 == 0

/-- Modelled from the spec: the C library function `localtime`, which is not
among the sources. The spec only says that an epoch is an integer count of
seconds since a fixed reference instant and that it is converted to calendar
fields; the fields are computed here the way C libraries for targets without
time zone data do it: UTC, Gregorian calendar, era-based arithmetic on the day
number counted from 1 March of year 0. `rawTime` is a `time_t` holding the
`uint32_t` epoch unchanged (a `time_t` wider than 32 bits). -/
def localtime (rawTime : Nat) : tm :=
  let days := rawTime / 86400 + 719468
  let remain := rawTime % 86400
  let era := days / 146097
  let eraday := days - era * 146097
  let erayear := (eraday - eraday / 1460 + eraday / 36524 - eraday / 146096) / 365
  let yearday := eraday - (365 * erayear + erayear / 4 - erayear / 100)
  let month := (5 * yearday + 2) / 153
  let day := yearday - (153 * month + 2) / 5 + 1
  let month := if month < 10 then month + 2 else month - 10
  let year := erayear + era * 400 + (if month ≤ 1 then 1 else 0)
  { tm_sec := remain % 3600 % 60
    tm_min := remain % 3600 / 60
    tm_hour := remain / 3600
    tm_mday := day
    tm_mon := month
    tm_year := year - 1900
    tm_wday := (3 + days) % 7
    tm_yday := if yearday ≥ 306 then yearday - 306
      else yearday + 59 + (if isleap erayear then 1 else 0)
    tm_isdst := 0 }

/-- Days from 1 January to the first day of month `mon` (0 = January) in a
year that is not a leap year. -/
def daysBeforeMonth (mon : Nat) : Nat :=
  match mon with
  | 0 => 0 | 1 => 31 | 2 => 59 | 3 => 90 | 4 => 120 | 5 => 151
  | 6 => 181 | 7 => 212 | 8 => 243 | 9 => 273 | 10 => 304 | _ => 334

/-- Modelled from the spec: the C library function `mktime`, which is not among
the sources. The spec only says that calendar fields are converted to the
epoch; the value is the POSIX "seconds since the Epoch" of the broken-down
time, read as UTC, with the day of the year derived from `tm_mon` and
`tm_mday` (the incoming `tm_wday` and `tm_yday` are ignored). The fields are
taken to be in their normal ranges, as the RTC calendar delivers them, and
`tm_year` to be 70 or more. -/
def mktime (t : tm) : Nat :=
  let tm_yday := daysBeforeMonth t.tm_mon +
    (if t.tm_mon > 1 && isleap (1900 + t.tm_year) then 1 else 0) + (t.tm_mday - 1)
  t.tm_sec + t.tm_min * 60 + t.tm_hour * 3600 + tm_yday * 86400 +
    (t.tm_year - 70) * 31536000 + ((t.tm_year - 69) / 4) * 86400 -
    ((t.tm_year - 1) / 100) * 86400 + ((t.tm_year + 299) / 400) * 86400

/-- Return status of a HAL call (`HAL_StatusTypeDef`). -/
inductive HAL_StatusTypeDef where
  | HAL_OK
  | HAL_ERROR
  | HAL_BUSY
  | HAL_TIMEOUT
deriving DecidableEq, Repr

/-- HAL time structure (`RTC_TimeTypeDef`), binary format. -/
structure RTC_TimeTypeDef where
  Hours : Nat
  Minutes : Nat
  Seconds : Nat
  TimeFormat : Nat
  SubSeconds : Nat
  SecondFraction : Nat
  DayLightSaving : Nat
  StoreOperation : Nat
deriving DecidableEq, Repr

/-- HAL date structure (`RTC_DateTypeDef`), binary format. -/
structure RTC_DateTypeDef where
  WeekDay : Nat
  Month : Nat
  Date : Nat
  Year : Nat
deriving DecidableEq, Repr

/-- HAL alarm structure (`RTC_AlarmTypeDef`). -/
structure RTC_AlarmTypeDef where
  AlarmTime : RTC_TimeTypeDef
  AlarmMask : Nat
  AlarmSubSecondMask : Nat
  AlarmDateWeekDaySel : Nat
  AlarmDateWeekDay : Nat
  Alarm : Nat
deriving DecidableEq, Repr

/-- HAL constant `RTC_WEEKDAY_SUNDAY`. -/
def RTC_WEEKDAY_SUNDAY : Nat := 7

/-- HAL constant `RTC_ALARM_A` (the enable bit of alarm A). -/
def RTC_ALARM_A : Nat := 256

/-- HAL constant `RTC_ALARMDATEWEEKDAYSEL_DATE`: the alarm compares the day of
the month, not the day of the week. -/
def RTC_ALARMDATEWEEKDAYSEL_DATE : Nat := 0

/-- HAL constant `RTC_ALARMMASK_NONE`: no field of the alarm is masked. -/
def RTC_ALARMMASK_NONE : Nat := 0

/-- HAL constant `RTC_ALARMSUBSECONDMASK_ALL`: sub-seconds are not compared. -/
def RTC_ALARMSUBSECONDMASK_ALL : Nat := 0

/-- HAL constant `RTC_DAYLIGHTSAVING_NONE`. -/
def RTC_DAYLIGHTSAVING_NONE : Nat := 0

/-- HAL constant `RTC_STOREOPERATION_RESET`. -/
def RTC_STOREOPERATION_RESET : Nat := 0

/-- An alarm operation requested from `rtc.c`, kept for bookkeeping. -/
inductive RtcCall where
  /-- A call `RtcSetAlarmFromEpoch(epoch)` and the value it returned. -/
  | setAlarmFromEpoch (epoch : Nat) (result : Nat)
  /-- A call `RtcDeactivateAlarm()`. -/
  | deactivateAlarm
deriving DecidableEq, Repr

/-- The RTC peripheral behind the handle `hrtc`. -/
structure Rtc where
  /-- Calendar date, as `HAL_RTC_GetDate` reports it in binary format. -/
  date : RTC_DateTypeDef
  /-- Calendar time, as `HAL_RTC_GetTime` reports it in binary format. -/
  time : RTC_TimeTypeDef
  /-- Alarm A: the alarm programmed and enabled, `none` when disabled. -/
  alarmA : Option RTC_AlarmTypeDef
  /-- Bookkeeping of the model, not a C variable: the alarm operations
  requested from `rtc.c` so far, oldest first. -/
  calls : List RtcCall
deriving DecidableEq, Repr

/-- A zero-initialised `RTC_TimeTypeDef`. -/
def zeroTime : RTC_TimeTypeDef := ⟨0, 0, 0, 0, 0, 0, 0, 0⟩

/-- A zero-initialised `RTC_DateTypeDef`. -/
def zeroDate : RTC_DateTypeDef := ⟨0, 0, 0, 0⟩

/-- Modelled from the spec: the HAL function `HAL_RTC_SetAlarm_IT`, which is
not among the sources. The status it reports is a parameter. On success exactly
one wake event is programmed and any previously armed alarm is replaced; on
failure no alarm is pending. -/
def HAL_RTC_SetAlarm_IT (status : HAL_StatusTypeDef) (sAlarm : RTC_AlarmTypeDef)
    (rtc : Rtc) : HAL_StatusTypeDef × Rtc :=
  if status = HAL_StatusTypeDef.HAL_OK then (status, { rtc with alarmA := some sAlarm })
  else (status, { rtc with alarmA := none })

/-- Modelled from the spec: the HAL function `HAL_RTC_DeactivateAlarm`, which
is not among the sources: it cancels a pending alarm and is idempotent if none
is armed. -/
def HAL_RTC_DeactivateAlarm (rtc : Rtc) : Rtc :=
  { rtc with alarmA := none }

/-- Function `RtcGetEpoch`: reads time and date from the RTC and converts them
with `mktime`; the `time_t` is narrowed to `uint32_t`. The C code leaves
`tm_wday` and `tm_yday` unset, `mktime` does not read them. -/
def RtcGetEpoch (rtc : Rtc) : Nat :=
  let time := rtc.time
  let date := rtc.date
  let dateTime : tm :=
    { tm_year := date.Year + 100
      tm_mon := date.Month - 1
      tm_mday := date.Date
      tm_hour := time.Hours
      tm_min := time.Minutes
      tm_sec := time.Seconds
      tm_isdst := 0
      tm_wday := 0
      tm_yday := 0 }
  let epoch := mktime dateTime
  wrap32 epoch

/-- Function `RtcConvertEpochToDatetime`: `date` and `time` are the structures
the two pointers refer to before the call, the result is what they hold after
it. The year is `tm_year - 100U` narrowed to `uint8_t`; the other fields fit
their `uint8_t`. Both pointers are non-null at the only call site, so the two
assertions pass. -/
def RtcConvertEpochToDatetime (epoch : Nat) (date : RTC_DateTypeDef)
    (time : RTC_TimeTypeDef) : RTC_DateTypeDef × RTC_TimeTypeDef :=
  let rawTime := epoch
  let dateTime := localtime rawTime
  ({ date with
      Year := (dateTime.tm_year + 156) % 256
      Month := dateTime.tm_mon + 1
      Date := dateTime.tm_mday
      WeekDay := if dateTime.tm_wday = 0 then RTC_WEEKDAY_SUNDAY else dateTime.tm_wday },
   { time with
      Hours := dateTime.tm_hour
      Minutes := dateTime.tm_min
      Seconds := dateTime.tm_sec
      SubSeconds := 0 })

/-- The alarm structure that `RtcSetAlarmFromEpoch` fills in from the converted
date and time (lines 161 to 171 of `rtc.c`). The fields the function does not
assign keep the zero of the static initialiser. -/
def RtcSetAlarmFromEpoch.sAlarm (date : RTC_DateTypeDef) (time : RTC_TimeTypeDef) :
    RTC_AlarmTypeDef :=
  { Alarm := RTC_ALARM_A
    AlarmDateWeekDay := date.Date
    AlarmDateWeekDaySel := RTC_ALARMDATEWEEKDAYSEL_DATE
    AlarmTime :=
      { Hours := time.Hours
        Minutes := time.Minutes
        Seconds := time.Seconds
        SubSeconds := time.SubSeconds
        DayLightSaving := RTC_DAYLIGHTSAVING_NONE
        StoreOperation := RTC_STOREOPERATION_RESET
        TimeFormat := 0
        SecondFraction := 0 }
    AlarmMask := RTC_ALARMMASK_NONE
    AlarmSubSecondMask := RTC_ALARMSUBSECONDMASK_ALL }

/-- Function `RtcSetAlarmFromEpoch(epoch)`: the returned `uint8_t` and the RTC
afterwards. `status` is what the HAL call reports if it is made. The static
locals `date` and `time` are written by the conversion before they are read;
the fields the conversion leaves alone are zero from the initialiser. -/
def RtcSetAlarmFromEpoch (status : HAL_StatusTypeDef) (epoch : Nat) (rtc : Rtc) :
    Nat × Rtc :=
  let result : Nat := 0
  if epoch > RtcGetEpoch rtc then
    let dt := RtcConvertEpochToDatetime epoch zeroDate zeroTime
    let sAlarm := RtcSetAlarmFromEpoch.sAlarm dt.1 dt.2
    let hal := HAL_RTC_SetAlarm_IT status sAlarm rtc
    let result := if hal.1 = HAL_StatusTypeDef.HAL_OK then 1 else result
    (result, { hal.2 with calls := rtc.calls ++ [RtcCall.setAlarmFromEpoch epoch result] })
  else
    (0, { rtc with calls := rtc.calls ++ [RtcCall.setAlarmFromEpoch epoch 0] })

/-- Function `RtcDeactivateAlarm`. -/
def RtcDeactivateAlarm (rtc : Rtc) : Rtc :=
  { HAL_RTC_DeactivateAlarm rtc with calls := rtc.calls ++ [RtcCall.deactivateAlarm] }

/-! The orchestration (`scheduler.c`) -/

/-- Function `SchedulerProcess`: the RTC and the scheduler object after the
call. `status` is what the HAL reports if the call programs an alarm. -/
def SchedulerProcess (status : HAL_StatusTypeDef) (rtc : Rtc)
    (scheduler : Scheduler_t) : Rtc × Scheduler_t :=
  let first : Nat × Scheduler_t :=
    if scheduler.isRunning ≠ 0 then
      let elapsedTime := sub32 (RtcGetEpoch rtc) scheduler.startTime
      if elapsedTime > 0 then
        (1, Scheduler_ProcessRemainingTime elapsedTime scheduler)
      else
        (0, scheduler)
    else
      (1, scheduler)
  let isScheduleNextJob := first.1
  let scheduler := first.2
  if isScheduleNextJob ≠ 0 then
    let indexOfNextJob := SchedulerProcess.indexOfNextJob scheduler
    if (scheduler.jobs indexOfNextJob).remainingTime > 0 then
      let scheduler := { scheduler with startTime := RtcGetEpoch rtc }
      let set := RtcSetAlarmFromEpoch status
        (add32 scheduler.startTime (scheduler.jobs indexOfNextJob).remainingTime) rtc
      if set.1 ≠ 0 then
        (set.2, { scheduler with isRunning := 1 })
      else
        (set.2, scheduler)
    else
      (rtc, scheduler)
  else
    (rtc, scheduler)

/-- Body of the loop of `SchedulerExecutePendingJobs` for slot `i`. The first
component collects the addresses of the callbacks called so far, oldest first.
A callback is taken not to write the scheduler object (those of `main.c` only
notify a task). -/
def SchedulerExecutePendingJobs.body (acc : List Nat × Scheduler_t) (i : Nat) :
    List Nat × Scheduler_t :=
  let scheduler := acc.2
  if (scheduler.jobs i).isPending ≠ 0 then
    let called :=
      if (scheduler.jobs i).callback ≠ 0 then acc.1 ++ [(scheduler.jobs i).callback]
      else acc.1
    (called,
      { scheduler with
        jobs := Function.update scheduler.jobs i { scheduler.jobs i with isPending := 0 } })
  else
    acc

/-- Function `SchedulerExecutePendingJobs`: the callbacks called, in the order
of the calls, and the scheduler object afterwards. -/
def SchedulerExecutePendingJobs (scheduler : Scheduler_t) : List Nat × Scheduler_t :=
  (List.range scheduler.numOfJobs).foldl SchedulerExecutePendingJobs.body ([], scheduler)

/-- Function `SchedulerStop`: the RTC and the scheduler object after the call. -/
def SchedulerStop (rtc : Rtc) (scheduler : Scheduler_t) : Rtc × Scheduler_t :=
  if scheduler.isRunning ≠ 0 then
    let rtc := RtcDeactivateAlarm rtc
    let elapsedTime := sub32 (RtcGetEpoch rtc) scheduler.startTime
    let scheduler :=
      if elapsedTime > 0 then Scheduler_ProcessRemainingTime elapsedTime scheduler
      else scheduler
    (rtc, { scheduler with isRunning := 0 })
  else
    (rtc, scheduler)

/-- The RTC as `RtcInit` leaves it: Wednesday 24 February 2021, 11:00:00, no
alarm programmed. -/
def rtcAfterInit : Rtc :=
  { date := { WeekDay := 3, Month := 2, Date := 24, Year := 21 }
    time := { zeroTime with Hours := 11 }
    alarmA := none
    calls := [] }

/-- An RTC whose calendar shows the fields of `epoch`, with no alarm
programmed. -/
def rtcAt (epoch : Nat) : Rtc :=
  { date := (RtcConvertEpochToDatetime epoch zeroDate zeroTime).1
    time := (RtcConvertEpochToDatetime epoch zeroDate zeroTime).2
    alarmA := none
    calls := [] }

/-- The remaining time of the job the search loop of `SchedulerProcess`
selects. -/
def nextRemainingTime (scheduler : Scheduler_t) : Nat :=
  (scheduler.jobs (SchedulerProcess.indexOfNextJob scheduler)).remainingTime

/-- The scheduler of `main` right after its first `SchedulerProcess` at the
epoch `RtcInit` sets: both jobs admitted, running, `startTime` equal to that
epoch. -/
def startedExample : Scheduler_t :=
  { startTime := 1614164400, isRunning := 1, numOfJobs := 2,
    jobs := fun i => if i = 0 then ⟨5, 5, 0, 1⟩ else if i = 1 then ⟨10, 10, 0, 2⟩
      else ⟨0, 0, 0, 0⟩ }

/-- The scheduler of `main` with both jobs admitted and not yet started. -/
def admittedExample : Scheduler_t :=
  { startTime := 0, isRunning := 0, numOfJobs := 2,
    jobs := fun i => if i = 0 then ⟨5, 5, 0, 1⟩ else if i = 1 then ⟨10, 10, 0, 2⟩
      else ⟨0, 0, 0, 0⟩ }

/-- A scheduler that was initialised, given one job of period 5 and then
initialised again: the table is empty and slot 0 still holds the job. -/
def reinitExample : Scheduler_t :=
  SchedulerInit (SchedulerAddJob false 5 1 (SchedulerInit bootScheduler)).2

/-- Three jobs of which the first and the third are pending; the third has no
callback. -/
def pendingExample : Scheduler_t :=
  { startTime := 40, isRunning := 1, numOfJobs := 3,
    jobs := fun i => if i = 0 then ⟨5, 5, 1, 11⟩ else if i = 1 then ⟨10, 2, 0, 22⟩
      else if i = 2 then ⟨7, 7, 1, 0⟩ else ⟨0, 0, 0, 0⟩ }

/-- Day number (days since 1 January 1970) of the first day of month `mon`
(0 = January) of the year `1900 + ty`, for the years 2000 to 2099, in which
every fourth year is a leap year. -/
def monthStart (ty mon : Nat) : Nat :=
  10957 + 365 * (ty - 100) + (ty - 97) / 4 + daysBeforeMonth mon +
    (if 1 < mon ∧ ty % 4 = 0 then 1 else 0)

/-- Modelled from the spec: the comparison the RTC peripheral makes for alarm A,
which is hardware and not among the sources. The spec speaks of one wake event
at the target instant; for an alarm programmed with no field masked and with
the day-of-month selection, the event is due in the second in which day of the
month, hours, minutes and seconds of the calendar equal those of the alarm. -/
def alarmMatches (sAlarm : RTC_AlarmTypeDef) (date : RTC_DateTypeDef)
    (time : RTC_TimeTypeDef) : Bool :=
  sAlarm.AlarmDateWeekDay == date.Date && sAlarm.AlarmTime.Hours == time.Hours &&
    sAlarm.AlarmTime.Minutes == time.Minutes && sAlarm.AlarmTime.Seconds == time.Seconds

/-! Sequences of scheduler calls -/

/-- One call of the scheduler interface together with what it meets outside the
scheduler object: the RTC at the time of the call and the status the HAL will
report. Between two calls the RTC may change in any way. -/
inductive SchedulerOp where
  /-- A call `SchedulerInit()`. -/
  | init
  /-- A call `SchedulerAddJob(period, callback)`. -/
  | addJob (USE_FULL_ASSERT : Bool) (period callback : Nat)
  /-- A call `SchedulerProcess()`. -/
  | process (status : HAL_StatusTypeDef) (rtc : Rtc)
  /-- A call `SchedulerExecutePendingJobs()`. -/
  | executePendingJobs
  /-- A call `SchedulerStop()`. -/
  | stop (rtc : Rtc)

/-- The scheduler object after one call. For a `SchedulerAddJob` that an
assertion stops, this is the object at the time the call gets stuck. -/
def SchedulerOp.apply (op : SchedulerOp) (scheduler : Scheduler_t) : Scheduler_t :=
  match op with
  | SchedulerOp.init => SchedulerInit scheduler
  | SchedulerOp.addJob a period callback => (SchedulerAddJob a period callback scheduler).2
  | SchedulerOp.process status rtc => (SchedulerProcess status rtc scheduler).2
  | SchedulerOp.executePendingJobs => (SchedulerExecutePendingJobs scheduler).2
  | SchedulerOp.stop rtc => (SchedulerStop rtc scheduler).2

/-- The scheduler object after a sequence of calls, first call first. -/
def runOps (ops : List SchedulerOp) (scheduler : Scheduler_t) : Scheduler_t :=
  ops.foldl (fun s op => op.apply s) scheduler

/-- The call is none of `SchedulerInit`. -/
def SchedulerOp.isNotInit (op : SchedulerOp) : Bool :=
  match op with
  | SchedulerOp.init => false
  | _ => true

/-- The call is one of `SchedulerProcess`, `SchedulerExecutePendingJobs` and
`SchedulerStop`. -/
def SchedulerOp.isRunTime (op : SchedulerOp) : Bool :=
  match op with
  | SchedulerOp.process _ _ => true
  | SchedulerOp.executePendingJobs => true
  | SchedulerOp.stop _ => true
  | _ => false

/-- The result of the `k`-th `SchedulerProcess` call of a run in which every
HAL alarm call reports `HAL_OK`, `rtcs k` is the RTC that call meets, and
`SchedulerExecutePendingJobs` runs after each `SchedulerProcess`. Call 0 is the
first call, made on `scheduler`. -/
def wakeRun (rtcs : Nat → Rtc) (scheduler : Scheduler_t) : Nat → Rtc × Scheduler_t
  | 0 => SchedulerProcess HAL_StatusTypeDef.HAL_OK (rtcs 0) scheduler
  | k + 1 =>
    SchedulerProcess HAL_StatusTypeDef.HAL_OK (rtcs (k + 1))
      (SchedulerExecutePendingJobs (wakeRun rtcs scheduler k).2).2

/-! Entering and leaving STOP2 (`core_stop.c`) -/

/-- One statement of `core_stop.c` that acts on the hardware or on the flag
`isCoreStopped`. A call of a function of another file is one step. -/
inductive CoreStep where
  /-- Intrinsic `__set_BASEPRI(value)`. -/
  | set_BASEPRI (value : Nat)
  /-- Barrier `__DSB()`. -/
  | DSB
  /-- Barrier `__ISB()`. -/
  | ISB
  /-- Assignment `isCoreStopped = value`. -/
  | write_isCoreStopped (value : Nat)
  /-- Statement `CLEAR_BIT(SysTick->CTRL, SysTick_CTRL_ENABLE_Msk)`. -/
  | SysTick_CTRL_clear_ENABLE
  /-- Statement `SET_BIT(SysTick->CTRL, SysTick_CTRL_ENABLE_Msk)`. -/
  | SysTick_CTRL_set_ENABLE
  | HAL_RCC_DeInit
  | HAL_SuspendTick
  | GpioDeinit
  | HAL_RCC_FLASH_CLK_DISABLE
  | HAL_RCC_PWR_CLK_DISABLE
  | HAL_RCC_SYSCFG_CLK_DISABLE
  /-- Statement `RCC->AHB1SMENR = 0U`. -/
  | RCC_AHB1SMENR_clear
  /-- Statement `RCC->AHB2SMENR = 0U`. -/
  | RCC_AHB2SMENR_clear
  /-- Statement `RCC->AHB3SMENR = 0U`. -/
  | RCC_AHB3SMENR_clear
  /-- Statement `RCC->APB1SMENR1 = 0U`. -/
  | RCC_APB1SMENR1_clear
  /-- Statement `RCC->APB1SMENR2 = 0U`. -/
  | RCC_APB1SMENR2_clear
  /-- Statement `RCC->APB2SMENR = 0U`. -/
  | RCC_APB2SMENR_clear
  | HAL_RCC_PWR_CLK_ENABLE
  /-- Call `HAL_RCCEx_WakeUpStopCLKConfig(RCC_STOP_WAKEUPCLOCK_MSI)`. -/
  | HAL_RCCEx_WakeUpStopCLKConfig
  /-- Call `HAL_PWREx_EnterSTOP2Mode(PWR_STOPENTRY_WFI)`. -/
  | HAL_PWREx_EnterSTOP2Mode
  | SystemClockConfig
  | RtcWaitForClockSynchronization
  | GpioInit
deriving DecidableEq, Repr

/-- What `core_stop.c` owns and does: the flag `isCoreStopped` (non-zero means
the power state is Suspended, zero means Active) and, as bookkeeping of the
model, the steps performed so far, oldest first. -/
structure Core where
  /-- The static variable `isCoreStopped`. -/
  isCoreStopped : Nat
  /-- The steps performed so far, oldest first. -/
  steps : List CoreStep
deriving DecidableEq, Repr

/-- Performing one step. -/
def Core.step (core : Core) (s : CoreStep) : Core :=
  { core with steps := core.steps ++ [s] }

/-- The assignment `isCoreStopped = value`. -/
def Core.write_isCoreStopped (core : Core) (value : Nat) : Core :=
  { isCoreStopped := value, steps := core.steps ++ [CoreStep.write_isCoreStopped value] }

/-- Function `EnterStop2Mode`. The constants `TICK_INT_PRIORITY` (HAL
configuration header) and `__NVIC_PRIO_BITS` (device header) are not among the
sources and are parameters. The function returns once the core has left STOP2
again. -/
def EnterStop2Mode (TICK_INT_PRIORITY NVIC_PRIO_BITS : Nat) (core : Core) : Core :=
  let core := core.step
    (CoreStep.set_BASEPRI ((TICK_INT_PRIORITY + 1) <<< (8 - NVIC_PRIO_BITS)))
  let core := core.step CoreStep.DSB
  let core := core.step CoreStep.ISB
  let core := core.write_isCoreStopped 1
  let core := core.step CoreStep.SysTick_CTRL_clear_ENABLE
  let core := core.step CoreStep.HAL_RCC_DeInit
  let core := core.step CoreStep.HAL_SuspendTick
  let core := core.step CoreStep.GpioDeinit
  let core := core.step CoreStep.HAL_RCC_FLASH_CLK_DISABLE
  let core := core.step CoreStep.HAL_RCC_PWR_CLK_DISABLE
  let core := core.step CoreStep.HAL_RCC_SYSCFG_CLK_DISABLE
  let core := core.step CoreStep.RCC_AHB1SMENR_clear
  let core := core.step CoreStep.RCC_AHB2SMENR_clear
  let core := core.step CoreStep.RCC_AHB3SMENR_clear
  let core := core.step CoreStep.RCC_APB1SMENR1_clear
  let core := core.step CoreStep.RCC_APB1SMENR2_clear
  let core := core.step CoreStep.RCC_APB2SMENR_clear
  let core := core.step CoreStep.HAL_RCC_PWR_CLK_ENABLE
  let core := core.step CoreStep.HAL_RCCEx_WakeUpStopCLKConfig
  let core := core.step (CoreStep.set_BASEPRI 0)
  let core := core.step CoreStep.HAL_RCC_PWR_CLK_ENABLE
  core.step CoreStep.HAL_PWREx_EnterSTOP2Mode

/-- Function `ResumeFromStop2Mode`. The first component is `none` when the call
never returns: `SystemClockConfig` (`hardware.c`) enters `ErrorHandler`, which
loops forever, as soon as one of its HAL calls does not report `HAL_OK`;
`clockConfigOk` says that all of them do. -/
def ResumeFromStop2Mode (TICK_INT_PRIORITY NVIC_PRIO_BITS : Nat) (clockConfigOk : Bool)
    (core : Core) : Option Unit × Core :=
  if core.isCoreStopped ≠ 0 then
    let core := core.step
      (CoreStep.set_BASEPRI ((TICK_INT_PRIORITY + 1) <<< (8 - NVIC_PRIO_BITS)))
    let core := core.step CoreStep.DSB
    let core := core.step CoreStep.ISB
    let core := core.step CoreStep.SystemClockConfig
    if clockConfigOk = false then (none, core)
    else
      let core := core.step CoreStep.RtcWaitForClockSynchronization
      let core := core.step CoreStep.GpioInit
      let core := core.step CoreStep.SysTick_CTRL_set_ENABLE
      let core := core.write_isCoreStopped 0
      let core := core.step (CoreStep.set_BASEPRI 0)
      (some (), core)
  else
    (some (), core)

/-- The step tears down a clock or the GPIO: SysTick stop, `HAL_RCC_DeInit`,
tick suspension, GPIO de-initialisation, peripheral clock disable. -/
def CoreStep.isTeardown (s : CoreStep) : Bool :=
  match s with
  | CoreStep.SysTick_CTRL_clear_ENABLE => true
  | CoreStep.HAL_RCC_DeInit => true
  | CoreStep.HAL_SuspendTick => true
  | CoreStep.GpioDeinit => true
  | CoreStep.HAL_RCC_FLASH_CLK_DISABLE => true
  | CoreStep.HAL_RCC_PWR_CLK_DISABLE => true
  | CoreStep.HAL_RCC_SYSCFG_CLK_DISABLE => true
  | CoreStep.RCC_AHB1SMENR_clear => true
  | CoreStep.RCC_AHB2SMENR_clear => true
  | CoreStep.RCC_AHB3SMENR_clear => true
  | CoreStep.RCC_APB1SMENR1_clear => true
  | CoreStep.RCC_APB1SMENR2_clear => true
  | CoreStep.RCC_APB2SMENR_clear => true
  | _ => false

/-- The core in the Active power state with nothing done yet. -/
def activeCore : Core := { isCoreStopped := 0, steps := [] }

/-! Admission -/

/-- With assertions compiled out every argument pair passes. -/
theorem assertsPass_false (period callback : Nat) : assertsPass false period callback :=
  fun h => Bool.noConfusion h

/-- Past the assertions, `SchedulerAddJob` is the two nested tests of the C
function, and the value returned is `0` on every path. -/
theorem SchedulerAddJob_of_assertsPass (a : Bool) (period callback : Nat)
    (s : Scheduler_t) (h : assertsPass a period callback) :
    SchedulerAddJob a period callback s =
      if s.isRunning = 0 then
        if s.numOfJobs < MAX_NUM_OF_JOBS then (some 0, admitJob period callback s)
        else (some 0, s)
      else (some 0, s) := by
  cases a with
  | false => simp [SchedulerAddJob, assert_param, admittedJob, admitJob]
  | true =>
    obtain ⟨hp, hc⟩ := h rfl
    simp [SchedulerAddJob, assert_param, admittedJob, admitJob, hp, hc]

/-- A call stopped by an assertion does not return and has written nothing. -/
theorem SchedulerAddJob_of_not_assertsPass (period callback : Nat)
    (s : Scheduler_t) (h : period = 0 ∨ callback = 0) :
    SchedulerAddJob true period callback s = (none, s) := by
  rcases h with h | h
  · simp [SchedulerAddJob, assert_param, h]
  · by_cases hp : 0 < period <;> simp [SchedulerAddJob, assert_param, h, hp]

/-- A call that the assertions do not let through never returns and leaves
the scheduler object as it was. -/
theorem SchedulerAddJob_of_assert_failed (a : Bool) (period callback : Nat)
    (s : Scheduler_t) (h : ¬ assertsPass a period callback) :
    SchedulerAddJob a period callback s = (none, s) := by
  cases a with
  | false => exact absurd (assertsPass_false period callback) h
  | true =>
    have h' : period = 0 ∨ callback = 0 := by
      unfold assertsPass at h
      by_contra hc
      push_neg at hc
      exact h (fun _ => ⟨Nat.pos_of_ne_zero hc.1, hc.2⟩)
    exact SchedulerAddJob_of_not_assertsPass period callback s h'

/-- Whatever the arguments, a running scheduler is not written by
`SchedulerAddJob`. -/
theorem SchedulerAddJob_state_of_running (a : Bool) (period callback : Nat)
    (s : Scheduler_t) (hrun : s.isRunning ≠ 0) :
    (SchedulerAddJob a period callback s).2 = s := by
  by_cases h : assertsPass a period callback
  · rw [SchedulerAddJob_of_assertsPass a period callback s h, if_neg hrun]
  · rw [SchedulerAddJob_of_assert_failed a period callback s h]

/-- Whatever the arguments, a stopped scheduler with a full table is not
written by `SchedulerAddJob`. -/
theorem SchedulerAddJob_state_of_full (a : Bool) (period callback : Nat)
    (s : Scheduler_t) (hrun : s.isRunning = 0) (hfull : s.numOfJobs = MAX_NUM_OF_JOBS) :
    (SchedulerAddJob a period callback s).2 = s := by
  by_cases h : assertsPass a period callback
  · rw [SchedulerAddJob_of_assertsPass a period callback s h, if_pos hrun,
      if_neg (by omega)]
  · rw [SchedulerAddJob_of_assert_failed a period callback s h]

/-- C1 (the code departs from it): on the start-up sequence of `main`, the
first `SchedulerAddJob(5, callback)` after `SchedulerInit` admits the job
(`numOfJobs` becomes 1, slot 0 holds the job) and still returns `0`, the value
documented for a failed admission; this holds without and with
`USE_FULL_ASSERT`. -/
theorem SchedulerAddJob_returns_zero_on_success :
    (SchedulerAddJob false 5 1 (SchedulerInit bootScheduler)).1 = some 0 ∧
    (SchedulerAddJob false 5 1 (SchedulerInit bootScheduler)).2.numOfJobs = 1 ∧
    (SchedulerAddJob false 5 1 (SchedulerInit bootScheduler)).2.jobs 0 = ⟨5, 5, 0, 1⟩ ∧
    (SchedulerAddJob true 5 1 (SchedulerInit bootScheduler)).1 = some 0 ∧
    (SchedulerAddJob true 5 1 (SchedulerInit bootScheduler)).2.numOfJobs = 1 ∧
    (SchedulerAddJob true 5 1 (SchedulerInit bootScheduler)).2.jobs 0 = ⟨5, 5, 0, 1⟩ := by
  simp [SchedulerAddJob, assert_param, SchedulerInit, bootScheduler, MAX_NUM_OF_JOBS]

/-- C2 fails as stated: under `USE_FULL_ASSERT`, on a running scheduler,
`SchedulerAddJob(0, cb)` and `SchedulerAddJob(5, NULL)` enter `assert_failed`
before the `isRunning` test is reached and never return, so they do not return
zero. -/
theorem SchedulerAddJob_while_running_counterexample :
    runningExample.isRunning ≠ 0 ∧
    (SchedulerAddJob true 0 1 runningExample).1 = none ∧
    (SchedulerAddJob true 0 1 runningExample).1 ≠ some 0 ∧
    (SchedulerAddJob true 5 0 runningExample).1 = none ∧
    (SchedulerAddJob true 5 0 runningExample).1 ≠ some 0 := by
  refine ⟨by decide, ?_, ?_, ?_, ?_⟩ <;>
    simp [SchedulerAddJob, assert_param]

/-- C2 as amended: when `isRunning != 0`, `SchedulerAddJob` leaves the whole
scheduler object unchanged for every period and callback. With assertions
compiled out it returns zero for every period and callback. Under
`USE_FULL_ASSERT` it returns zero for a positive period with a non-null
callback, and for a zero period or a null callback it never returns. -/
theorem SchedulerAddJob_running (a : Bool) (period callback : Nat) (s : Scheduler_t)
    (hrun : s.isRunning ≠ 0) :
    (SchedulerAddJob a period callback s).2 = s ∧
    SchedulerAddJob false period callback s = (some 0, s) ∧
    (0 < period → callback ≠ 0 →
      SchedulerAddJob true period callback s = (some 0, s)) ∧
    (period = 0 ∨ callback = 0 →
      SchedulerAddJob true period callback s = (none, s)) := by
  refine ⟨SchedulerAddJob_state_of_running a period callback s hrun, ?_,
    fun hp hc => ?_, fun hargs => ?_⟩
  · rw [SchedulerAddJob_of_assertsPass false period callback s
      (assertsPass_false period callback), if_neg hrun]
  · rw [SchedulerAddJob_of_assertsPass true period callback s (fun _ => ⟨hp, hc⟩),
      if_neg hrun]
  · exact SchedulerAddJob_of_not_assertsPass period callback s hargs

/-- Witness of C2 as amended: a running scheduler, period 0 with a non-null
callback in both builds, and period 5 with a non-null callback under
`USE_FULL_ASSERT`. -/
theorem SchedulerAddJob_running_witness :
    runningExample.isRunning ≠ 0 ∧
    (SchedulerAddJob true 0 1 runningExample).2 = runningExample ∧
    SchedulerAddJob false 0 1 runningExample = (some 0, runningExample) ∧
    SchedulerAddJob true 0 1 runningExample = (none, runningExample) ∧
    SchedulerAddJob true 5 1 runningExample = (some 0, runningExample) :=
  ⟨by decide, (SchedulerAddJob_running true 0 1 runningExample (by decide)).1,
    (SchedulerAddJob_running true 0 1 runningExample (by decide)).2.1,
    (SchedulerAddJob_running true 0 1 runningExample (by decide)).2.2.2 (Or.inl rfl),
    (SchedulerAddJob_running true 5 1 runningExample (by decide)).2.2.1
      (by decide) (by decide)⟩

/-- C3 fails as stated: under `USE_FULL_ASSERT`, on a stopped scheduler with a
full table, `SchedulerAddJob(0, cb)` and `SchedulerAddJob(5, NULL)` enter
`assert_failed` before the capacity test is reached and never return, so they
do not return zero. -/
theorem SchedulerAddJob_table_full_counterexample :
    fullExample.isRunning = 0 ∧ fullExample.numOfJobs = MAX_NUM_OF_JOBS ∧
    (SchedulerAddJob true 0 1 fullExample).1 = none ∧
    (SchedulerAddJob true 0 1 fullExample).1 ≠ some 0 ∧
    (SchedulerAddJob true 5 0 fullExample).1 = none ∧
    (SchedulerAddJob true 5 0 fullExample).1 ≠ some 0 := by
  refine ⟨rfl, rfl, ?_, ?_, ?_, ?_⟩ <;>
    simp [SchedulerAddJob, assert_param]

/-- C3 as amended: when the scheduler is stopped and the table is full
(`numOfJobs = MAX_NUM_OF_JOBS = 10`), `SchedulerAddJob` leaves the whole
scheduler object unchanged for every period and callback, so no slot, in
particular none at index 10 or beyond, is written. With assertions compiled out
it returns zero for every period and callback. Under `USE_FULL_ASSERT` it
returns zero for a positive period with a non-null callback, and for a zero
period or a null callback it never returns. -/
theorem SchedulerAddJob_full (a : Bool) (period callback : Nat) (s : Scheduler_t)
    (hrun : s.isRunning = 0) (hfull : s.numOfJobs = MAX_NUM_OF_JOBS) :
    MAX_NUM_OF_JOBS = 10 ∧
    (SchedulerAddJob a period callback s).2 = s ∧
    (∀ i, 10 ≤ i → (SchedulerAddJob a period callback s).2.jobs i = s.jobs i) ∧
    SchedulerAddJob false period callback s = (some 0, s) ∧
    (0 < period → callback ≠ 0 →
      SchedulerAddJob true period callback s = (some 0, s)) ∧
    (period = 0 ∨ callback = 0 →
      SchedulerAddJob true period callback s = (none, s)) := by
  have h := SchedulerAddJob_state_of_full a period callback s hrun hfull
  refine ⟨rfl, h, fun i _ => by rw [h], ?_, fun hp hc => ?_, fun hargs => ?_⟩
  · rw [SchedulerAddJob_of_assertsPass false period callback s
      (assertsPass_false period callback), if_pos hrun, if_neg (by omega)]
  · rw [SchedulerAddJob_of_assertsPass true period callback s (fun _ => ⟨hp, hc⟩),
      if_pos hrun, if_neg (by omega)]
  · exact SchedulerAddJob_of_not_assertsPass period callback s hargs

/-- Witness of C3 as amended: a stopped scheduler holding ten jobs, period 0
with a non-null callback in both builds, and period 5 with a non-null callback
under `USE_FULL_ASSERT`. -/
theorem SchedulerAddJob_full_witness :
    fullExample.isRunning = 0 ∧ fullExample.numOfJobs = 10 ∧
    (SchedulerAddJob true 0 1 fullExample).2 = fullExample ∧
    (∀ i, 10 ≤ i → (SchedulerAddJob true 0 1 fullExample).2.jobs i = fullExample.jobs i) ∧
    SchedulerAddJob false 0 1 fullExample = (some 0, fullExample) ∧
    SchedulerAddJob true 0 1 fullExample = (none, fullExample) ∧
    SchedulerAddJob true 5 1 fullExample = (some 0, fullExample) :=
  ⟨rfl, rfl, (SchedulerAddJob_full true 0 1 fullExample rfl rfl).2.1,
    (SchedulerAddJob_full true 0 1 fullExample rfl rfl).2.2.1,
    (SchedulerAddJob_full true 0 1 fullExample rfl rfl).2.2.2.1,
    (SchedulerAddJob_full true 0 1 fullExample rfl rfl).2.2.2.2.2 (Or.inl rfl),
    (SchedulerAddJob_full true 5 1 fullExample rfl rfl).2.2.2.2.1 (by decide) (by decide)⟩

/-- C4 fails as stated: with assertions compiled out, `SchedulerAddJob(0, cb)`
on the freshly initialised scheduler increments `numOfJobs` and stores a job of
period 0 in slot 0; under `USE_FULL_ASSERT` the same call never returns, so no
failure value is returned either. -/
theorem SchedulerAddJob_period_zero_counterexample :
    (SchedulerAddJob false 0 1 (SchedulerInit bootScheduler)).2.numOfJobs = 1 ∧
    ((SchedulerAddJob false 0 1 (SchedulerInit bootScheduler)).2.jobs 0).period = 0 ∧
    (SchedulerAddJob true 0 1 (SchedulerInit bootScheduler)).1 = none := by
  simp [SchedulerAddJob, assert_param, SchedulerInit, bootScheduler, MAX_NUM_OF_JOBS]

/-- C4 as amended: on a stopped scheduler with free capacity, a zero period is
not turned away by a test. With assertions compiled out the job is admitted
like any other: slot `numOfJobs` receives period 0, remaining time 0, pending
flag 0 and the callback, `numOfJobs` grows by one, and nothing else changes.
Under `USE_FULL_ASSERT` the call never returns and the scheduler object is
unchanged. -/
theorem SchedulerAddJob_zero_period (callback : Nat) (s : Scheduler_t)
    (hrun : s.isRunning = 0) (hcap : s.numOfJobs < MAX_NUM_OF_JOBS) :
    (SchedulerAddJob false 0 callback s).2 =
      { s with
        jobs := Function.update s.jobs s.numOfJobs
          { period := 0, remainingTime := 0, isPending := 0, callback := callback }
        numOfJobs := s.numOfJobs + 1 } ∧
    SchedulerAddJob true 0 callback s = (none, s) := by
  constructor
  · rw [SchedulerAddJob_of_assertsPass false 0 callback s (assertsPass_false 0 callback), if_pos hrun,
      if_pos hcap]
    rfl
  · exact SchedulerAddJob_of_not_assertsPass 0 callback s (Or.inl rfl)

/-- Witness of C4 as amended: the freshly initialised scheduler. -/
theorem SchedulerAddJob_zero_period_witness :
    (SchedulerAddJob false 0 1 (SchedulerInit bootScheduler)).2 =
      { SchedulerInit bootScheduler with
        jobs := Function.update (SchedulerInit bootScheduler).jobs
          (SchedulerInit bootScheduler).numOfJobs
          { period := 0, remainingTime := 0, isPending := 0, callback := 1 }
        numOfJobs := (SchedulerInit bootScheduler).numOfJobs + 1 } ∧
    SchedulerAddJob true 0 1 (SchedulerInit bootScheduler) =
      (none, SchedulerInit bootScheduler) :=
  SchedulerAddJob_zero_period 1 (SchedulerInit bootScheduler) rfl (by decide)

/-- C5 fails as stated: with assertions compiled out,
`SchedulerAddJob(5, NULL)` on the freshly initialised scheduler increments
`numOfJobs` and stores a job with a null callback in slot 0; under
`USE_FULL_ASSERT` the same call never returns, so no failure value is returned
either. -/
theorem SchedulerAddJob_callback_null_counterexample :
    (SchedulerAddJob false 5 0 (SchedulerInit bootScheduler)).2.numOfJobs = 1 ∧
    ((SchedulerAddJob false 5 0 (SchedulerInit bootScheduler)).2.jobs 0).callback = 0 ∧
    (SchedulerAddJob true 5 0 (SchedulerInit bootScheduler)).1 = none := by
  simp [SchedulerAddJob, assert_param, SchedulerInit, bootScheduler, MAX_NUM_OF_JOBS]

/-- C5 as amended: on a stopped scheduler with free capacity, a null callback
is not turned away by a test. With assertions compiled out the job is admitted
like any other: slot `numOfJobs` receives the period as period and remaining
time, pending flag 0 and the null callback, `numOfJobs` grows by one, and
nothing else changes. Under `USE_FULL_ASSERT` the call never returns and the
scheduler object is unchanged. -/
theorem SchedulerAddJob_null_callback (period : Nat) (s : Scheduler_t)
    (hrun : s.isRunning = 0) (hcap : s.numOfJobs < MAX_NUM_OF_JOBS) :
    (SchedulerAddJob false period 0 s).2 =
      { s with
        jobs := Function.update s.jobs s.numOfJobs
          { period := period, remainingTime := period, isPending := 0, callback := 0 }
        numOfJobs := s.numOfJobs + 1 } ∧
    SchedulerAddJob true period 0 s = (none, s) := by
  constructor
  · rw [SchedulerAddJob_of_assertsPass false period 0 s (assertsPass_false period 0), if_pos hrun,
      if_pos hcap]
    rfl
  · exact SchedulerAddJob_of_not_assertsPass period 0 s (Or.inr rfl)

/-- Witness of C5 as amended: the freshly initialised scheduler. -/
theorem SchedulerAddJob_null_callback_witness :
    (SchedulerAddJob false 5 0 (SchedulerInit bootScheduler)).2 =
      { SchedulerInit bootScheduler with
        jobs := Function.update (SchedulerInit bootScheduler).jobs
          (SchedulerInit bootScheduler).numOfJobs
          { period := 5, remainingTime := 5, isPending := 0, callback := 0 }
        numOfJobs := (SchedulerInit bootScheduler).numOfJobs + 1 } ∧
    SchedulerAddJob true 5 0 (SchedulerInit bootScheduler) =
      (none, SchedulerInit bootScheduler) :=
  SchedulerAddJob_null_callback 5 (SchedulerInit bootScheduler) rfl (by decide)

/-- C6: when `SchedulerAddJob(period, callback)` admits a job (scheduler
stopped, `numOfJobs = n < 10`, assertions passed), slot `n` holds the new job
with `period`, `remainingTime = period`, `isPending = 0` and the callback,
`numOfJobs` is `n + 1`, and every other slot (so the jobs at `0 .. n-1`, in
their order), `startTime` and `isRunning` are unchanged. -/
theorem SchedulerAddJob_admits (a : Bool) (period callback : Nat) (s : Scheduler_t)
    (hrun : s.isRunning = 0) (hcap : s.numOfJobs < MAX_NUM_OF_JOBS)
    (hargs : assertsPass a period callback) :
    (SchedulerAddJob a period callback s).2.jobs s.numOfJobs =
      { period := period, remainingTime := period, isPending := 0,
        callback := callback } ∧
    (SchedulerAddJob a period callback s).2.numOfJobs = s.numOfJobs + 1 ∧
    (∀ i, i ≠ s.numOfJobs → (SchedulerAddJob a period callback s).2.jobs i = s.jobs i) ∧
    (∀ i, i < s.numOfJobs → (SchedulerAddJob a period callback s).2.jobs i = s.jobs i) ∧
    (SchedulerAddJob a period callback s).2.startTime = s.startTime ∧
    (SchedulerAddJob a period callback s).2.isRunning = s.isRunning := by
  rw [SchedulerAddJob_of_assertsPass a period callback s hargs, if_pos hrun, if_pos hcap]
  refine ⟨by simp [admitJob, admittedJob], rfl, ?_, ?_, rfl, rfl⟩
  · intro i hi
    simp [admitJob, Function.update_noteq hi]
  · intro i hi
    simp [admitJob, Function.update_noteq (Nat.ne_of_lt hi)]

/-- Witness of C6: the second admission of `main`, a job of period 10 added
after the job of period 5. -/
theorem SchedulerAddJob_admits_witness :
    (SchedulerAddJob true 10 2 (admitJob 5 1 (SchedulerInit bootScheduler))).2.jobs 1 =
      { period := 10, remainingTime := 10, isPending := 0, callback := 2 } ∧
    (SchedulerAddJob true 10 2 (admitJob 5 1 (SchedulerInit bootScheduler))).2.jobs 0 =
      { period := 5, remainingTime := 5, isPending := 0, callback := 1 } ∧
    (SchedulerAddJob true 10 2 (admitJob 5 1 (SchedulerInit bootScheduler))).2.numOfJobs = 2 := by
  have h := SchedulerAddJob_admits true 10 2 (admitJob 5 1 (SchedulerInit bootScheduler))
    rfl (by decide) (by decide)
  exact ⟨h.1, (h.2.2.2.1 0 (by decide)).trans (by decide), h.2.1⟩

/-! Advancing the remaining times -/

/-- The loop body writes slot `i` only, and what it writes is `advanceJob` of
the job that was there. -/
theorem Scheduler_ProcessRemainingTime.body_eq (e : Nat) (s : Scheduler_t) (i : Nat) :
    Scheduler_ProcessRemainingTime.body e s i =
      { s with jobs := Function.update s.jobs i (advanceJob e (s.jobs i)) } := by
  unfold Scheduler_ProcessRemainingTime.body advanceJob
  split <;> rfl

/-- The loop over the first `n` slots. -/
theorem Scheduler_ProcessRemainingTime.loop_eq (e : Nat) (s : Scheduler_t) (n : Nat) :
    (List.range n).foldl (Scheduler_ProcessRemainingTime.body e) s =
      { s with jobs := fun i => if i < n then advanceJob e (s.jobs i) else s.jobs i } := by
  induction n with
  | zero => simp
  | succ n ih =>
    rw [List.range_succ, List.foldl_append, ih]
    simp only [List.foldl_cons, List.foldl_nil, Scheduler_ProcessRemainingTime.body_eq]
    congr 1
    funext i
    by_cases h : i = n
    · subst h
      simp
    · rw [Function.update_noteq h]
      by_cases h1 : i < n
      · simp [h1, Nat.lt_succ_of_lt h1]
      · have h2 : ¬ i < n + 1 := by omega
        simp [h1, h2]

/-- The whole of `Scheduler_ProcessRemainingTime` in closed form. -/
theorem Scheduler_ProcessRemainingTime_eq (e : Nat) (s : Scheduler_t) :
    Scheduler_ProcessRemainingTime e s =
      { s with
        jobs := fun i => if i < s.numOfJobs then advanceJob e (s.jobs i) else s.jobs i } :=
  Scheduler_ProcessRemainingTime.loop_eq e s s.numOfJobs

/-- An advance keeps `remainingTime ≤ period` on a single job. -/
theorem advanceJob_le_period (e : Nat) (j : Job_t) (h : j.remainingTime ≤ j.period) :
    (advanceJob e j).remainingTime ≤ (advanceJob e j).period := by
  unfold advanceJob
  split
  · exact Nat.le_refl _
  · exact Nat.le_trans (Nat.sub_le _ _) h

/-- A sequence of advances keeps `numOfJobs` and keeps `remainingTime ≤ period`
on every admitted job. -/
theorem processRemainingTimes_inv (es : List Nat) :
    ∀ s : Scheduler_t,
      (∀ i, i < s.numOfJobs → (s.jobs i).remainingTime ≤ (s.jobs i).period) →
      (processRemainingTimes es s).numOfJobs = s.numOfJobs ∧
      ∀ i, i < s.numOfJobs →
        ((processRemainingTimes es s).jobs i).remainingTime ≤
          ((processRemainingTimes es s).jobs i).period := by
  induction es with
  | nil => intro s h; exact ⟨rfl, h⟩
  | cons e es ih =>
    intro s h
    have hstep : ∀ i, i < (Scheduler_ProcessRemainingTime e s).numOfJobs →
        ((Scheduler_ProcessRemainingTime e s).jobs i).remainingTime ≤
          ((Scheduler_ProcessRemainingTime e s).jobs i).period := by
      intro i hi
      rw [Scheduler_ProcessRemainingTime_eq] at hi ⊢
      simp only at hi
      simp only [hi, if_true]
      exact advanceJob_le_period e (s.jobs i) (h i hi)
    have hn : (Scheduler_ProcessRemainingTime e s).numOfJobs = s.numOfJobs := by
      rw [Scheduler_ProcessRemainingTime_eq]
    obtain ⟨h1, h2⟩ := ih (Scheduler_ProcessRemainingTime e s) hstep
    refine ⟨?_, ?_⟩
    · show (processRemainingTimes es (Scheduler_ProcessRemainingTime e s)).numOfJobs = _
      rw [h1, hn]
    · intro i hi
      exact h2 i (by rw [hn]; exact hi)

/-- C7: `Scheduler_ProcessRemainingTime(elapsed)` changes nothing but the jobs
below `numOfJobs`, and each of those independently: if
`elapsed >= remainingTime` the job gets `remainingTime := period` and
`isPending := 1`, otherwise `remainingTime := remainingTime - elapsed` with
`isPending` as it was; `period` and `callback` stay in both cases. -/
theorem Scheduler_ProcessRemainingTime_spec (elapsed : Nat) (s : Scheduler_t) :
    Scheduler_ProcessRemainingTime elapsed s =
      { s with
        jobs := fun i =>
          if i < s.numOfJobs then
            if elapsed ≥ (s.jobs i).remainingTime then
              { period := (s.jobs i).period, remainingTime := (s.jobs i).period,
                isPending := 1, callback := (s.jobs i).callback }
            else
              { period := (s.jobs i).period,
                remainingTime := (s.jobs i).remainingTime - elapsed,
                isPending := (s.jobs i).isPending, callback := (s.jobs i).callback }
          else s.jobs i } := by
  rw [Scheduler_ProcessRemainingTime_eq]
  rfl

/-- C8: if every admitted job has `0 <= remainingTime <= period`, then after
any finite sequence of `Scheduler_ProcessRemainingTime` calls with arbitrary
elapsed values the table holds the same number of jobs and every one of them
still has `0 <= remainingTime <= period`. The last part says that the
subtraction never underflows: the remaining time a further call leaves is the
period or the exact integer difference `remainingTime - elapsed`. -/
theorem processRemainingTimes_remaining_le_period (es : List Nat) (s : Scheduler_t)
    (hinv : ∀ i, i < s.numOfJobs →
      0 ≤ (s.jobs i).remainingTime ∧ (s.jobs i).remainingTime ≤ (s.jobs i).period) :
    (processRemainingTimes es s).numOfJobs = s.numOfJobs ∧
    (∀ i, i < s.numOfJobs →
      0 ≤ ((processRemainingTimes es s).jobs i).remainingTime ∧
      ((processRemainingTimes es s).jobs i).remainingTime ≤
        ((processRemainingTimes es s).jobs i).period) ∧
    (∀ e i, i < s.numOfJobs →
      (((Scheduler_ProcessRemainingTime e (processRemainingTimes es s)).jobs i).remainingTime
          : Int) =
        if e ≥ ((processRemainingTimes es s).jobs i).remainingTime then
          (((processRemainingTimes es s).jobs i).period : Int)
        else
          (((processRemainingTimes es s).jobs i).remainingTime : Int) - (e : Int)) := by
  obtain ⟨h1, h2⟩ := processRemainingTimes_inv es s (fun i hi => (hinv i hi).2)
  refine ⟨h1, fun i hi => ⟨Nat.zero_le _, h2 i hi⟩, ?_⟩
  intro e i hi
  rw [Scheduler_ProcessRemainingTime_eq]
  simp only [h1, hi, if_true]
  unfold advanceJob
  split
  · rfl
  · rename_i hlt
    simp only
    omega

/-- Witness of C8: the two jobs of `main` right after admission, advanced by
3, then by 0, then by 12 seconds, then by 4. -/
theorem processRemainingTimes_remaining_le_period_witness :
    (processRemainingTimes [3, 0, 12, 4] runningExample).numOfJobs = 2 ∧
    ((processRemainingTimes [3, 0, 12, 4] runningExample).jobs 0).remainingTime ≤ 5 ∧
    ((processRemainingTimes [3, 0, 12, 4] runningExample).jobs 1).remainingTime ≤ 10 := by
  have h := processRemainingTimes_remaining_le_period [3, 0, 12, 4] runningExample
    (by intro i hi
        have hi2 : i < 2 := hi
        interval_cases i <;> decide)
  refine ⟨h.1, ?_, ?_⟩
  · have h0 := (h.2.1 0 (by decide)).2
    have hp : ((processRemainingTimes [3, 0, 12, 4] runningExample).jobs 0).period = 5 := by
      decide
    omega
  · have h1 := (h.2.1 1 (by decide)).2
    have hp : ((processRemainingTimes [3, 0, 12, 4] runningExample).jobs 1).period = 10 := by
      decide
    omega

/-- C9: burst collapse. For an admitted job and any two elapsed values that
both reach its remaining time, however many periods each spans, the two calls
leave the job in the same state: `remainingTime = period`, `isPending = 1`,
period and callback as before. The pending mark is the flag value 1 in both
cases, so nothing counts missed periods. -/
theorem Scheduler_ProcessRemainingTime_burst (s : Scheduler_t) (i e1 e2 : Nat)
    (hi : i < s.numOfJobs)
    (h1 : e1 ≥ (s.jobs i).remainingTime) (h2 : e2 ≥ (s.jobs i).remainingTime) :
    (Scheduler_ProcessRemainingTime e1 s).jobs i =
      (Scheduler_ProcessRemainingTime e2 s).jobs i ∧
    (Scheduler_ProcessRemainingTime e1 s).jobs i =
      { period := (s.jobs i).period, remainingTime := (s.jobs i).period,
        isPending := 1, callback := (s.jobs i).callback } := by
  have h : ∀ e, e ≥ (s.jobs i).remainingTime →
      (Scheduler_ProcessRemainingTime e s).jobs i =
        { period := (s.jobs i).period, remainingTime := (s.jobs i).period,
          isPending := 1, callback := (s.jobs i).callback } := by
    intro e he
    rw [Scheduler_ProcessRemainingTime_eq]
    simp only [hi, if_true]
    unfold advanceJob
    rw [if_pos he]
  exact ⟨(h e1 h1).trans (h e2 h2).symm, h e1 h1⟩

/-- Witness of C9: the job of period 5 with 4 seconds remaining, advanced by 4
seconds and by 4 + 3 * 5 seconds. -/
theorem Scheduler_ProcessRemainingTime_burst_witness :
    (Scheduler_ProcessRemainingTime 4 threeJobs).jobs 0 =
      (Scheduler_ProcessRemainingTime 19 threeJobs).jobs 0 ∧
    (Scheduler_ProcessRemainingTime 4 threeJobs).jobs 0 =
      { period := 5, remainingTime := 5, isPending := 1, callback := 1 } :=
  Scheduler_ProcessRemainingTime_burst threeJobs 0 4 19 (by decide) (by decide) (by decide)

/-! Selecting the next job -/

/-- The search over the first `n + 1` slots returns an index `k ≤ n` whose
remaining time is a lower bound for slots `0 .. n` and is strictly below that
of every slot before `k`. -/
theorem SchedulerProcess.search_loop (s : Scheduler_t) (n : Nat) :
    (List.range (n + 1)).foldl (SchedulerProcess.searchBody s) 0 ≤ n ∧
    (∀ i, i ≤ n →
      (s.jobs ((List.range (n + 1)).foldl (SchedulerProcess.searchBody s) 0)).remainingTime ≤
        (s.jobs i).remainingTime) ∧
    (∀ i, i < (List.range (n + 1)).foldl (SchedulerProcess.searchBody s) 0 →
      (s.jobs ((List.range (n + 1)).foldl (SchedulerProcess.searchBody s) 0)).remainingTime <
        (s.jobs i).remainingTime) := by
  induction n with
  | zero =>
    have h0 : (List.range (0 + 1)).foldl (SchedulerProcess.searchBody s) 0 = 0 := by
      simp [List.range_succ, SchedulerProcess.searchBody]
    rw [h0]
    refine ⟨Nat.le_refl _, ?_, ?_⟩
    · intro i hi
      have : i = 0 := by omega
      subst this
      exact Nat.le_refl _
    · intro i hi
      omega
  | succ n ih =>
    rw [List.range_succ, List.foldl_append]
    simp only [List.foldl_cons, List.foldl_nil]
    generalize (List.range (n + 1)).foldl (SchedulerProcess.searchBody s) 0 = k at ih ⊢
    obtain ⟨hk, hmin, hfirst⟩ := ih
    unfold SchedulerProcess.searchBody
    by_cases hlt : (s.jobs (n + 1)).remainingTime < (s.jobs k).remainingTime
    · rw [if_pos hlt]
      refine ⟨Nat.le_refl _, ?_, ?_⟩
      · intro i hi
        by_cases hin : i = n + 1
        · subst hin
          exact Nat.le_refl _
        · exact Nat.le_of_lt (Nat.lt_of_lt_of_le hlt (hmin i (by omega)))
      · intro i hi
        exact Nat.lt_of_lt_of_le hlt (hmin i (by omega))
    · rw [if_neg hlt]
      refine ⟨by omega, ?_, hfirst⟩
      intro i hi
      by_cases hin : i = n + 1
      · subst hin
        omega
      · exact hmin i (by omega)

/-- C10: for every non-empty job table the index `k` left by the search loop
of `SchedulerProcess` is an admitted job, its remaining time is the minimum
over all admitted jobs, and every job before `k` has a strictly larger
remaining time: `k` is the smallest index that attains the minimum. -/
theorem SchedulerProcess.indexOfNextJob_least_min (s : Scheduler_t)
    (hne : 0 < s.numOfJobs) :
    SchedulerProcess.indexOfNextJob s < s.numOfJobs ∧
    (∀ i, i < s.numOfJobs →
      (s.jobs (SchedulerProcess.indexOfNextJob s)).remainingTime ≤
        (s.jobs i).remainingTime) ∧
    (∀ i, i < s.numOfJobs →
      (s.jobs i).remainingTime = (s.jobs (SchedulerProcess.indexOfNextJob s)).remainingTime →
      SchedulerProcess.indexOfNextJob s ≤ i) := by
  unfold SchedulerProcess.indexOfNextJob
  obtain ⟨n, hn⟩ : ∃ n, s.numOfJobs = n + 1 := ⟨s.numOfJobs - 1, by omega⟩
  rw [hn]
  obtain ⟨hk, hmin, hfirst⟩ := SchedulerProcess.search_loop s n
  refine ⟨by omega, fun i hi => hmin i (by omega), ?_⟩
  intro i _ heq
  by_contra hcon
  have := hfirst i (by omega)
  omega

/-- Witness of C10: three jobs with remaining times 4, 2, 2; the loop selects
index 1, the earlier of the two jobs that tie for the minimum. -/
theorem SchedulerProcess.indexOfNextJob_least_min_witness :
    SchedulerProcess.indexOfNextJob threeJobs = 1 ∧
    SchedulerProcess.indexOfNextJob threeJobs < threeJobs.numOfJobs ∧
    (threeJobs.jobs (SchedulerProcess.indexOfNextJob threeJobs)).remainingTime ≤
      (threeJobs.jobs 2).remainingTime ∧
    SchedulerProcess.indexOfNextJob threeJobs ≤ 2 :=
  ⟨by decide,
    (SchedulerProcess.indexOfNextJob_least_min threeJobs (by decide)).1,
    (SchedulerProcess.indexOfNextJob_least_min threeJobs (by decide)).2.1 2 (by decide),
    (SchedulerProcess.indexOfNextJob_least_min threeJobs (by decide)).2.2 2 (by decide)
      (by decide)⟩

/-! The epoch clock: requesting an alarm -/

/-- The epoch read from the RTC is a `uint32_t`. -/
theorem RtcGetEpoch_lt (rtc : Rtc) : RtcGetEpoch rtc < 4294967296 := by
  unfold RtcGetEpoch wrap32
  exact Nat.mod_lt _ (by decide)

/-- A request for an epoch that is not in the future is turned down before the
HAL is called. -/
theorem RtcSetAlarmFromEpoch_not_future (status : HAL_StatusTypeDef) (epoch : Nat)
    (rtc : Rtc) (h : epoch ≤ RtcGetEpoch rtc) :
    RtcSetAlarmFromEpoch status epoch rtc =
      (0, { rtc with calls := rtc.calls ++ [RtcCall.setAlarmFromEpoch epoch 0] }) := by
  unfold RtcSetAlarmFromEpoch
  rw [if_neg (by omega)]

/-- A request for a future epoch goes to the HAL; the value returned is 1 if
the HAL reports `HAL_OK` and 0 otherwise. -/
theorem RtcSetAlarmFromEpoch_future (status : HAL_StatusTypeDef) (epoch : Nat)
    (rtc : Rtc) (h : RtcGetEpoch rtc < epoch) :
    RtcSetAlarmFromEpoch status epoch rtc =
      (if status = HAL_StatusTypeDef.HAL_OK then 1 else 0,
        { rtc with
          alarmA :=
            if status = HAL_StatusTypeDef.HAL_OK then
              some (RtcSetAlarmFromEpoch.sAlarm
                (RtcConvertEpochToDatetime epoch zeroDate zeroTime).1
                (RtcConvertEpochToDatetime epoch zeroDate zeroTime).2)
            else none
          calls := rtc.calls ++ [RtcCall.setAlarmFromEpoch epoch
            (if status = HAL_StatusTypeDef.HAL_OK then 1 else 0)] }) := by
  unfold RtcSetAlarmFromEpoch HAL_RTC_SetAlarm_IT
  rw [if_pos h]
  by_cases hs : status = HAL_StatusTypeDef.HAL_OK
  · simp [hs]
  · simp [hs]

/-- Every request is recorded with the value it returned, and it leaves the
calendar alone. -/
theorem RtcSetAlarmFromEpoch_calls (status : HAL_StatusTypeDef) (epoch : Nat) (rtc : Rtc) :
    (RtcSetAlarmFromEpoch status epoch rtc).2.calls =
      rtc.calls ++ [RtcCall.setAlarmFromEpoch epoch (RtcSetAlarmFromEpoch status epoch rtc).1] ∧
    (RtcSetAlarmFromEpoch status epoch rtc).2.date = rtc.date ∧
    (RtcSetAlarmFromEpoch status epoch rtc).2.time = rtc.time := by
  by_cases h : RtcGetEpoch rtc < epoch
  · rw [RtcSetAlarmFromEpoch_future status epoch rtc h]
    exact ⟨rfl, rfl, rfl⟩
  · rw [RtcSetAlarmFromEpoch_not_future status epoch rtc (by omega)]
    exact ⟨rfl, rfl, rfl⟩

/-! The orchestration -/

/-- The arming step of `SchedulerProcess` on a scheduler whose selected job has
a positive remaining time. -/
theorem SchedulerProcess_stopped_pos (status : HAL_StatusTypeDef) (rtc : Rtc)
    (s : Scheduler_t) (hstop : s.isRunning = 0) (hpos : 0 < nextRemainingTime s) :
    SchedulerProcess status rtc s =
      ((RtcSetAlarmFromEpoch status (add32 (RtcGetEpoch rtc) (nextRemainingTime s)) rtc).2,
        { s with
          startTime := RtcGetEpoch rtc
          isRunning :=
            if (RtcSetAlarmFromEpoch status
                (add32 (RtcGetEpoch rtc) (nextRemainingTime s)) rtc).1 ≠ 0 then 1
            else s.isRunning }) := by
  unfold nextRemainingTime at hpos ⊢
  unfold SchedulerProcess
  simp only [hstop, ne_eq, not_true_eq_false, if_false, one_ne_zero, not_false_eq_true,
    if_true, gt_iff_lt, hpos]
  split <;> simp_all

/-- On a stopped scheduler whose selected job has remaining time zero,
`SchedulerProcess` does nothing. -/
theorem SchedulerProcess_stopped_zero (status : HAL_StatusTypeDef) (rtc : Rtc)
    (s : Scheduler_t) (hstop : s.isRunning = 0) (hzero : nextRemainingTime s = 0) :
    SchedulerProcess status rtc s = (rtc, s) := by
  unfold nextRemainingTime at hzero
  unfold SchedulerProcess
  simp [hstop, hzero]

/-- On a running scheduler with elapsed time zero, `SchedulerProcess` does
nothing. -/
theorem SchedulerProcess_running_zero (status : HAL_StatusTypeDef) (rtc : Rtc)
    (s : Scheduler_t) (hrun : s.isRunning ≠ 0)
    (hzero : sub32 (RtcGetEpoch rtc) s.startTime = 0) :
    SchedulerProcess status rtc s = (rtc, s) := by
  unfold SchedulerProcess
  simp [hrun, hzero]

/-- On a running scheduler with positive elapsed time, `SchedulerProcess`
advances the jobs and then runs the arming step on the advanced table. -/
theorem SchedulerProcess_running_pos (status : HAL_StatusTypeDef) (rtc : Rtc)
    (s : Scheduler_t) (hrun : s.isRunning ≠ 0)
    (hpos : 0 < sub32 (RtcGetEpoch rtc) s.startTime) :
    SchedulerProcess status rtc s =
      if 0 < nextRemainingTime
          (Scheduler_ProcessRemainingTime (sub32 (RtcGetEpoch rtc) s.startTime) s) then
        ((RtcSetAlarmFromEpoch status (add32 (RtcGetEpoch rtc) (nextRemainingTime
            (Scheduler_ProcessRemainingTime (sub32 (RtcGetEpoch rtc) s.startTime) s))) rtc).2,
          { Scheduler_ProcessRemainingTime (sub32 (RtcGetEpoch rtc) s.startTime) s with
            startTime := RtcGetEpoch rtc
            isRunning :=
              if (RtcSetAlarmFromEpoch status (add32 (RtcGetEpoch rtc) (nextRemainingTime
                  (Scheduler_ProcessRemainingTime (sub32 (RtcGetEpoch rtc) s.startTime) s)))
                  rtc).1 ≠ 0 then 1
              else s.isRunning })
      else
        (rtc, Scheduler_ProcessRemainingTime (sub32 (RtcGetEpoch rtc) s.startTime) s) := by
  have hadv : (Scheduler_ProcessRemainingTime (sub32 (RtcGetEpoch rtc) s.startTime) s).isRunning
      = s.isRunning := by
    rw [Scheduler_ProcessRemainingTime_eq]
  unfold nextRemainingTime
  unfold SchedulerProcess
  simp only [hrun, ne_eq, not_false_eq_true, if_true, gt_iff_lt, hpos, one_ne_zero]
  split
  · split <;> simp_all
  · rfl

/-- For a non-empty table the remaining time of the selected job is the
minimum over the admitted jobs. -/
theorem nextRemainingTime_eq_min (s : Scheduler_t) (m : Nat)
    (hatt : ∃ k, k < s.numOfJobs ∧ (s.jobs k).remainingTime = m)
    (hmin : ∀ i, i < s.numOfJobs → m ≤ (s.jobs i).remainingTime) :
    nextRemainingTime s = m := by
  obtain ⟨k, hk, hkm⟩ := hatt
  obtain ⟨n, hn⟩ : ∃ n, s.numOfJobs = n + 1 := ⟨s.numOfJobs - 1, by omega⟩
  obtain ⟨hlt, hle, _⟩ := SchedulerProcess.search_loop s n
  unfold nextRemainingTime SchedulerProcess.indexOfNextJob
  rw [hn]
  have h1 := hle k (by omega)
  have h2 := hmin _ (show (List.range (n + 1)).foldl (SchedulerProcess.searchBody s) 0
    < s.numOfJobs by omega)
  omega

/-- On a stopped scheduler with an empty table whose slot 0 holds remaining
time zero, as after the one `SchedulerInit` of `main`, `SchedulerProcess` does
nothing. -/
theorem SchedulerProcess_empty_zero_slot (status : HAL_StatusTypeDef) (rtc : Rtc)
    (s : Scheduler_t) (hstop : s.isRunning = 0) (hempty : s.numOfJobs = 0)
    (hslot : (s.jobs 0).remainingTime = 0) :
    SchedulerProcess status rtc s = (rtc, s) := by
  apply SchedulerProcess_stopped_zero status rtc s hstop
  unfold nextRemainingTime SchedulerProcess.indexOfNextJob
  rw [hempty]
  exact hslot

/-- C11 (the code departs from it): a scheduler that is initialised, given a
job of period 5 and initialised again is stopped with an empty table
(`numOfJobs = 0`), but slot 0 still holds the job. `SchedulerProcess` reads
that slot, requests an alarm 5 seconds ahead and, the request succeeding, sets
`isRunning` to 1. -/
theorem SchedulerProcess_empty_table_arms :
    reinitExample.numOfJobs = 0 ∧ reinitExample.isRunning = 0 ∧
    RtcGetEpoch rtcAfterInit = 1614164400 ∧
    (SchedulerProcess HAL_StatusTypeDef.HAL_OK rtcAfterInit reinitExample).2.isRunning = 1 ∧
    (SchedulerProcess HAL_StatusTypeDef.HAL_OK rtcAfterInit reinitExample).2.numOfJobs = 0 ∧
    (SchedulerProcess HAL_StatusTypeDef.HAL_OK rtcAfterInit reinitExample).1.calls =
      [RtcCall.setAlarmFromEpoch 1614164405 1] ∧
    (SchedulerProcess HAL_StatusTypeDef.HAL_OK rtcAfterInit reinitExample).1.alarmA ≠ none := by
  refine ⟨rfl, rfl, by decide, by decide, by decide, by decide, by decide⟩

/-- C13 fails as stated: the running scheduler of `main`, processed again at
the very epoch stored in `startTime`, has a non-empty table with minimum
remaining time 5, and `SchedulerProcess` requests no alarm. -/
theorem SchedulerProcess_elapsed_zero_counterexample :
    startedExample.isRunning = 1 ∧
    RtcGetEpoch rtcAfterInit = startedExample.startTime ∧
    startedExample.numOfJobs = 2 ∧
    (startedExample.jobs 0).remainingTime = 5 ∧
    (startedExample.jobs 1).remainingTime = 10 ∧
    (SchedulerProcess HAL_StatusTypeDef.HAL_OK rtcAfterInit startedExample).1.calls = [] ∧
    (SchedulerProcess HAL_StatusTypeDef.HAL_OK rtcAfterInit startedExample).1.alarmA = none := by
  refine ⟨rfl, by decide, rfl, rfl, rfl, by decide, by decide⟩

/-- C13 as amended: when `SchedulerProcess` is invoked on a running scheduler
and the current epoch equals `startTime` (elapsed time zero), it skips the
advancement and the arming step alike: no alarm is requested, and the RTC and
the scheduler object are left exactly as they were. -/
theorem SchedulerProcess_zero_elapsed (status : HAL_StatusTypeDef) (rtc : Rtc)
    (s : Scheduler_t) (hrun : s.isRunning ≠ 0) (hnow : RtcGetEpoch rtc = s.startTime) :
    SchedulerProcess status rtc s = (rtc, s) ∧
    (SchedulerProcess status rtc s).1.calls = rtc.calls := by
  have hlt := RtcGetEpoch_lt rtc
  have hzero : sub32 (RtcGetEpoch rtc) s.startTime = 0 := by
    rw [← hnow]
    unfold sub32 wrap32
    omega
  rw [SchedulerProcess_running_zero status rtc s hrun hzero]
  exact ⟨rfl, rfl⟩

/-- Witness of C13 as amended: the running scheduler of `main` at the epoch
stored in its `startTime`. -/
theorem SchedulerProcess_zero_elapsed_witness :
    SchedulerProcess HAL_StatusTypeDef.HAL_OK rtcAfterInit startedExample =
      (rtcAfterInit, startedExample) ∧
    (SchedulerProcess HAL_StatusTypeDef.HAL_OK rtcAfterInit startedExample).1.calls =
      rtcAfterInit.calls :=
  SchedulerProcess_zero_elapsed HAL_StatusTypeDef.HAL_OK rtcAfterInit startedExample
    (by decide) (by decide)

/-- Each `SchedulerProcess` call records at most one alarm request, and when
it records one, `isRunning` is 1 if the request returned non-zero and is
unchanged otherwise. -/
theorem SchedulerProcess_calls (status : HAL_StatusTypeDef) (rtc : Rtc) (s : Scheduler_t) :
    ((SchedulerProcess status rtc s).1.calls = rtc.calls ∧
      (SchedulerProcess status rtc s).2.isRunning = s.isRunning) ∨
    ∃ x r, (SchedulerProcess status rtc s).1.calls =
        rtc.calls ++ [RtcCall.setAlarmFromEpoch x r] ∧
      (SchedulerProcess status rtc s).2.isRunning = if r ≠ 0 then 1 else s.isRunning := by
  by_cases hrun : s.isRunning = 0
  · by_cases hm : nextRemainingTime s = 0
    · left
      rw [SchedulerProcess_stopped_zero status rtc s hrun hm]
      exact ⟨rfl, rfl⟩
    · right
      rw [SchedulerProcess_stopped_pos status rtc s hrun (by omega)]
      exact ⟨_, _, (RtcSetAlarmFromEpoch_calls status _ rtc).1, rfl⟩
  · by_cases hel : sub32 (RtcGetEpoch rtc) s.startTime = 0
    · left
      rw [SchedulerProcess_running_zero status rtc s hrun hel]
      exact ⟨rfl, rfl⟩
    · rw [SchedulerProcess_running_pos status rtc s hrun (by omega)]
      split
      · right
        exact ⟨_, _, (RtcSetAlarmFromEpoch_calls status _ rtc).1, rfl⟩
      · left
        refine ⟨rfl, ?_⟩
        rw [Scheduler_ProcessRemainingTime_eq]

/-- C15: if the alarm request made by `SchedulerProcess` is rejected
(`RtcSetAlarmFromEpoch` returns 0), `isRunning` after the call equals
`isRunning` before the call, whether that was 0 or not. -/
theorem SchedulerProcess_rejected_keeps_isRunning (status : HAL_StatusTypeDef) (rtc : Rtc)
    (s : Scheduler_t)
    (hrej : ∃ x, (SchedulerProcess status rtc s).1.calls =
      rtc.calls ++ [RtcCall.setAlarmFromEpoch x 0]) :
    (SchedulerProcess status rtc s).2.isRunning = s.isRunning := by
  obtain ⟨x, hx⟩ := hrej
  rcases SchedulerProcess_calls status rtc s with ⟨_, h⟩ | ⟨x', r, hc, h⟩
  · exact h
  · rw [hc] at hx
    have hr : r = 0 := by
      have := List.append_cancel_left hx
      simp at this
      exact this.2
    rw [h, hr]
    simp

/-- Witness of C15: the HAL reports an error when the stopped scheduler of
`main` is first processed, and again when the running one is processed 5
seconds after its start. -/
theorem SchedulerProcess_rejected_keeps_isRunning_witness :
    (SchedulerProcess HAL_StatusTypeDef.HAL_ERROR rtcAfterInit admittedExample).2.isRunning = 0 ∧
    (SchedulerProcess HAL_StatusTypeDef.HAL_ERROR (rtcAt 1614164405)
      startedExample).2.isRunning = 1 :=
  ⟨SchedulerProcess_rejected_keeps_isRunning HAL_StatusTypeDef.HAL_ERROR rtcAfterInit
      admittedExample ⟨1614164405, by decide⟩,
    SchedulerProcess_rejected_keeps_isRunning HAL_StatusTypeDef.HAL_ERROR (rtcAt 1614164405)
      startedExample ⟨1614164410, by decide⟩⟩

/-- C16: `SchedulerStop` on a running scheduler deactivates the alarm (alarm A
is disabled afterwards and the calendar is untouched), applies
`Scheduler_ProcessRemainingTime(now - startTime)` to the job table when that
`uint32_t` difference is positive, and sets `isRunning` to 0; on a stopped
scheduler it changes nothing and requests no alarm operation. -/
theorem SchedulerStop_spec (rtc : Rtc) (s : Scheduler_t) :
    (s.isRunning ≠ 0 →
      (SchedulerStop rtc s).1 = RtcDeactivateAlarm rtc ∧
      (SchedulerStop rtc s).1.alarmA = none ∧
      (SchedulerStop rtc s).1.calls = rtc.calls ++ [RtcCall.deactivateAlarm] ∧
      (SchedulerStop rtc s).1.date = rtc.date ∧ (SchedulerStop rtc s).1.time = rtc.time ∧
      (SchedulerStop rtc s).2.isRunning = 0 ∧
      (0 < sub32 (RtcGetEpoch rtc) s.startTime →
        (SchedulerStop rtc s).2 =
          { Scheduler_ProcessRemainingTime (sub32 (RtcGetEpoch rtc) s.startTime) s with
            isRunning := 0 }) ∧
      (sub32 (RtcGetEpoch rtc) s.startTime = 0 →
        (SchedulerStop rtc s).2 = { s with isRunning := 0 })) ∧
    (s.isRunning = 0 → SchedulerStop rtc s = (rtc, s)) := by
  constructor
  · intro hrun
    have hs : SchedulerStop rtc s =
        (RtcDeactivateAlarm rtc,
          { (if sub32 (RtcGetEpoch rtc) s.startTime > 0 then
              Scheduler_ProcessRemainingTime (sub32 (RtcGetEpoch rtc) s.startTime) s
            else s) with isRunning := 0 }) := by
      unfold SchedulerStop
      rw [if_pos hrun]
      rfl
    rw [hs]
    refine ⟨rfl, rfl, rfl, rfl, rfl, rfl, ?_, ?_⟩
    · intro h
      simp only [gt_iff_lt, h, if_true]
    · intro h
      simp only [gt_iff_lt, h, Nat.lt_irrefl, if_false]
  · intro hstop
    unfold SchedulerStop
    simp [hstop]

/-- Witness of C16: the running scheduler of `main` stopped 7 seconds after its
start, and a stopped scheduler. -/
theorem SchedulerStop_spec_witness :
    (SchedulerStop (rtcAt 1614164407) startedExample).1.alarmA = none ∧
    (SchedulerStop (rtcAt 1614164407) startedExample).2.isRunning = 0 ∧
    (SchedulerStop (rtcAt 1614164407) startedExample).2 =
      { Scheduler_ProcessRemainingTime 7 startedExample with isRunning := 0 } ∧
    SchedulerStop rtcAfterInit admittedExample = (rtcAfterInit, admittedExample) := by
  have h := SchedulerStop_spec (rtcAt 1614164407) startedExample
  have h1 := h.1 (by decide)
  have hel : sub32 (RtcGetEpoch (rtcAt 1614164407)) startedExample.startTime = 7 := by decide
  refine ⟨h1.2.1, h1.2.2.2.2.2.1, ?_, (SchedulerStop_spec rtcAfterInit admittedExample).2 rfl⟩
  rw [h1.2.2.2.2.2.2.1 (by rw [hel]; decide), hel]

/-! Executing the pending jobs -/

/-- Clearing a pending flag that is already zero changes nothing. -/
theorem Job_t.clear_of_not_pending (j : Job_t) (h : j.isPending = 0) :
    { j with isPending := 0 } = j := by
  cases j
  simp_all

/-- The loop of `SchedulerExecutePendingJobs` over the first `n` slots. -/
theorem SchedulerExecutePendingJobs.pending_loop_eq (s : Scheduler_t) (n : Nat) :
    (List.range n).foldl SchedulerExecutePendingJobs.body ([], s) =
      (((List.range n).filter
          (fun i => decide ((s.jobs i).isPending ≠ 0 ∧ (s.jobs i).callback ≠ 0))).map
          (fun i => (s.jobs i).callback),
        { s with
          jobs := fun i => if i < n then { s.jobs i with isPending := 0 } else s.jobs i }) := by
  induction n with
  | zero => simp
  | succ n ih =>
    rw [List.range_succ, List.foldl_append, ih, List.filter_append, List.map_append]
    simp only [List.foldl_cons, List.foldl_nil]
    generalize (List.map (fun i => (s.jobs i).callback)
      (List.filter (fun i => decide ((s.jobs i).isPending ≠ 0 ∧ (s.jobs i).callback ≠ 0))
        (List.range n))) = called
    have hset : (fun i => if i < n + 1 then ({ s.jobs i with isPending := 0 } : Job_t)
          else s.jobs i) =
        Function.update
          (fun i => if i < n then ({ s.jobs i with isPending := 0 } : Job_t) else s.jobs i)
          n { s.jobs n with isPending := 0 } := by
      funext i
      by_cases h : i = n
      · subst h
        simp
      · rw [Function.update_noteq h]
        by_cases h1 : i < n
        · simp [h1, Nat.lt_succ_of_lt h1]
        · have h2 : ¬ i < n + 1 := by omega
          simp [h1, h2]
    rw [hset]
    unfold SchedulerExecutePendingJobs.body
    simp only [Nat.lt_irrefl, if_false]
    by_cases hp : (s.jobs n).isPending = 0
    · rw [if_neg (by simpa using hp)]
      have hl : List.filter
          (fun i => decide ((s.jobs i).isPending ≠ 0 ∧ (s.jobs i).callback ≠ 0)) [n] = [] := by
        simp [hp]
      rw [hl, List.map_nil, List.append_nil, Job_t.clear_of_not_pending _ hp]
      congr 2
      funext i
      by_cases h : i = n
      · subst h
        simp
      · rw [Function.update_noteq h]
    · rw [if_pos (by simpa using hp)]
      by_cases hc : (s.jobs n).callback = 0
      · rw [if_neg (by simpa using hc)]
        have hl : List.filter
            (fun i => decide ((s.jobs i).isPending ≠ 0 ∧ (s.jobs i).callback ≠ 0)) [n] = [] := by
          simp [hc]
        rw [hl, List.map_nil, List.append_nil]
      · rw [if_pos (by simpa using hc)]
        have hl : List.filter
            (fun i => decide ((s.jobs i).isPending ≠ 0 ∧ (s.jobs i).callback ≠ 0)) [n] = [n] := by
          simp [hp, hc]
        rw [hl]
        rfl

/-- C17: `SchedulerExecutePendingJobs` calls the callbacks of exactly the
admitted jobs whose `isPending` flag is set and whose callback is not null,
each once and in increasing index order; afterwards every admitted job has
`isPending = 0` with `period`, `remainingTime` and `callback` as before, and
the other slots, `numOfJobs`, `startTime` and `isRunning` are unchanged. When
no admitted job is pending nothing is called and the whole state is
unchanged. -/
theorem SchedulerExecutePendingJobs_spec (s : Scheduler_t) :
    (SchedulerExecutePendingJobs s).1 =
      ((List.range s.numOfJobs).filter
        (fun i => decide ((s.jobs i).isPending ≠ 0 ∧ (s.jobs i).callback ≠ 0))).map
        (fun i => (s.jobs i).callback) ∧
    (∀ i, i < s.numOfJobs →
      (SchedulerExecutePendingJobs s).2.jobs i =
        { period := (s.jobs i).period, remainingTime := (s.jobs i).remainingTime,
          isPending := 0, callback := (s.jobs i).callback }) ∧
    (∀ i, s.numOfJobs ≤ i → (SchedulerExecutePendingJobs s).2.jobs i = s.jobs i) ∧
    (SchedulerExecutePendingJobs s).2.numOfJobs = s.numOfJobs ∧
    (SchedulerExecutePendingJobs s).2.startTime = s.startTime ∧
    (SchedulerExecutePendingJobs s).2.isRunning = s.isRunning ∧
    ((∀ i, i < s.numOfJobs → (s.jobs i).isPending = 0) →
      SchedulerExecutePendingJobs s = ([], s)) := by
  unfold SchedulerExecutePendingJobs
  rw [SchedulerExecutePendingJobs.pending_loop_eq s s.numOfJobs]
  refine ⟨rfl, ?_, ?_, rfl, rfl, rfl, ?_⟩
  · intro i hi
    simp only [hi, if_true]
  · intro i hi
    have h : ¬ i < s.numOfJobs := by omega
    simp only [h, if_false]
  · intro hnone
    have hfilter : (List.range s.numOfJobs).filter
        (fun i => decide ((s.jobs i).isPending ≠ 0 ∧ (s.jobs i).callback ≠ 0)) = [] := by
      rw [List.filter_eq_nil_iff]
      intro i hi
      have := hnone i (List.mem_range.mp hi)
      simp [this]
    rw [hfilter]
    simp only [List.map_nil]
    congr 1
    show ({ s with jobs := _ } : Scheduler_t) = s
    have hj : (fun i => if i < s.numOfJobs then
        ({ s.jobs i with isPending := 0 } : Job_t) else s.jobs i) = s.jobs := by
      funext i
      by_cases h : i < s.numOfJobs
      · simp only [h, if_true]
        exact Job_t.clear_of_not_pending _ (hnone i h)
      · simp only [h, if_false]
    rw [hj]

/-- Witness of C17: of three jobs the first and the third are pending and the
third has no callback; only the callback of the first is called, and all three
flags are zero afterwards. With nothing pending the state is unchanged. -/
theorem SchedulerExecutePendingJobs_spec_witness :
    (SchedulerExecutePendingJobs pendingExample).1 = [11] ∧
    (SchedulerExecutePendingJobs pendingExample).2.jobs 2 =
      { period := 7, remainingTime := 7, isPending := 0, callback := 0 } ∧
    SchedulerExecutePendingJobs admittedExample = ([], admittedExample) := by
  have h := SchedulerExecutePendingJobs_spec pendingExample
  have h2 := SchedulerExecutePendingJobs_spec admittedExample
  refine ⟨h.1.trans (by decide), (h.2.1 2 (by decide)).trans (by decide), h2.2.2.2.2.2.2 ?_⟩
  intro i hi
  have hi2 : i < 2 := hi
  interval_cases i <;> decide

/-! The epoch clock: arming rule -/

/-- C18: `RtcSetAlarmFromEpoch(t)` returns 0 and programs no alarm (alarm A and
the calendar are as before, the HAL is not called) for every `t` not later
than the current epoch, and returns a non-zero value, namely 1, for every `t`
later than the current epoch provided the HAL call reports `HAL_OK`, in which
case alarm A holds the alarm just programmed. -/
theorem RtcSetAlarmFromEpoch_spec (status : HAL_StatusTypeDef) (t : Nat) (rtc : Rtc) :
    (t ≤ RtcGetEpoch rtc →
      (RtcSetAlarmFromEpoch status t rtc).1 = 0 ∧
      (RtcSetAlarmFromEpoch status t rtc).2.alarmA = rtc.alarmA ∧
      (RtcSetAlarmFromEpoch status t rtc).2.date = rtc.date ∧
      (RtcSetAlarmFromEpoch status t rtc).2.time = rtc.time) ∧
    (RtcGetEpoch rtc < t → status = HAL_StatusTypeDef.HAL_OK →
      (RtcSetAlarmFromEpoch status t rtc).1 ≠ 0 ∧
      (RtcSetAlarmFromEpoch status t rtc).1 = 1 ∧
      (RtcSetAlarmFromEpoch status t rtc).2.alarmA ≠ none) := by
  constructor
  · intro h
    rw [RtcSetAlarmFromEpoch_not_future status t rtc h]
    exact ⟨rfl, rfl, rfl, rfl⟩
  · intro h hs
    rw [RtcSetAlarmFromEpoch_future status t rtc h]
    simp [hs]

/-- Witness of C18: at the epoch `RtcInit` sets, a request for that very epoch
is turned down and a request for the next second succeeds. -/
theorem RtcSetAlarmFromEpoch_spec_witness :
    (RtcSetAlarmFromEpoch HAL_StatusTypeDef.HAL_OK 1614164400 rtcAfterInit).1 = 0 ∧
    (RtcSetAlarmFromEpoch HAL_StatusTypeDef.HAL_OK 1614164400 rtcAfterInit).2.alarmA = none ∧
    (RtcSetAlarmFromEpoch HAL_StatusTypeDef.HAL_OK 1614164401 rtcAfterInit).1 = 1 :=
  ⟨((RtcSetAlarmFromEpoch_spec HAL_StatusTypeDef.HAL_OK 1614164400 rtcAfterInit).1
      (by decide)).1,
    ((RtcSetAlarmFromEpoch_spec HAL_StatusTypeDef.HAL_OK 1614164400 rtcAfterInit).1
      (by decide)).2.1,
    ((RtcSetAlarmFromEpoch_spec HAL_StatusTypeDef.HAL_OK 1614164401 rtcAfterInit).2
      (by decide) rfl).2.1⟩

/-! The calendar conversions -/

/-- Within the century that starts on 1 March 2000 the year of the era computed
by `localtime` is the one whose March-based year contains the day. -/
theorem erayear_bounds (doe yoe : Nat) (h : doe < 36524)
    (hy : yoe = (doe - doe / 1460) / 365) :
    365 * yoe + yoe / 4 ≤ doe ∧ doe < 365 * (yoe + 1) + (yoe + 1) / 4 ∧ yoe ≤ 99 := by
  have hq : doe / 1461 < 25 := by omega
  generalize hqe : doe / 1461 = q at hq
  interval_cases q <;> omega

/-- From March to December the month offsets of `localtime` and of `mktime`
differ by the 59 days of January and February. -/
theorem march_months (mp : Nat) (h : mp < 10) :
    daysBeforeMonth (mp + 2) = (153 * mp + 2) / 5 + 59 := by
  interval_cases mp <;> rfl

/-- The date fields of `localtime` for day `doy` of the March-based year
`2000 + yoe`. -/
theorem march_core (yoe doy mp : Nat) (hyoe : yoe ≤ 99) (hdoy : doy ≤ 365)
    (hmp : mp = (5 * doy + 2) / 153)
    (hend : 306 ≤ doy → yoe ≤ 98) :
    2000 ≤ yoe + 5 * 400 + (if (if mp < 10 then mp + 2 else mp - 10) ≤ 1 then 1 else 0) ∧
    yoe + 5 * 400 + (if (if mp < 10 then mp + 2 else mp - 10) ≤ 1 then 1 else 0) ≤ 2099 ∧
    (if mp < 10 then mp + 2 else mp - 10) ≤ 11 ∧
    1 ≤ doy - (153 * mp + 2) / 5 + 1 ∧
    doy - (153 * mp + 2) / 5 + 1 ≤ 31 ∧
    monthStart (yoe + 5 * 400 + (if (if mp < 10 then mp + 2 else mp - 10) ≤ 1 then 1 else 0)
        - 1900) (if mp < 10 then mp + 2 else mp - 10) +
      (doy - (153 * mp + 2) / 5 + 1 - 1) = 11017 + 365 * yoe + yoe / 4 + doy := by
  have hmplt : mp ≤ 11 := by omega
  by_cases hlt : mp < 10
  · have hm1 : ¬ mp + 2 ≤ 1 := by omega
    have hcum : (153 * mp + 2) / 5 ≤ doy := by omega
    simp only [hlt, if_true, hm1, if_false, Nat.add_zero]
    unfold monthStart
    rw [march_months mp hlt]
    have h1 : 1 < mp + 2 := by omega
    have hy : yoe + 5 * 400 - 1900 = yoe + 100 := by omega
    rw [hy]
    refine ⟨by omega, by omega, by omega, by omega, by omega, ?_⟩
    by_cases h4 : yoe % 4 = 0
    · have : (yoe + 100) % 4 = 0 := by omega
      simp only [h1, this, and_self, if_true]
      omega
    · have : ¬ (yoe + 100) % 4 = 0 := by omega
      simp only [h1, this, and_false, if_false]
      omega
  · have hdoy306 : 306 ≤ doy := by omega
    have hy98 := hend hdoy306
    have hm1 : mp - 10 ≤ 1 := by omega
    simp only [hlt, if_false, hm1, if_true]
    unfold monthStart
    have hnot : ¬ 1 < mp - 10 := by omega
    have hy : yoe + 5 * 400 + 1 - 1900 = yoe + 101 := by omega
    rw [hy]
    simp only [hnot, false_and, if_false]
    have hcases : mp = 10 ∨ mp = 11 := by omega
    rcases hcases with h | h
    · subst h
      simp only [daysBeforeMonth]
      refine ⟨by omega, by omega, by omega, by omega, by omega, ?_⟩
      omega
    · subst h
      simp only [daysBeforeMonth]
      refine ⟨by omega, by omega, by omega, by omega, by omega, ?_⟩
      omega


/-- The date fields of `localtime` for a day number `q` of the years 2000 to
2099, written with the intermediate values of the computation. -/
theorem civil_core (q era eraday erayear yearday mp : Nat)
    (hq1 : 10957 ≤ q) (hq2 : q ≤ 47481)
    (hera : era = (q + 719468) / 146097)
    (heraday : eraday = q + 719468 - era * 146097)
    (herayear : erayear =
      (eraday - eraday / 1460 + eraday / 36524 - eraday / 146096) / 365)
    (hyearday : yearday = eraday - (365 * erayear + erayear / 4 - erayear / 100))
    (hmp : mp = (5 * yearday + 2) / 153) :
    2000 ≤ erayear + era * 400 + (if (if mp < 10 then mp + 2 else mp - 10) ≤ 1 then 1 else 0) ∧
    erayear + era * 400 + (if (if mp < 10 then mp + 2 else mp - 10) ≤ 1 then 1 else 0) ≤ 2099 ∧
    (if mp < 10 then mp + 2 else mp - 10) ≤ 11 ∧
    1 ≤ yearday - (153 * mp + 2) / 5 + 1 ∧
    yearday - (153 * mp + 2) / 5 + 1 ≤ 31 ∧
    monthStart (erayear + era * 400 +
        (if (if mp < 10 then mp + 2 else mp - 10) ≤ 1 then 1 else 0) - 1900)
        (if mp < 10 then mp + 2 else mp - 10) +
      (yearday - (153 * mp + 2) / 5 + 1 - 1) = q := by
  by_cases hseg : 11017 ≤ q
  · have he : era = 5 := by omega
    subst he
    have hd : eraday = q - 11017 := by omega
    have hlt : eraday < 36524 := by omega
    have h36 : eraday / 36524 = 0 := by omega
    have h14 : eraday / 146096 = 0 := by omega
    rw [h36, h14, Nat.add_zero, Nat.sub_zero] at herayear
    obtain ⟨hA1, hA2, hA3⟩ := erayear_bounds eraday erayear hlt herayear
    have h100 : erayear / 100 = 0 := by omega
    rw [h100, Nat.sub_zero] at hyearday
    have hyd : yearday ≤ 365 := by omega
    have hend : 306 ≤ yearday → erayear ≤ 98 := by
      intro h
      by_contra hc
      have : erayear = 99 := by omega
      subst this
      omega
    obtain ⟨g1, g2, g3, g4, g5, g6⟩ := march_core erayear yearday mp hA3 hyd hmp hend
    refine ⟨g1, g2, g3, g4, g5, ?_⟩
    rw [g6]
    omega
  · have he : era = 4 := by omega
    subst he
    have hd : eraday = q + 135080 := by omega
    have h1460 : eraday / 1460 = 100 := by omega
    have hy : erayear = 399 := by
      by_cases hlast : q = 11016
      · subst hlast
        subst hd
        rw [herayear]
      · have h36 : eraday / 36524 = 3 := by omega
        have h14 : eraday / 146096 = 0 := by omega
        rw [herayear, h1460, h36, h14]
        omega
    subst hy
    have hyd : yearday = q - 10651 := by
      rw [hyearday, hd]
      omega
    have hcases : mp = 10 ∨ mp = 11 := by omega
    rcases hcases with h | h
    · subst h
      have hyd2 : yearday ≤ 336 := by omega
      simp [monthStart, daysBeforeMonth]
      omega
    · subst h
      simp [monthStart, daysBeforeMonth]
      omega


/-- The date fields of `localtime` for an epoch of the years 2000 to 2099. -/
theorem localtime_date (e : Nat) (h1 : 946684800 ≤ e) (h2 : e ≤ 4102444799) :
    100 ≤ (localtime e).tm_year ∧ (localtime e).tm_year ≤ 199 ∧
    (localtime e).tm_mon ≤ 11 ∧
    1 ≤ (localtime e).tm_mday ∧ (localtime e).tm_mday ≤ 31 ∧
    monthStart (localtime e).tm_year (localtime e).tm_mon + ((localtime e).tm_mday - 1) =
      e / 86400 := by
  have hq1 : 10957 ≤ e / 86400 := by omega
  have hq2 : e / 86400 ≤ 47481 := by omega
  obtain ⟨g1, g2, g3, g4, g5, g6⟩ := civil_core (e / 86400) _ _ _ _ _ hq1 hq2 rfl rfl rfl rfl rfl
  unfold localtime
  simp only
  exact ⟨by omega, by omega, g3, g4, g5, g6⟩

/-- The time fields of `localtime`. -/
theorem localtime_time (e : Nat) :
    (localtime e).tm_hour < 24 ∧ (localtime e).tm_min < 60 ∧ (localtime e).tm_sec < 60 ∧
    (localtime e).tm_hour * 3600 + (localtime e).tm_min * 60 + (localtime e).tm_sec =
      e % 86400 := by
  unfold localtime
  simp only
  omega

/-- The value of `mktime` on a broken-down time of the years 2000 to 2099. -/
theorem mktime_eq (t : tm) (hy1 : 100 ≤ t.tm_year) (hy2 : t.tm_year ≤ 199) :
    mktime t = 86400 * (monthStart t.tm_year t.tm_mon + (t.tm_mday - 1)) +
      (t.tm_hour * 3600 + t.tm_min * 60 + t.tm_sec) := by
  unfold mktime monthStart
  have hleap : isleap (1900 + t.tm_year) = decide (t.tm_year % 4 = 0) := by
    unfold isleap
    by_cases hc : t.tm_year % 4 = 0
    · have h4 : (1900 + t.tm_year) % 4 = 0 := by omega
      have h100 : (1900 + t.tm_year) % 100 ≠ 0 ∨ (1900 + t.tm_year) % 400 = 0 := by omega
      rcases h100 with h | h <;> simp [hc, h4, h]
    · have h4 : (1900 + t.tm_year) % 4 ≠ 0 := by omega
      have h400 : (1900 + t.tm_year) % 400 ≠ 0 := by omega
      simp [hc, h4, h400]
  rw [hleap]
  generalize daysBeforeMonth t.tm_mon = dbm
  have hif : (if (decide (t.tm_mon > 1) && decide (t.tm_year % 4 = 0)) = true then 1 else 0)
      = (if 1 < t.tm_mon ∧ t.tm_year % 4 = 0 then 1 else 0) := by
    by_cases ha : 1 < t.tm_mon <;> by_cases hb : t.tm_year % 4 = 0 <;> simp [ha, hb]
  simp only [hif]
  generalize (if 1 < t.tm_mon ∧ t.tm_year % 4 = 0 then 1 else 0) = lp
  by_cases h0 : t.tm_year = 100
  · rw [h0]
    omega
  · have ha : (t.tm_year - 1) / 100 = 1 := by omega
    have hb : (t.tm_year + 299) / 400 = 1 := by omega
    rw [ha, hb]
    omega

/-- Round trip on the broken-down time itself. -/
theorem mktime_localtime (e : Nat) (h1 : 946684800 ≤ e) (h2 : e ≤ 4102444799) :
    mktime (localtime e) = e := by
  obtain ⟨g1, g2, g3, _, _, g6⟩ := localtime_date e h1 h2
  obtain ⟨_, _, _, g7⟩ := localtime_time e
  rw [mktime_eq _ g1 g2, g6, g7]
  omega

/-- Within one year, first days of distinct months are at least 28 days
apart; `lp` is 1 in a leap year and 0 otherwise. -/
theorem daysBeforeMonth_gap :
    ∀ lp, lp < 2 → ∀ mon, mon < 12 → ∀ mon2, mon2 < 12 →
      daysBeforeMonth mon + (if 1 < mon then lp else 0) <
        daysBeforeMonth mon2 + (if 1 < mon2 then lp else 0) →
      daysBeforeMonth mon + (if 1 < mon then lp else 0) + 28 ≤
        daysBeforeMonth mon2 + (if 1 < mon2 then lp else 0) := by
  decide

/-- The offset of a month start within its year is at most 335 days. -/
theorem daysBeforeMonth_le :
    ∀ lp, lp < 2 → ∀ mon, mon < 12 →
      daysBeforeMonth mon + (if 1 < mon then lp else 0) ≤ 335 := by
  decide

/-- The leap day term of `monthStart`, split into month test and year test. -/
theorem leapTerm_eq (ty mon : Nat) :
    (if 1 < mon ∧ ty % 4 = 0 then 1 else 0) =
      (if 1 < mon then (if ty % 4 = 0 then 1 else 0) else 0) := by
  by_cases h1 : 1 < mon <;> by_cases h2 : ty % 4 = 0 <;> simp [h1, h2]

/-- First days of distinct months of the years 2000 to 2099 are at least 28
days apart. -/
theorem monthStart_gap (ty mon ty2 mon2 : Nat) (hy1 : 100 ≤ ty)
    (hy3 : 100 ≤ ty2) (hm1 : mon ≤ 11) (hm2 : mon2 ≤ 11)
    (hlt : monthStart ty mon < monthStart ty2 mon2) :
    monthStart ty mon + 28 ≤ monthStart ty2 mon2 := by
  unfold monthStart at hlt ⊢
  rw [leapTerm_eq ty mon, leapTerm_eq ty2 mon2] at hlt ⊢
  have hlp1 : (if ty % 4 = 0 then 1 else 0) < 2 := by split <;> omega
  have hlp2 : (if ty2 % 4 = 0 then 1 else 0) < 2 := by split <;> omega
  have hb1 := daysBeforeMonth_le _ hlp1 mon (by omega)
  have hb2 := daysBeforeMonth_le _ hlp2 mon2 (by omega)
  rcases Nat.lt_trichotomy ty ty2 with h | h | h
  · omega
  · subst h
    have := daysBeforeMonth_gap _ hlp1 mon (by omega) mon2 (by omega) (by omega)
    omega
  · omega


/-- Two instants of the years 2000 to 2099 that are less than 28 days apart
differ in day of the month, hours, minutes or seconds. -/
theorem localtime_fields_ne (e t : Nat) (h1 : 946684800 ≤ e) (h2 : t ≤ 4102444799)
    (hlt : e < t) (hnear : t < e + 2419200) :
    ¬ ((localtime t).tm_mday = (localtime e).tm_mday ∧
      (localtime t).tm_hour = (localtime e).tm_hour ∧
      (localtime t).tm_min = (localtime e).tm_min ∧
      (localtime t).tm_sec = (localtime e).tm_sec) := by
  rintro ⟨hd, hh, hm, hs⟩
  obtain ⟨a1, _, a3, a4, _, a6⟩ := localtime_date e h1 (by omega)
  obtain ⟨b1, _, b3, b4, _, b6⟩ := localtime_date t (by omega) h2
  obtain ⟨_, _, _, a7⟩ := localtime_time e
  obtain ⟨_, _, _, b7⟩ := localtime_time t
  rw [hh, hm, hs, a7] at b7
  rw [hd] at b6
  have hq1 : e / 86400 < t / 86400 := by omega
  have hq2 : t / 86400 < e / 86400 + 28 := by omega
  have hgap := monthStart_gap (localtime e).tm_year (localtime e).tm_mon
    (localtime t).tm_year (localtime t).tm_mon a1 b1 a3 b3 (by omega)
  omega

/-- The calendar that `RtcConvertEpochToDatetime` writes for an epoch of the
years 2000 to 2099 is read back by `RtcGetEpoch` as that epoch. -/
theorem RtcGetEpoch_of_converted (e : Nat) (h1 : 946684800 ≤ e) (h2 : e ≤ 4102444799)
    (rtc : Rtc) (date : RTC_DateTypeDef) (time : RTC_TimeTypeDef) :
    RtcGetEpoch
      { rtc with
        date := (RtcConvertEpochToDatetime e date time).1
        time := (RtcConvertEpochToDatetime e date time).2 } = e := by
  obtain ⟨g1, g2, g3, g4, g5, g6⟩ := localtime_date e h1 h2
  obtain ⟨_, _, _, g7⟩ := localtime_time e
  unfold RtcGetEpoch RtcConvertEpochToDatetime
  simp only
  have hy : ((localtime e).tm_year + 156) % 256 + 100 = (localtime e).tm_year := by omega
  rw [mktime_eq _ (by simp only; omega) (by simp only; omega)]
  simp only [hy, Nat.add_sub_cancel, g6, g7]
  unfold wrap32
  omega

/-! The epoch clock: where the alarm fires -/

/-- C19 fails as stated: at the calendar `RtcInit` sets (24 February 2021,
11:00:00), a successful request for the epoch 28 days and 1 second ahead
(24 March 2021, 11:00:01) programs day 24, 11:00:01 with no field masked, and
these fields already match the calendar 1 second after the request. -/
theorem RtcSetAlarmFromEpoch_early_match_counterexample :
    RtcGetEpoch rtcAfterInit = 1614164400 ∧
    (RtcSetAlarmFromEpoch HAL_StatusTypeDef.HAL_OK 1616583601 rtcAfterInit).1 = 1 ∧
    (RtcSetAlarmFromEpoch HAL_StatusTypeDef.HAL_OK 1616583601 rtcAfterInit).2.alarmA =
      some (RtcSetAlarmFromEpoch.sAlarm (rtcAt 1616583601).date (rtcAt 1616583601).time) ∧
    (RtcSetAlarmFromEpoch.sAlarm (rtcAt 1616583601).date
      (rtcAt 1616583601).time).AlarmMask = RTC_ALARMMASK_NONE ∧
    RtcGetEpoch (rtcAt 1614164401) = 1614164401 ∧
    1614164400 < 1614164401 ∧ 1614164401 < 1616583601 ∧
    alarmMatches (RtcSetAlarmFromEpoch.sAlarm (rtcAt 1616583601).date (rtcAt 1616583601).time)
      (rtcAt 1614164401).date (rtcAt 1614164401).time = true := by
  refine ⟨by decide, by decide, by decide, rfl, by decide, by decide, by decide, by decide⟩

/-- C19 as amended: for every target epoch `t` later than the current epoch
`now`, at most 28 days (2419200 seconds) ahead of it and within the calendar
range of the RTC (years 2000 to 2099), a successful `RtcSetAlarmFromEpoch(t)`
programs alarm A with the day of the month, hours, minutes and seconds of `t`,
no field masked; these fields match the running calendar at epoch `t` and at no
instant strictly between `now` and `t`. -/
theorem RtcSetAlarmFromEpoch_first_match (rtc : Rtc) (t : Nat)
    (hnow : 946684800 ≤ RtcGetEpoch rtc) (ht : t ≤ 4102444799)
    (hfut : RtcGetEpoch rtc < t) (hnear : t ≤ RtcGetEpoch rtc + 2419200) :
    (RtcSetAlarmFromEpoch HAL_StatusTypeDef.HAL_OK t rtc).1 = 1 ∧
    (RtcSetAlarmFromEpoch HAL_StatusTypeDef.HAL_OK t rtc).2.alarmA =
      some (RtcSetAlarmFromEpoch.sAlarm (rtcAt t).date (rtcAt t).time) ∧
    (RtcSetAlarmFromEpoch.sAlarm (rtcAt t).date (rtcAt t).time).AlarmMask =
      RTC_ALARMMASK_NONE ∧
    (RtcSetAlarmFromEpoch.sAlarm (rtcAt t).date (rtcAt t).time).AlarmDateWeekDaySel =
      RTC_ALARMDATEWEEKDAYSEL_DATE ∧
    RtcGetEpoch (rtcAt t) = t ∧
    alarmMatches (RtcSetAlarmFromEpoch.sAlarm (rtcAt t).date (rtcAt t).time)
      (rtcAt t).date (rtcAt t).time = true ∧
    ∀ e, RtcGetEpoch rtc < e → e < t →
      RtcGetEpoch (rtcAt e) = e ∧
      alarmMatches (RtcSetAlarmFromEpoch.sAlarm (rtcAt t).date (rtcAt t).time)
        (rtcAt e).date (rtcAt e).time = false := by
  rw [RtcSetAlarmFromEpoch_future HAL_StatusTypeDef.HAL_OK t rtc hfut]
  refine ⟨rfl, rfl, rfl, rfl, ?_, ?_, ?_⟩
  · exact RtcGetEpoch_of_converted t (by omega) ht (rtcAt t) zeroDate zeroTime
  · simp [alarmMatches, RtcSetAlarmFromEpoch.sAlarm, rtcAt, RtcConvertEpochToDatetime]
  · intro e he1 he2
    refine ⟨RtcGetEpoch_of_converted e (by omega) (by omega) (rtcAt e) zeroDate zeroTime, ?_⟩
    have hne := localtime_fields_ne e t (by omega) ht he2 (by omega)
    by_contra hc
    apply hne
    simp only [alarmMatches, RtcSetAlarmFromEpoch.sAlarm, rtcAt, RtcConvertEpochToDatetime,
      Bool.not_eq_false, Bool.and_eq_true, beq_iff_eq] at hc
    exact ⟨hc.1.1.1, hc.1.1.2, hc.1.2, hc.2⟩

/-- Witness of C19 as amended: at the calendar `RtcInit` sets, an alarm
requested 5 seconds ahead. -/
theorem RtcSetAlarmFromEpoch_first_match_witness :
    (RtcSetAlarmFromEpoch HAL_StatusTypeDef.HAL_OK 1614164405 rtcAfterInit).1 = 1 ∧
    alarmMatches (RtcSetAlarmFromEpoch.sAlarm (rtcAt 1614164405).date (rtcAt 1614164405).time)
      (rtcAt 1614164405).date (rtcAt 1614164405).time = true ∧
    alarmMatches (RtcSetAlarmFromEpoch.sAlarm (rtcAt 1614164405).date (rtcAt 1614164405).time)
      (rtcAt 1614164403).date (rtcAt 1614164403).time = false := by
  have h := RtcSetAlarmFromEpoch_first_match rtcAfterInit 1614164405
    (by decide) (by decide) (by decide) (by decide)
  exact ⟨h.1, h.2.2.2.2.2.1, (h.2.2.2.2.2.2 1614164403 (by decide) (by decide)).2⟩

/-- C20: round trip. For every epoch `e` from 2000-01-01 00:00:00 to
2099-12-31 23:59:59 (RTC years 00 to 99), the date and time fields that
`RtcConvertEpochToDatetime` writes are valid RTC fields, and `RtcGetEpoch`
on an RTC holding them (`tm_year = Year + 100`, `tm_mon = Month - 1`, and so
on, then `mktime`) yields `e` again. -/
theorem RtcGetEpoch_RtcConvertEpochToDatetime (e : Nat) (h1 : 946684800 ≤ e)
    (h2 : e ≤ 4102444799) (rtc : Rtc) (date : RTC_DateTypeDef) (time : RTC_TimeTypeDef) :
    RtcGetEpoch
      { rtc with
        date := (RtcConvertEpochToDatetime e date time).1
        time := (RtcConvertEpochToDatetime e date time).2 } = e ∧
    (RtcConvertEpochToDatetime e date time).1.Year ≤ 99 ∧
    1 ≤ (RtcConvertEpochToDatetime e date time).1.Month ∧
    (RtcConvertEpochToDatetime e date time).1.Month ≤ 12 ∧
    1 ≤ (RtcConvertEpochToDatetime e date time).1.Date ∧
    (RtcConvertEpochToDatetime e date time).1.Date ≤ 31 ∧
    (RtcConvertEpochToDatetime e date time).2.Hours < 24 ∧
    (RtcConvertEpochToDatetime e date time).2.Minutes < 60 ∧
    (RtcConvertEpochToDatetime e date time).2.Seconds < 60 := by
  obtain ⟨g1, g2, g3, g4, g5, _⟩ := localtime_date e h1 h2
  obtain ⟨t1, t2, t3, _⟩ := localtime_time e
  refine ⟨RtcGetEpoch_of_converted e h1 h2 rtc date time, ?_⟩
  unfold RtcConvertEpochToDatetime
  simp only
  exact ⟨by omega, by omega, by omega, g4, g5, t1, t2, t3⟩

/-- Witness of C20: the epoch of the calendar `RtcInit` sets, and the two ends
of the range. -/
theorem RtcGetEpoch_RtcConvertEpochToDatetime_witness :
    RtcGetEpoch (rtcAt 1614164400) = 1614164400 ∧
    (rtcAt 1614164400).date = rtcAfterInit.date ∧
    RtcGetEpoch (rtcAt 946684800) = 946684800 ∧
    RtcGetEpoch (rtcAt 4102444799) = 4102444799 :=
  ⟨(RtcGetEpoch_RtcConvertEpochToDatetime 1614164400 (by decide) (by decide)
      (rtcAt 1614164400) zeroDate zeroTime).1,
    by decide,
    (RtcGetEpoch_RtcConvertEpochToDatetime 946684800 (by decide) (by decide)
      (rtcAt 946684800) zeroDate zeroTime).1,
    (RtcGetEpoch_RtcConvertEpochToDatetime 4102444799 (by decide) (by decide)
      (rtcAt 4102444799) zeroDate zeroTime).1⟩

/-- The scheduler object after `SchedulerInit` and the two admissions of
`main`, whatever it held before. -/
theorem main_admissions (a : Bool) (c1 c2 : Nat) (hc1 : c1 ≠ 0) (hc2 : c2 ≠ 0)
    (s0 : Scheduler_t) :
    (SchedulerAddJob a 10 c2 (SchedulerAddJob a 5 c1 (SchedulerInit s0)).2).2 =
      { startTime := 0, isRunning := 0, numOfJobs := 2,
        jobs := Function.update (Function.update s0.jobs 0 ⟨5, 5, 0, c1⟩) 1 ⟨10, 10, 0, c2⟩ } := by
  have h1 : assertsPass a 5 c1 := fun _ => ⟨by decide, hc1⟩
  have h2 : assertsPass a 10 c2 := fun _ => ⟨by decide, hc2⟩
  rw [SchedulerAddJob_of_assertsPass a 5 c1 _ h1]
  simp only [SchedulerInit, MAX_NUM_OF_JOBS, if_true, Nat.lt_of_sub_eq_succ, admitJob,
    admittedJob]
  rw [SchedulerAddJob_of_assertsPass a 10 c2 _ h2]
  simp [MAX_NUM_OF_JOBS, admitJob, admittedJob]

/-- The two `SchedulerProcess` calls of the scenario on any stopped scheduler
that holds a fresh job of period 5 in slot 0 and one of period 10 in slot 1. -/
theorem scenario_core (sA : Scheduler_t) (c1 c2 : Nat) (rtc1 rtc2 : Rtc)
    (hr : sA.isRunning = 0) (hn : sA.numOfJobs = 2)
    (hj0 : sA.jobs 0 = ⟨5, 5, 0, c1⟩) (hj1 : sA.jobs 1 = ⟨10, 10, 0, c2⟩)
    (hT2 : RtcGetEpoch rtc2 = RtcGetEpoch rtc1 + 5)
    (hfit : RtcGetEpoch rtc1 + 10 < 4294967296) :
    (SchedulerProcess HAL_StatusTypeDef.HAL_OK rtc1 sA).1.calls =
      rtc1.calls ++ [RtcCall.setAlarmFromEpoch (RtcGetEpoch rtc1 + 5) 1] ∧
    (SchedulerProcess HAL_StatusTypeDef.HAL_OK rtc1 sA).2.isRunning = 1 ∧
    (SchedulerProcess HAL_StatusTypeDef.HAL_OK rtc2
      (SchedulerProcess HAL_StatusTypeDef.HAL_OK rtc1 sA).2).2.jobs 0 =
      { period := 5, remainingTime := 5, isPending := 1, callback := c1 } ∧
    (SchedulerProcess HAL_StatusTypeDef.HAL_OK rtc2
      (SchedulerProcess HAL_StatusTypeDef.HAL_OK rtc1 sA).2).2.jobs 1 =
      { period := 10, remainingTime := 5, isPending := 0, callback := c2 } ∧
    (SchedulerProcess HAL_StatusTypeDef.HAL_OK rtc2
      (SchedulerProcess HAL_StatusTypeDef.HAL_OK rtc1 sA).2).1.calls =
      rtc2.calls ++ [RtcCall.setAlarmFromEpoch (RtcGetEpoch rtc1 + 10) 1] := by
  have hm : nextRemainingTime sA = 5 := by
    apply nextRemainingTime_eq_min
    · exact ⟨0, by omega, by rw [hj0]⟩
    · intro i hi
      have hi2 : i < 2 := by omega
      interval_cases i
      · rw [hj0]
      · rw [hj1]
        show 5 ≤ 10
        omega
  have hadd1 : add32 (RtcGetEpoch rtc1) 5 = RtcGetEpoch rtc1 + 5 := by
    unfold add32 wrap32; omega
  rw [SchedulerProcess_stopped_pos _ rtc1 sA hr (by omega), hm, hadd1,
    RtcSetAlarmFromEpoch_future _ _ rtc1 (by omega)]
  simp only [if_true, ne_eq, one_ne_zero, not_false_eq_true]
  refine ⟨trivial, trivial, ?_⟩
  obtain ⟨sB, hsB⟩ : ∃ sB : Scheduler_t,
      sB = { sA with startTime := RtcGetEpoch rtc1, isRunning := 1 } := ⟨_, rfl⟩
  rw [← hsB]
  have hBr : sB.isRunning ≠ 0 := by subst hsB; simp
  have hBn : sB.numOfJobs = 2 := by subst hsB; exact hn
  have hBj : sB.jobs = sA.jobs := by subst hsB; rfl
  have hBs : sB.startTime = RtcGetEpoch rtc1 := by subst hsB; rfl
  have hel : sub32 (RtcGetEpoch rtc2) sB.startTime = 5 := by
    have := RtcGetEpoch_lt rtc1
    rw [hBs, hT2]
    unfold sub32 wrap32
    omega
  have hA0 : (Scheduler_ProcessRemainingTime 5 sB).jobs 0 = ⟨5, 5, 1, c1⟩ := by
    rw [Scheduler_ProcessRemainingTime_eq]
    simp [hBn, hBj, hj0, advanceJob]
  have hA1 : (Scheduler_ProcessRemainingTime 5 sB).jobs 1 = ⟨10, 5, 0, c2⟩ := by
    rw [Scheduler_ProcessRemainingTime_eq]
    simp [hBn, hBj, hj1, advanceJob]
  have hm2 : nextRemainingTime (Scheduler_ProcessRemainingTime 5 sB) = 5 := by
    apply nextRemainingTime_eq_min
    · exact ⟨0, by rw [Scheduler_ProcessRemainingTime_eq]; simp [hBn], by rw [hA0]⟩
    · intro i hi
      have hi2 : i < 2 := by
        rw [Scheduler_ProcessRemainingTime_eq] at hi
        simpa [hBn] using hi
      interval_cases i
      · rw [hA0]
      · rw [hA1]
  have hadd2 : add32 (RtcGetEpoch rtc2) 5 = RtcGetEpoch rtc1 + 10 := by
    unfold add32 wrap32; omega
  rw [SchedulerProcess_running_pos _ rtc2 sB hBr (by omega), hel, hm2, hadd2,
    RtcSetAlarmFromEpoch_future _ _ rtc2 (by omega)]
  rw [if_pos (by omega)]
  exact ⟨hA0, hA1, rfl⟩

/-- C21: scenario. Starting from `SchedulerInit`, adding a job of period 5 and
then a job of period 10, a first `SchedulerProcess` at epoch `T` requests an
alarm at `T + 5` and, the request succeeding, enters Running; a second
`SchedulerProcess` at epoch `T + 5` leaves job 1 pending with remaining time 5,
job 2 not pending with remaining time 5, and requests the next alarm at
`T + 10`. -/
theorem SchedulerProcess_main_scenario (a : Bool) (c1 c2 : Nat) (s0 : Scheduler_t)
    (rtc1 rtc2 : Rtc) (hc1 : c1 ≠ 0) (hc2 : c2 ≠ 0)
    (hT2 : RtcGetEpoch rtc2 = RtcGetEpoch rtc1 + 5)
    (hfit : RtcGetEpoch rtc1 + 10 < 4294967296) :
    (SchedulerProcess HAL_StatusTypeDef.HAL_OK rtc1
      (SchedulerAddJob a 10 c2 (SchedulerAddJob a 5 c1 (SchedulerInit s0)).2).2).1.calls =
      rtc1.calls ++ [RtcCall.setAlarmFromEpoch (RtcGetEpoch rtc1 + 5) 1] ∧
    (SchedulerProcess HAL_StatusTypeDef.HAL_OK rtc1
      (SchedulerAddJob a 10 c2 (SchedulerAddJob a 5 c1 (SchedulerInit s0)).2).2).2.isRunning = 1 ∧
    (SchedulerProcess HAL_StatusTypeDef.HAL_OK rtc2
      (SchedulerProcess HAL_StatusTypeDef.HAL_OK rtc1
        (SchedulerAddJob a 10 c2 (SchedulerAddJob a 5 c1 (SchedulerInit s0)).2).2).2).2.jobs 0 =
      { period := 5, remainingTime := 5, isPending := 1, callback := c1 } ∧
    (SchedulerProcess HAL_StatusTypeDef.HAL_OK rtc2
      (SchedulerProcess HAL_StatusTypeDef.HAL_OK rtc1
        (SchedulerAddJob a 10 c2 (SchedulerAddJob a 5 c1 (SchedulerInit s0)).2).2).2).2.jobs 1 =
      { period := 10, remainingTime := 5, isPending := 0, callback := c2 } ∧
    (SchedulerProcess HAL_StatusTypeDef.HAL_OK rtc2
      (SchedulerProcess HAL_StatusTypeDef.HAL_OK rtc1
        (SchedulerAddJob a 10 c2 (SchedulerAddJob a 5 c1 (SchedulerInit s0)).2).2).2).1.calls =
      rtc2.calls ++ [RtcCall.setAlarmFromEpoch (RtcGetEpoch rtc1 + 10) 1] := by
  rw [main_admissions a c1 c2 hc1 hc2 s0]
  exact scenario_core _ c1 c2 rtc1 rtc2 rfl rfl (by simp) (by simp) hT2 hfit

/-- Witness of C21: the start-up of `main` at the calendar `RtcInit` sets and
the first alarm 5 seconds later. -/
theorem SchedulerProcess_main_scenario_witness :
    (SchedulerProcess HAL_StatusTypeDef.HAL_OK rtcAfterInit
      (SchedulerAddJob false 10 2 (SchedulerAddJob false 5 1
        (SchedulerInit bootScheduler)).2).2).1.calls =
      [RtcCall.setAlarmFromEpoch 1614164405 1] ∧
    (SchedulerProcess HAL_StatusTypeDef.HAL_OK (rtcAt 1614164405)
      (SchedulerProcess HAL_StatusTypeDef.HAL_OK rtcAfterInit
        (SchedulerAddJob false 10 2 (SchedulerAddJob false 5 1
          (SchedulerInit bootScheduler)).2).2).2).1.calls =
      [RtcCall.setAlarmFromEpoch 1614164410 1] := by
  have h := SchedulerProcess_main_scenario false 1 2 bootScheduler rtcAfterInit
    (rtcAt 1614164405) (by decide) (by decide) (by decide) (by decide)
  exact ⟨h.1.trans (by decide), h.2.2.2.2.trans (by decide)⟩

/-- The `uint32_t` difference `now - startTime` when the clock reads less than
`startTime`. -/
theorem sub32_backward (now startTime : Nat) (hstart : startTime < 4294967296)
    (hback : now < startTime) :
    sub32 now startTime = 4294967296 - (startTime - now) := by
  unfold sub32 wrap32
  omega

/-- The scheduler object after `SchedulerStop` on a running scheduler. -/
theorem SchedulerStop_running (rtc : Rtc) (s : Scheduler_t) (hrun : s.isRunning ≠ 0) :
    (SchedulerStop rtc s).2 =
      { (if 0 < sub32 (RtcGetEpoch rtc) s.startTime then
          Scheduler_ProcessRemainingTime (sub32 (RtcGetEpoch rtc) s.startTime) s
        else s) with isRunning := 0 } := by
  unfold SchedulerStop
  rw [if_pos hrun]
  rfl

/-- On a stopped scheduler `SchedulerStop` does nothing. -/
theorem SchedulerStop_stopped (rtc : Rtc) (s : Scheduler_t) (hstop : s.isRunning = 0) :
    SchedulerStop rtc s = (rtc, s) := by
  unfold SchedulerStop
  simp [hstop]

/-- C26: the elapsed time of `SchedulerProcess` and of `SchedulerStop` is
`(now - startTime) mod 2^32` without a guard. For every running scheduler and
every clock reading `now < startTime` (the clock was set back by
`d = startTime - now`), the elapsed time is `2^32 - d`, and every admitted job
with `remainingTime <= 2^32 - d` comes out of either function with
`isPending = 1` and `remainingTime = period`. -/
theorem elapsed_backward_clock (status : HAL_StatusTypeDef) (rtc : Rtc) (s : Scheduler_t)
    (i : Nat) (hrun : s.isRunning ≠ 0) (hstart : s.startTime < 4294967296)
    (hback : RtcGetEpoch rtc < s.startTime) (hi : i < s.numOfJobs)
    (hrem : (s.jobs i).remainingTime ≤ 4294967296 - (s.startTime - RtcGetEpoch rtc)) :
    sub32 (RtcGetEpoch rtc) s.startTime = 4294967296 - (s.startTime - RtcGetEpoch rtc) ∧
    (SchedulerProcess status rtc s).2.jobs i =
      { period := (s.jobs i).period, remainingTime := (s.jobs i).period, isPending := 1,
        callback := (s.jobs i).callback } ∧
    (SchedulerStop rtc s).2.jobs i =
      { period := (s.jobs i).period, remainingTime := (s.jobs i).period, isPending := 1,
        callback := (s.jobs i).callback } := by
  have hel := sub32_backward (RtcGetEpoch rtc) s.startTime hstart hback
  have hpos : 0 < sub32 (RtcGetEpoch rtc) s.startTime := by omega
  have hadv : (Scheduler_ProcessRemainingTime (sub32 (RtcGetEpoch rtc) s.startTime) s).jobs i =
      { period := (s.jobs i).period, remainingTime := (s.jobs i).period, isPending := 1,
        callback := (s.jobs i).callback } := by
    rw [Scheduler_ProcessRemainingTime_eq]
    simp only [hi, if_true]
    unfold advanceJob
    rw [if_pos (by omega)]
  refine ⟨hel, ?_, ?_⟩
  · rw [SchedulerProcess_running_pos status rtc s hrun hpos]
    split
    · exact hadv
    · exact hadv
  · rw [SchedulerStop_running rtc s hrun, if_pos hpos]
    exact hadv


/-- Witness of C26: the running scheduler of `main` (started at 1614164400)
processed and stopped with the clock set back by 100 seconds. -/
theorem elapsed_backward_clock_witness :
    sub32 (RtcGetEpoch (rtcAt 1614164300)) startedExample.startTime = 4294967196 ∧
    ((SchedulerProcess HAL_StatusTypeDef.HAL_OK (rtcAt 1614164300) startedExample).2.jobs
      1).isPending = 1 ∧
    ((SchedulerStop (rtcAt 1614164300) startedExample).2.jobs 1).remainingTime = 10 := by
  have h := elapsed_backward_clock HAL_StatusTypeDef.HAL_OK (rtcAt 1614164300) startedExample 1
    (by decide) (by decide) (by decide) (by decide) (by decide)
  refine ⟨h.1.trans (by decide), ?_, ?_⟩
  · rw [h.2.1]
  · rw [h.2.2]
    rfl

/-! Entering and leaving STOP2 -/

/-- The steps of `ResumeFromStop2Mode` on a suspended core. -/
theorem ResumeFromStop2Mode_suspended (t b : Nat) (ok : Bool) (c : Core)
    (h : c.isCoreStopped ≠ 0) :
    ResumeFromStop2Mode t b ok c =
      if ok = false then
        (none, { c with steps := c.steps ++ [CoreStep.set_BASEPRI ((t + 1) <<< (8 - b)),
          CoreStep.DSB, CoreStep.ISB, CoreStep.SystemClockConfig] })
      else
        (some (), { isCoreStopped := 0, steps := c.steps ++
          [CoreStep.set_BASEPRI ((t + 1) <<< (8 - b)), CoreStep.DSB, CoreStep.ISB,
            CoreStep.SystemClockConfig, CoreStep.RtcWaitForClockSynchronization,
            CoreStep.GpioInit, CoreStep.SysTick_CTRL_set_ENABLE,
            CoreStep.write_isCoreStopped 0, CoreStep.set_BASEPRI 0] }) := by
  unfold ResumeFromStop2Mode
  rw [if_pos h]
  cases ok <;> simp [Core.step, Core.write_isCoreStopped]

/-- On an active core `ResumeFromStop2Mode` returns at once. -/
theorem ResumeFromStop2Mode_active (t b : Nat) (ok : Bool) (c : Core)
    (h : c.isCoreStopped = 0) :
    ResumeFromStop2Mode t b ok c = (some (), c) := by
  unfold ResumeFromStop2Mode
  simp [h]

/-- C22: on a core that is not flagged as stopped (`isCoreStopped == 0`),
`ResumeFromStop2Mode` returns without performing any step (no write to BASEPRI,
no clock restore, no RTC synchronisation wait, no GPIO initialisation, no
SysTick change) and leaves the flag at 0, the Active power state; calling it a
second time therefore gives the same result as calling it once. -/
theorem ResumeFromStop2Mode_noop (t b : Nat) (ok : Bool) (c : Core)
    (h : c.isCoreStopped = 0) :
    ResumeFromStop2Mode t b ok c = (some (), c) ∧
    (ResumeFromStop2Mode t b ok c).2.steps = c.steps ∧
    (ResumeFromStop2Mode t b ok c).2.isCoreStopped = 0 ∧
    ResumeFromStop2Mode t b ok (ResumeFromStop2Mode t b ok c).2 =
      ResumeFromStop2Mode t b ok c := by
  have hr := ResumeFromStop2Mode_active t b ok c h
  rw [hr]
  exact ⟨rfl, rfl, h, hr⟩

/-- Witness of C22: the active core, and the core after a successful resume
from STOP2, on which a second call does nothing. -/
theorem ResumeFromStop2Mode_noop_witness :
    ResumeFromStop2Mode 0 4 true activeCore = (some (), activeCore) ∧
    ResumeFromStop2Mode 0 4 true
        (ResumeFromStop2Mode 0 4 true (EnterStop2Mode 0 4 activeCore)).2 =
      (some (), (ResumeFromStop2Mode 0 4 true (EnterStop2Mode 0 4 activeCore)).2) :=
  ⟨(ResumeFromStop2Mode_noop 0 4 true activeCore rfl).1,
    (ResumeFromStop2Mode_noop 0 4 true
      (ResumeFromStop2Mode 0 4 true (EnterStop2Mode 0 4 activeCore)).2 (by decide)).1⟩

/-- The steps of `EnterStop2Mode`. -/
theorem EnterStop2Mode_eq (t b : Nat) (c : Core) :
    EnterStop2Mode t b c =
      { isCoreStopped := 1, steps := c.steps ++
        [CoreStep.set_BASEPRI ((t + 1) <<< (8 - b)), CoreStep.DSB, CoreStep.ISB,
          CoreStep.write_isCoreStopped 1, CoreStep.SysTick_CTRL_clear_ENABLE,
          CoreStep.HAL_RCC_DeInit, CoreStep.HAL_SuspendTick, CoreStep.GpioDeinit,
          CoreStep.HAL_RCC_FLASH_CLK_DISABLE, CoreStep.HAL_RCC_PWR_CLK_DISABLE,
          CoreStep.HAL_RCC_SYSCFG_CLK_DISABLE, CoreStep.RCC_AHB1SMENR_clear,
          CoreStep.RCC_AHB2SMENR_clear, CoreStep.RCC_AHB3SMENR_clear,
          CoreStep.RCC_APB1SMENR1_clear, CoreStep.RCC_APB1SMENR2_clear,
          CoreStep.RCC_APB2SMENR_clear, CoreStep.HAL_RCC_PWR_CLK_ENABLE,
          CoreStep.HAL_RCCEx_WakeUpStopCLKConfig, CoreStep.set_BASEPRI 0,
          CoreStep.HAL_RCC_PWR_CLK_ENABLE, CoreStep.HAL_PWREx_EnterSTOP2Mode] } := by
  simp [EnterStop2Mode, Core.step, Core.write_isCoreStopped]


/-- C25: step order. `EnterStop2Mode` performs 22 steps `L`: the first writes
the masking value to BASEPRI; the write of 1 to `isCoreStopped` and every
teardown step (SysTick stop, `HAL_RCC_DeInit`, tick suspension, GPIO
de-initialisation, peripheral clock disable) come after it and before step 19,
which writes 0 to BASEPRI; the STOP2 entry request is step 21, the last; and
BASEPRI is written nowhere else. `ResumeFromStop2Mode` on a suspended core
masks first, then calls `SystemClockConfig`; if that returns, it waits for the
RTC synchronisation, restores the GPIO, restarts SysTick, clears the flag and
unmasks last; if it does not return, nothing follows it. -/
theorem core_stop_step_order (t b : Nat) (c : Core) :
    (∃ L : List CoreStep,
      (EnterStop2Mode t b c).steps = c.steps ++ L ∧
      L.length = 22 ∧
      L[0]? = some (CoreStep.set_BASEPRI ((t + 1) <<< (8 - b))) ∧
      (∀ i x, L[i]? = some x →
        (x = CoreStep.write_isCoreStopped 1 ∨ x.isTeardown = true) → 0 < i ∧ i < 19) ∧
      L[3]? = some (CoreStep.write_isCoreStopped 1) ∧
      L[4]? = some CoreStep.SysTick_CTRL_clear_ENABLE ∧
      L[5]? = some CoreStep.HAL_RCC_DeInit ∧
      L[7]? = some CoreStep.GpioDeinit ∧
      L[8]? = some CoreStep.HAL_RCC_FLASH_CLK_DISABLE ∧
      L[19]? = some (CoreStep.set_BASEPRI 0) ∧
      L[21]? = some CoreStep.HAL_PWREx_EnterSTOP2Mode ∧
      (∀ i y, L[i]? = some (CoreStep.set_BASEPRI y) → i = 0 ∨ i = 19)) ∧
    (EnterStop2Mode t b c).isCoreStopped = 1 ∧
    (c.isCoreStopped ≠ 0 →
      ResumeFromStop2Mode t b true c =
        (some (), { isCoreStopped := 0, steps := c.steps ++
          [CoreStep.set_BASEPRI ((t + 1) <<< (8 - b)), CoreStep.DSB, CoreStep.ISB,
            CoreStep.SystemClockConfig, CoreStep.RtcWaitForClockSynchronization,
            CoreStep.GpioInit, CoreStep.SysTick_CTRL_set_ENABLE,
            CoreStep.write_isCoreStopped 0, CoreStep.set_BASEPRI 0] }) ∧
      ResumeFromStop2Mode t b false c =
        (none, { c with steps := c.steps ++
          [CoreStep.set_BASEPRI ((t + 1) <<< (8 - b)), CoreStep.DSB, CoreStep.ISB,
            CoreStep.SystemClockConfig] })) := by
  refine ⟨⟨[CoreStep.set_BASEPRI ((t + 1) <<< (8 - b)), CoreStep.DSB, CoreStep.ISB,
          CoreStep.write_isCoreStopped 1, CoreStep.SysTick_CTRL_clear_ENABLE,
          CoreStep.HAL_RCC_DeInit, CoreStep.HAL_SuspendTick, CoreStep.GpioDeinit,
          CoreStep.HAL_RCC_FLASH_CLK_DISABLE, CoreStep.HAL_RCC_PWR_CLK_DISABLE,
          CoreStep.HAL_RCC_SYSCFG_CLK_DISABLE, CoreStep.RCC_AHB1SMENR_clear,
          CoreStep.RCC_AHB2SMENR_clear, CoreStep.RCC_AHB3SMENR_clear,
          CoreStep.RCC_APB1SMENR1_clear, CoreStep.RCC_APB1SMENR2_clear,
          CoreStep.RCC_APB2SMENR_clear, CoreStep.HAL_RCC_PWR_CLK_ENABLE,
          CoreStep.HAL_RCCEx_WakeUpStopCLKConfig, CoreStep.set_BASEPRI 0,
          CoreStep.HAL_RCC_PWR_CLK_ENABLE, CoreStep.HAL_PWREx_EnterSTOP2Mode],
      by rw [EnterStop2Mode_eq], rfl, rfl, ?_, rfl, rfl, rfl, rfl, rfl, rfl, rfl, ?_⟩,
    by rw [EnterStop2Mode_eq], ?_⟩
  · intro i x hx hcase
    have hlt : i < 22 := by
      by_contra hge
      rw [List.getElem?_eq_none (by simpa using hge)] at hx
      exact Option.noConfusion hx
    interval_cases i <;> simp at hx <;> subst hx <;>
      simp [CoreStep.isTeardown] at hcase ⊢
  · intro i y hy
    have hlt : i < 22 := by
      by_contra hge
      rw [List.getElem?_eq_none (by simpa using hge)] at hy
      exact Option.noConfusion hy
    interval_cases i <;> simp at hy ⊢
  · intro hs
    rw [ResumeFromStop2Mode_suspended t b true c hs,
      ResumeFromStop2Mode_suspended t b false c hs]
    simp

/-- Witness of C25: a core that has just entered STOP2 from the Active state,
with `TICK_INT_PRIORITY = 0` and 4 priority bits. -/
theorem core_stop_step_order_witness :
    (EnterStop2Mode 0 4 activeCore).isCoreStopped = 1 ∧
    (ResumeFromStop2Mode 0 4 true (EnterStop2Mode 0 4 activeCore)).2.isCoreStopped = 0 ∧
    ((ResumeFromStop2Mode 0 4 true (EnterStop2Mode 0 4 activeCore)).2.steps.drop 22) =
      [CoreStep.set_BASEPRI 16, CoreStep.DSB, CoreStep.ISB,
        CoreStep.SystemClockConfig, CoreStep.RtcWaitForClockSynchronization,
        CoreStep.GpioInit, CoreStep.SysTick_CTRL_set_ENABLE,
        CoreStep.write_isCoreStopped 0, CoreStep.set_BASEPRI 0] := by
  have h := (core_stop_step_order 0 4 (EnterStop2Mode 0 4 activeCore)).2.2 (by decide)
  refine ⟨(core_stop_step_order 0 4 activeCore).2.1, ?_, ?_⟩
  · rw [h.1]
  · rw [h.1]
    decide

/-! Sequences of scheduler calls -/

/-- What a call can do to one job slot: leave it, clear its pending flag,
advance it, or (for an admission) write a new job. -/
theorem SchedulerAddJob_jobs (a : Bool) (period callback : Nat) (s : Scheduler_t) :
    (SchedulerAddJob a period callback s).2 = s ∨
    (s.isRunning = 0 ∧ s.numOfJobs < MAX_NUM_OF_JOBS ∧
      (SchedulerAddJob a period callback s).2 = admitJob period callback s) := by
  by_cases h : assertsPass a period callback
  · rw [SchedulerAddJob_of_assertsPass a period callback s h]
    by_cases hr : s.isRunning = 0
    · by_cases hc : s.numOfJobs < MAX_NUM_OF_JOBS
      · right
        rw [if_pos hr, if_pos hc]
        exact ⟨hr, hc, rfl⟩
      · left
        rw [if_pos hr, if_neg hc]
    · left
      rw [if_neg hr]
  · left
    rw [SchedulerAddJob_of_assert_failed a period callback s h]

/-- `SchedulerProcess` keeps `numOfJobs`, and the job table it leaves is the
old one or the old one advanced by some elapsed time. -/
theorem SchedulerProcess_jobs (status : HAL_StatusTypeDef) (rtc : Rtc) (s : Scheduler_t) :
    (SchedulerProcess status rtc s).2.numOfJobs = s.numOfJobs ∧
    ((SchedulerProcess status rtc s).2.jobs = s.jobs ∨
      ∃ e, (SchedulerProcess status rtc s).2.jobs = (Scheduler_ProcessRemainingTime e s).jobs) := by
  by_cases hrun : s.isRunning = 0
  · by_cases hm : nextRemainingTime s = 0
    · rw [SchedulerProcess_stopped_zero status rtc s hrun hm]
      exact ⟨rfl, Or.inl rfl⟩
    · rw [SchedulerProcess_stopped_pos status rtc s hrun (by omega)]
      exact ⟨rfl, Or.inl rfl⟩
  · by_cases hel : sub32 (RtcGetEpoch rtc) s.startTime = 0
    · rw [SchedulerProcess_running_zero status rtc s hrun hel]
      exact ⟨rfl, Or.inl rfl⟩
    · rw [SchedulerProcess_running_pos status rtc s hrun (by omega)]
      have hn : (Scheduler_ProcessRemainingTime (sub32 (RtcGetEpoch rtc) s.startTime)
          s).numOfJobs = s.numOfJobs := by
        rw [Scheduler_ProcessRemainingTime_eq]
      split
      · exact ⟨hn, Or.inr ⟨_, rfl⟩⟩
      · exact ⟨hn, Or.inr ⟨_, rfl⟩⟩

/-- `SchedulerStop` keeps `numOfJobs`, and the job table it leaves is the old
one or the old one advanced by some elapsed time. -/
theorem SchedulerStop_jobs (rtc : Rtc) (s : Scheduler_t) :
    (SchedulerStop rtc s).2.numOfJobs = s.numOfJobs ∧
    ((SchedulerStop rtc s).2.jobs = s.jobs ∨
      ∃ e, (SchedulerStop rtc s).2.jobs = (Scheduler_ProcessRemainingTime e s).jobs) := by
  by_cases hrun : s.isRunning = 0
  · rw [SchedulerStop_stopped rtc s hrun]
    exact ⟨rfl, Or.inl rfl⟩
  · rw [SchedulerStop_running rtc s hrun]
    split
    · refine ⟨?_, Or.inr ⟨_, rfl⟩⟩
      show (Scheduler_ProcessRemainingTime _ s).numOfJobs = _
      rw [Scheduler_ProcessRemainingTime_eq]
    · exact ⟨rfl, Or.inl rfl⟩

/-- The scheduler object after `SchedulerExecutePendingJobs`. -/
theorem SchedulerExecutePendingJobs_state (s : Scheduler_t) :
    (SchedulerExecutePendingJobs s).2 =
      { s with
        jobs := fun i =>
          if i < s.numOfJobs then { s.jobs i with isPending := 0 } else s.jobs i } := by
  unfold SchedulerExecutePendingJobs
  rw [SchedulerExecutePendingJobs.pending_loop_eq s s.numOfJobs]

/-- A call other than `SchedulerInit` does not lower `numOfJobs` and leaves
period and callback of every admitted job as they were. -/
theorem SchedulerOp.apply_keeps_admitted (op : SchedulerOp) (s : Scheduler_t)
    (hop : op.isNotInit = true) :
    s.numOfJobs ≤ (op.apply s).numOfJobs ∧
    ∀ i, i < s.numOfJobs →
      ((op.apply s).jobs i).period = (s.jobs i).period ∧
      ((op.apply s).jobs i).callback = (s.jobs i).callback := by
  have hadv : ∀ e i, ((Scheduler_ProcessRemainingTime e s).jobs i).period = (s.jobs i).period ∧
      ((Scheduler_ProcessRemainingTime e s).jobs i).callback = (s.jobs i).callback := by
    intro e i
    rw [Scheduler_ProcessRemainingTime_eq]
    simp only
    split
    · unfold advanceJob
      split <;> exact ⟨rfl, rfl⟩
    · exact ⟨rfl, rfl⟩
  cases op with
  | init => simp [SchedulerOp.isNotInit] at hop
  | addJob a period callback =>
    simp only [SchedulerOp.apply]
    rcases SchedulerAddJob_jobs a period callback s with h | ⟨_, _, h⟩
    · rw [h]
      exact ⟨Nat.le_refl _, fun i _ => ⟨rfl, rfl⟩⟩
    · rw [h]
      refine ⟨Nat.le_succ _, fun i hi => ?_⟩
      simp only [admitJob]
      rw [Function.update_noteq (Nat.ne_of_lt hi)]
      exact ⟨rfl, rfl⟩
  | process status rtc =>
    simp only [SchedulerOp.apply]
    obtain ⟨hn, hj⟩ := SchedulerProcess_jobs status rtc s
    refine ⟨by omega, fun i _ => ?_⟩
    rcases hj with h | ⟨e, h⟩
    · rw [h]
      exact ⟨rfl, rfl⟩
    · rw [h]
      exact hadv e i
  | executePendingJobs =>
    simp only [SchedulerOp.apply]
    rw [SchedulerExecutePendingJobs_state]
    refine ⟨Nat.le_refl _, fun i hi => ?_⟩
    show (if i < s.numOfJobs then ({ s.jobs i with isPending := 0 } : Job_t) else s.jobs i).period = _ ∧
      (if i < s.numOfJobs then ({ s.jobs i with isPending := 0 } : Job_t) else s.jobs i).callback = _
    rw [if_pos hi]
    exact ⟨rfl, rfl⟩
  | stop rtc =>
    simp only [SchedulerOp.apply]
    obtain ⟨hn, hj⟩ := SchedulerStop_jobs rtc s
    refine ⟨by omega, fun i _ => ?_⟩
    rcases hj with h | ⟨e, h⟩
    · rw [h]
      exact ⟨rfl, rfl⟩
    · rw [h]
      exact hadv e i

/-- C23: after any sequence of `SchedulerProcess`,
`SchedulerExecutePendingJobs`, `SchedulerStop` and `SchedulerAddJob` calls
(admitting or not), with any RTC contents and HAL statuses, every job that was
admitted before the sequence (index `i < numOfJobs`) is still admitted and has
the period and the callback it had; and a job that `SchedulerAddJob` admits
has, after any such sequence, the period and the callback given at its
admission. -/
theorem runOps_keeps_period_and_callback (ops : List SchedulerOp) (s : Scheduler_t)
    (hops : ∀ op, op ∈ ops → op.isNotInit = true) :
    s.numOfJobs ≤ (runOps ops s).numOfJobs ∧
    (∀ i, i < s.numOfJobs →
      ((runOps ops s).jobs i).period = (s.jobs i).period ∧
      ((runOps ops s).jobs i).callback = (s.jobs i).callback) ∧
    ∀ (a : Bool) (period callback : Nat), s.isRunning = 0 →
      s.numOfJobs < MAX_NUM_OF_JOBS → assertsPass a period callback →
      s.numOfJobs < (runOps (SchedulerOp.addJob a period callback :: ops) s).numOfJobs ∧
      ((runOps (SchedulerOp.addJob a period callback :: ops) s).jobs s.numOfJobs).period
        = period ∧
      ((runOps (SchedulerOp.addJob a period callback :: ops) s).jobs s.numOfJobs).callback
        = callback := by
  have key : ∀ (ops : List SchedulerOp), (∀ op, op ∈ ops → op.isNotInit = true) →
      ∀ s : Scheduler_t, s.numOfJobs ≤ (runOps ops s).numOfJobs ∧
        ∀ i, i < s.numOfJobs →
          ((runOps ops s).jobs i).period = (s.jobs i).period ∧
          ((runOps ops s).jobs i).callback = (s.jobs i).callback := by
    intro ops
    induction ops with
    | nil => intro _ s; exact ⟨Nat.le_refl _, fun i _ => ⟨rfl, rfl⟩⟩
    | cons op ops ih =>
      intro hops s
      obtain ⟨h1, h2⟩ :=
        SchedulerOp.apply_keeps_admitted op s (hops op (List.mem_cons_self _ _))
      obtain ⟨h3, h4⟩ := ih (fun o ho => hops o (List.mem_cons_of_mem _ ho)) (op.apply s)
      refine ⟨Nat.le_trans h1 h3, fun i hi => ?_⟩
      obtain ⟨h5, h6⟩ := h4 i (by omega)
      obtain ⟨h7, h8⟩ := h2 i hi
      exact ⟨h5.trans h7, h6.trans h8⟩
  refine ⟨(key ops hops s).1, (key ops hops s).2, ?_⟩
  intro a period callback hrun hcap hpass
  have hstate : (SchedulerOp.addJob a period callback).apply s = admitJob period callback s := by
    show (SchedulerAddJob a period callback s).2 = _
    rw [SchedulerAddJob_of_assertsPass a period callback s hpass, if_pos hrun, if_pos hcap]
  show _ < (runOps ops ((SchedulerOp.addJob a period callback).apply s)).numOfJobs ∧
    ((runOps ops ((SchedulerOp.addJob a period callback).apply s)).jobs s.numOfJobs).period = _ ∧
    ((runOps ops ((SchedulerOp.addJob a period callback).apply s)).jobs s.numOfJobs).callback = _
  rw [hstate]
  obtain ⟨h1, h2⟩ := key ops hops (admitJob period callback s)
  have hn : (admitJob period callback s).numOfJobs = s.numOfJobs + 1 := rfl
  have hj : (admitJob period callback s).jobs s.numOfJobs = admittedJob period callback := by
    simp [admitJob]
  obtain ⟨h3, h4⟩ := h2 s.numOfJobs (by omega)
  rw [hj] at h3 h4
  exact ⟨by omega, h3, h4⟩

/-- Witness of C23: the started scheduler of `main` across a wake-up, the
execution of the pending job, a refused admission and a stop. -/
theorem runOps_keeps_period_and_callback_witness :
    (∀ op, op ∈ [SchedulerOp.process HAL_StatusTypeDef.HAL_OK (rtcAt 1614164405),
        SchedulerOp.executePendingJobs, SchedulerOp.addJob true 7 3,
        SchedulerOp.stop (rtcAt 1614164407)] → op.isNotInit = true) ∧
    (startedExample.numOfJobs ≤
      (runOps [SchedulerOp.process HAL_StatusTypeDef.HAL_OK (rtcAt 1614164405),
        SchedulerOp.executePendingJobs, SchedulerOp.addJob true 7 3,
        SchedulerOp.stop (rtcAt 1614164407)] startedExample).numOfJobs ∧
    (∀ i, i < startedExample.numOfJobs →
      ((runOps [SchedulerOp.process HAL_StatusTypeDef.HAL_OK (rtcAt 1614164405),
        SchedulerOp.executePendingJobs, SchedulerOp.addJob true 7 3,
        SchedulerOp.stop (rtcAt 1614164407)] startedExample).jobs i).period
          = (startedExample.jobs i).period ∧
      ((runOps [SchedulerOp.process HAL_StatusTypeDef.HAL_OK (rtcAt 1614164405),
        SchedulerOp.executePendingJobs, SchedulerOp.addJob true 7 3,
        SchedulerOp.stop (rtcAt 1614164407)] startedExample).jobs i).callback
          = (startedExample.jobs i).callback) ∧
    ∀ (a : Bool) (period callback : Nat), startedExample.isRunning = 0 →
      startedExample.numOfJobs < MAX_NUM_OF_JOBS → assertsPass a period callback →
      startedExample.numOfJobs <
        (runOps (SchedulerOp.addJob a period callback ::
          [SchedulerOp.process HAL_StatusTypeDef.HAL_OK (rtcAt 1614164405),
          SchedulerOp.executePendingJobs, SchedulerOp.addJob true 7 3,
          SchedulerOp.stop (rtcAt 1614164407)]) startedExample).numOfJobs ∧
      ((runOps (SchedulerOp.addJob a period callback ::
          [SchedulerOp.process HAL_StatusTypeDef.HAL_OK (rtcAt 1614164405),
          SchedulerOp.executePendingJobs, SchedulerOp.addJob true 7 3,
          SchedulerOp.stop (rtcAt 1614164407)]) startedExample).jobs
            startedExample.numOfJobs).period = period ∧
      ((runOps (SchedulerOp.addJob a period callback ::
          [SchedulerOp.process HAL_StatusTypeDef.HAL_OK (rtcAt 1614164405),
          SchedulerOp.executePendingJobs, SchedulerOp.addJob true 7 3,
          SchedulerOp.stop (rtcAt 1614164407)]) startedExample).jobs
            startedExample.numOfJobs).callback = callback) :=
  have h : ∀ op, op ∈ [SchedulerOp.process HAL_StatusTypeDef.HAL_OK (rtcAt 1614164405),
      SchedulerOp.executePendingJobs, SchedulerOp.addJob true 7 3,
      SchedulerOp.stop (rtcAt 1614164407)] → op.isNotInit = true := by
    intro op hop
    simp only [List.mem_cons, List.mem_singleton, List.not_mem_nil, or_false] at hop
    rcases hop with h | h | h | h <;> rw [h] <;> rfl
  ⟨h, runOps_keeps_period_and_callback _ startedExample h⟩

/-! The capacity of the job table -/

/-- The search loop of `SchedulerProcess` on a non-empty table selects an
admitted job. -/
theorem SchedulerProcess.indexOfNextJob_lt (s : Scheduler_t) (hne : 0 < s.numOfJobs) :
    SchedulerProcess.indexOfNextJob s < s.numOfJobs := by
  obtain ⟨n, hn⟩ : ∃ n, s.numOfJobs = n + 1 := ⟨s.numOfJobs - 1, by omega⟩
  unfold SchedulerProcess.indexOfNextJob
  rw [hn]
  have := (SchedulerProcess.search_loop s n).1
  omega

/-- The search loop of `SchedulerProcess` on an empty table selects slot 0. -/
theorem SchedulerProcess.indexOfNextJob_empty (s : Scheduler_t) (hn : s.numOfJobs = 0) :
    SchedulerProcess.indexOfNextJob s = 0 := by
  unfold SchedulerProcess.indexOfNextJob
  rw [hn]
  rfl

/-- A call keeps `numOfJobs` within the capacity and writes no slot beyond the
array. -/
theorem SchedulerOp.apply_keeps_capacity (op : SchedulerOp) (s : Scheduler_t)
    (hcap : s.numOfJobs ≤ MAX_NUM_OF_JOBS) :
    (op.apply s).numOfJobs ≤ MAX_NUM_OF_JOBS ∧
    ∀ i, MAX_NUM_OF_JOBS ≤ i → (op.apply s).jobs i = s.jobs i := by
  have hadv : ∀ e i, MAX_NUM_OF_JOBS ≤ i →
      (Scheduler_ProcessRemainingTime e s).jobs i = s.jobs i := by
    intro e i hi
    rw [Scheduler_ProcessRemainingTime_eq]
    show (if i < s.numOfJobs then advanceJob e (s.jobs i) else s.jobs i) = _
    rw [if_neg (by omega)]
  cases op with
  | init => exact ⟨Nat.zero_le _, fun i _ => rfl⟩
  | addJob a period callback =>
    simp only [SchedulerOp.apply]
    rcases SchedulerAddJob_jobs a period callback s with h | ⟨_, hlt, h⟩
    · rw [h]
      exact ⟨hcap, fun i _ => rfl⟩
    · rw [h]
      refine ⟨hlt, fun i hi => ?_⟩
      simp only [admitJob]
      rw [Function.update_noteq (by omega)]
  | process status rtc =>
    simp only [SchedulerOp.apply]
    obtain ⟨hn, hj⟩ := SchedulerProcess_jobs status rtc s
    refine ⟨by omega, fun i hi => ?_⟩
    rcases hj with h | ⟨e, h⟩
    · rw [h]
    · rw [h]
      exact hadv e i hi
  | executePendingJobs =>
    simp only [SchedulerOp.apply]
    rw [SchedulerExecutePendingJobs_state]
    refine ⟨hcap, fun i hi => ?_⟩
    show (if i < s.numOfJobs then ({ s.jobs i with isPending := 0 } : Job_t) else s.jobs i) = _
    rw [if_neg (by omega)]
  | stop rtc =>
    simp only [SchedulerOp.apply]
    obtain ⟨hn, hj⟩ := SchedulerStop_jobs rtc s
    refine ⟨by omega, fun i hi => ?_⟩
    rcases hj with h | ⟨e, h⟩
    · rw [h]
    · rw [h]
      exact hadv e i hi

/-- A sequence of calls keeps `numOfJobs` within the capacity and writes no
slot beyond the array. -/
theorem runOps_keeps_capacity (ops : List SchedulerOp) :
    ∀ s : Scheduler_t, s.numOfJobs ≤ MAX_NUM_OF_JOBS →
      (runOps ops s).numOfJobs ≤ MAX_NUM_OF_JOBS ∧
      ∀ i, MAX_NUM_OF_JOBS ≤ i → (runOps ops s).jobs i = s.jobs i := by
  induction ops with
  | nil => intro s h; exact ⟨h, fun i _ => rfl⟩
  | cons op ops ih =>
    intro s h
    obtain ⟨h1, h2⟩ := SchedulerOp.apply_keeps_capacity op s h
    obtain ⟨h3, h4⟩ := ih (op.apply s) h1
    exact ⟨h3, fun i hi => (h4 i hi).trans (h2 i hi)⟩

/-- C24: starting from `SchedulerInit`, after any sequence of scheduler calls
(`SchedulerInit` again included, any arguments) `numOfJobs` is at most
`MAX_NUM_OF_JOBS = 10`. Hence every index the loops of
`Scheduler_ProcessRemainingTime`, `SchedulerExecutePendingJobs` and the search
of `SchedulerProcess` visit (the elements of `List.range numOfJobs`) is below
10, the index the search selects is below 10, a `SchedulerAddJob` either
leaves the object alone or writes slot `numOfJobs < 10`, and no slot at index
10 or above is ever written. -/
theorem runOps_numOfJobs_le_capacity (ops : List SchedulerOp) (s0 : Scheduler_t) :
    MAX_NUM_OF_JOBS = 10 ∧
    (runOps ops (SchedulerInit s0)).numOfJobs ≤ MAX_NUM_OF_JOBS ∧
    (∀ i, i ∈ List.range (runOps ops (SchedulerInit s0)).numOfJobs → i < MAX_NUM_OF_JOBS) ∧
    SchedulerProcess.indexOfNextJob (runOps ops (SchedulerInit s0)) < MAX_NUM_OF_JOBS ∧
    (∀ (a : Bool) (period callback : Nat),
      (SchedulerAddJob a period callback (runOps ops (SchedulerInit s0))).2
          = runOps ops (SchedulerInit s0) ∨
        ((runOps ops (SchedulerInit s0)).numOfJobs < MAX_NUM_OF_JOBS ∧
          (SchedulerAddJob a period callback (runOps ops (SchedulerInit s0))).2 =
            { runOps ops (SchedulerInit s0) with
              jobs := Function.update (runOps ops (SchedulerInit s0)).jobs
                (runOps ops (SchedulerInit s0)).numOfJobs (admittedJob period callback)
              numOfJobs := (runOps ops (SchedulerInit s0)).numOfJobs + 1 })) ∧
    ∀ i, MAX_NUM_OF_JOBS ≤ i → (runOps ops (SchedulerInit s0)).jobs i = s0.jobs i := by
  obtain ⟨h1, h2⟩ := runOps_keeps_capacity ops (SchedulerInit s0) (Nat.zero_le _)
  refine ⟨rfl, h1, fun i hi => ?_, ?_, fun a period callback => ?_, h2⟩
  · rw [List.mem_range] at hi
    omega
  · by_cases hn : (runOps ops (SchedulerInit s0)).numOfJobs = 0
    · rw [SchedulerProcess.indexOfNextJob_empty _ hn]
      decide
    · have := SchedulerProcess.indexOfNextJob_lt (runOps ops (SchedulerInit s0)) (by omega)
      omega
  · rcases SchedulerAddJob_jobs a period callback (runOps ops (SchedulerInit s0)) with
      h | ⟨_, hlt, h⟩
    · exact Or.inl h
    · exact Or.inr ⟨hlt, h⟩

/-! Remaining times stay between 1 and the period -/

/-- An advance keeps `1 ≤ remainingTime ≤ period` on a single job. -/
theorem advanceJob_bounds (e : Nat) (j : Job_t)
    (h : 1 ≤ j.remainingTime ∧ j.remainingTime ≤ j.period) :
    1 ≤ (advanceJob e j).remainingTime ∧
    (advanceJob e j).remainingTime ≤ (advanceJob e j).period := by
  unfold advanceJob
  split
  · exact ⟨Nat.le_trans h.1 h.2, Nat.le_refl _⟩
  · show 1 ≤ j.remainingTime - e ∧ j.remainingTime - e ≤ j.period
    omega

/-- An advance of the whole table keeps `numOfJobs` and keeps
`1 ≤ remainingTime ≤ period` on every admitted job. -/
theorem Scheduler_ProcessRemainingTime_bounds (e : Nat) (s : Scheduler_t)
    (hinv : ∀ i, i < s.numOfJobs →
      1 ≤ (s.jobs i).remainingTime ∧ (s.jobs i).remainingTime ≤ (s.jobs i).period) :
    (Scheduler_ProcessRemainingTime e s).numOfJobs = s.numOfJobs ∧
    ∀ i, i < s.numOfJobs →
      1 ≤ ((Scheduler_ProcessRemainingTime e s).jobs i).remainingTime ∧
      ((Scheduler_ProcessRemainingTime e s).jobs i).remainingTime ≤
        ((Scheduler_ProcessRemainingTime e s).jobs i).period := by
  rw [Scheduler_ProcessRemainingTime_eq]
  refine ⟨rfl, fun i hi => ?_⟩
  show 1 ≤ (if i < s.numOfJobs then advanceJob e (s.jobs i) else s.jobs i).remainingTime ∧
    (if i < s.numOfJobs then advanceJob e (s.jobs i) else s.jobs i).remainingTime ≤
      (if i < s.numOfJobs then advanceJob e (s.jobs i) else s.jobs i).period
  rw [if_pos hi]
  exact advanceJob_bounds e _ (hinv i hi)

/-- A run-time call keeps `numOfJobs` and keeps `1 ≤ remainingTime ≤ period`
on every admitted job. -/
theorem SchedulerOp.apply_keeps_bounds (op : SchedulerOp) (s : Scheduler_t)
    (hop : op.isRunTime = true)
    (hinv : ∀ i, i < s.numOfJobs →
      1 ≤ (s.jobs i).remainingTime ∧ (s.jobs i).remainingTime ≤ (s.jobs i).period) :
    (op.apply s).numOfJobs = s.numOfJobs ∧
    ∀ i, i < s.numOfJobs →
      1 ≤ ((op.apply s).jobs i).remainingTime ∧
      ((op.apply s).jobs i).remainingTime ≤ ((op.apply s).jobs i).period := by
  cases op with
  | init => simp [SchedulerOp.isRunTime] at hop
  | addJob a period callback => simp [SchedulerOp.isRunTime] at hop
  | process status rtc =>
    simp only [SchedulerOp.apply]
    obtain ⟨hn, hj⟩ := SchedulerProcess_jobs status rtc s
    refine ⟨hn, fun i hi => ?_⟩
    rcases hj with h | ⟨e, h⟩
    · rw [h]
      exact hinv i hi
    · rw [h]
      exact (Scheduler_ProcessRemainingTime_bounds e s hinv).2 i hi
  | executePendingJobs =>
    simp only [SchedulerOp.apply]
    rw [SchedulerExecutePendingJobs_state]
    refine ⟨rfl, fun i hi => ?_⟩
    show 1 ≤ (if i < s.numOfJobs then ({ s.jobs i with isPending := 0 } : Job_t)
        else s.jobs i).remainingTime ∧
      (if i < s.numOfJobs then ({ s.jobs i with isPending := 0 } : Job_t)
        else s.jobs i).remainingTime ≤
      (if i < s.numOfJobs then ({ s.jobs i with isPending := 0 } : Job_t)
        else s.jobs i).period
    rw [if_pos hi]
    exact hinv i hi
  | stop rtc =>
    simp only [SchedulerOp.apply]
    obtain ⟨hn, hj⟩ := SchedulerStop_jobs rtc s
    refine ⟨hn, fun i hi => ?_⟩
    rcases hj with h | ⟨e, h⟩
    · rw [h]
      exact hinv i hi
    · rw [h]
      exact (Scheduler_ProcessRemainingTime_bounds e s hinv).2 i hi

/-- A sequence of run-time calls keeps `numOfJobs` and keeps
`1 ≤ remainingTime ≤ period` on every admitted job. -/
theorem runOps_keeps_bounds (ops : List SchedulerOp) :
    ∀ s : Scheduler_t, (∀ op, op ∈ ops → op.isRunTime = true) →
      (∀ i, i < s.numOfJobs →
        1 ≤ (s.jobs i).remainingTime ∧ (s.jobs i).remainingTime ≤ (s.jobs i).period) →
      (runOps ops s).numOfJobs = s.numOfJobs ∧
      ∀ i, i < s.numOfJobs →
        1 ≤ ((runOps ops s).jobs i).remainingTime ∧
        ((runOps ops s).jobs i).remainingTime ≤ ((runOps ops s).jobs i).period := by
  induction ops with
  | nil => intro s _ h; exact ⟨rfl, h⟩
  | cons op ops ih =>
    intro s hops h
    obtain ⟨h1, h2⟩ :=
      SchedulerOp.apply_keeps_bounds op s (hops op (List.mem_cons_self _ _)) h
    obtain ⟨h3, h4⟩ := ih (op.apply s) (fun o ho => hops o (List.mem_cons_of_mem _ ho))
      (fun i hi => h2 i (by omega))
    exact ⟨h3.trans h1, fun i hi => h4 i (by omega)⟩

/-- On a non-empty table whose admitted jobs all have a positive remaining
time, the selected remaining time is positive. -/
theorem nextRemainingTime_pos (s : Scheduler_t) (hne : 0 < s.numOfJobs)
    (hpos : ∀ i, i < s.numOfJobs → 1 ≤ (s.jobs i).remainingTime) :
    0 < nextRemainingTime s :=
  hpos _ (SchedulerProcess.indexOfNextJob_lt s hne)

/-- C28: take a non-empty table in the state admission leaves it in: every
admitted job has a positive period and `remainingTime = period`. After any
sequence of `SchedulerProcess`, `SchedulerStop` and
`SchedulerExecutePendingJobs` calls, with any RTC contents and HAL statuses,
the table has the same jobs admitted and every one of them has
`1 ≤ remainingTime ≤ period`; the minimum the search selects is not 0; and a
further `SchedulerProcess` that reaches its arming step (scheduler stopped, or
running with non-zero elapsed time) records exactly one alarm request. -/
theorem runOps_remainingTime_bounds (ops : List SchedulerOp) (s : Scheduler_t)
    (hops : ∀ op, op ∈ ops → op.isRunTime = true)
    (hne : 0 < s.numOfJobs)
    (hadm : ∀ i, i < s.numOfJobs →
      0 < (s.jobs i).period ∧ (s.jobs i).remainingTime = (s.jobs i).period) :
    (runOps ops s).numOfJobs = s.numOfJobs ∧
    (∀ i, i < s.numOfJobs →
      1 ≤ ((runOps ops s).jobs i).remainingTime ∧
      ((runOps ops s).jobs i).remainingTime ≤ ((runOps ops s).jobs i).period) ∧
    0 < nextRemainingTime (runOps ops s) ∧
    ∀ (status : HAL_StatusTypeDef) (rtc : Rtc),
      ((runOps ops s).isRunning = 0 ∨
        0 < sub32 (RtcGetEpoch rtc) (runOps ops s).startTime) →
      ∃ e r, (SchedulerProcess status rtc (runOps ops s)).1.calls =
        rtc.calls ++ [RtcCall.setAlarmFromEpoch e r] := by
  obtain ⟨hn, hb⟩ := runOps_keeps_bounds ops s hops (fun i hi => by
    obtain ⟨h1, h2⟩ := hadm i hi
    omega)
  have hne2 : 0 < (runOps ops s).numOfJobs := by omega
  have hb2 : ∀ i, i < (runOps ops s).numOfJobs →
      1 ≤ ((runOps ops s).jobs i).remainingTime ∧
      ((runOps ops s).jobs i).remainingTime ≤ ((runOps ops s).jobs i).period :=
    fun i hi => hb i (by omega)
  have hpos := nextRemainingTime_pos (runOps ops s) hne2 (fun i hi => (hb2 i hi).1)
  refine ⟨hn, hb, hpos, fun status rtc hreach => ?_⟩
  by_cases hrun : (runOps ops s).isRunning = 0
  · rw [SchedulerProcess_stopped_pos status rtc _ hrun hpos]
    exact ⟨_, _, (RtcSetAlarmFromEpoch_calls status _ rtc).1⟩
  · have hel : 0 < sub32 (RtcGetEpoch rtc) (runOps ops s).startTime := by
      rcases hreach with h | h
      · exact absurd h hrun
      · exact h
    obtain ⟨hn3, hb3⟩ := Scheduler_ProcessRemainingTime_bounds
      (sub32 (RtcGetEpoch rtc) (runOps ops s).startTime) (runOps ops s) hb2
    have hpos3 := nextRemainingTime_pos
      (Scheduler_ProcessRemainingTime (sub32 (RtcGetEpoch rtc) (runOps ops s).startTime)
        (runOps ops s)) (by omega) (fun i hi => (hb3 i (by omega)).1)
    rw [SchedulerProcess_running_pos status rtc _ hrun hel, if_pos hpos3]
    exact ⟨_, _, (RtcSetAlarmFromEpoch_calls status _ rtc).1⟩

/-- Witness of C28: the two jobs of `main` across the first call, a wake-up 5
seconds later, the execution of the pending job and a stop 2 seconds after
that. -/
theorem runOps_remainingTime_bounds_witness :
    (∀ op, op ∈ [SchedulerOp.process HAL_StatusTypeDef.HAL_OK rtcAfterInit,
        SchedulerOp.process HAL_StatusTypeDef.HAL_OK (rtcAt 1614164405),
        SchedulerOp.executePendingJobs, SchedulerOp.stop (rtcAt 1614164407)] →
      op.isRunTime = true) ∧
    0 < admittedExample.numOfJobs ∧
    (∀ i, i < admittedExample.numOfJobs →
      0 < (admittedExample.jobs i).period ∧
      (admittedExample.jobs i).remainingTime = (admittedExample.jobs i).period) ∧
    ((runOps [SchedulerOp.process HAL_StatusTypeDef.HAL_OK rtcAfterInit,
        SchedulerOp.process HAL_StatusTypeDef.HAL_OK (rtcAt 1614164405),
        SchedulerOp.executePendingJobs, SchedulerOp.stop (rtcAt 1614164407)]
        admittedExample).numOfJobs = admittedExample.numOfJobs ∧
    (∀ i, i < admittedExample.numOfJobs →
      1 ≤ ((runOps [SchedulerOp.process HAL_StatusTypeDef.HAL_OK rtcAfterInit,
        SchedulerOp.process HAL_StatusTypeDef.HAL_OK (rtcAt 1614164405),
        SchedulerOp.executePendingJobs, SchedulerOp.stop (rtcAt 1614164407)]
        admittedExample).jobs i).remainingTime ∧
      ((runOps [SchedulerOp.process HAL_StatusTypeDef.HAL_OK rtcAfterInit,
        SchedulerOp.process HAL_StatusTypeDef.HAL_OK (rtcAt 1614164405),
        SchedulerOp.executePendingJobs, SchedulerOp.stop (rtcAt 1614164407)]
        admittedExample).jobs i).remainingTime ≤
      ((runOps [SchedulerOp.process HAL_StatusTypeDef.HAL_OK rtcAfterInit,
        SchedulerOp.process HAL_StatusTypeDef.HAL_OK (rtcAt 1614164405),
        SchedulerOp.executePendingJobs, SchedulerOp.stop (rtcAt 1614164407)]
        admittedExample).jobs i).period) ∧
    0 < nextRemainingTime
      (runOps [SchedulerOp.process HAL_StatusTypeDef.HAL_OK rtcAfterInit,
        SchedulerOp.process HAL_StatusTypeDef.HAL_OK (rtcAt 1614164405),
        SchedulerOp.executePendingJobs, SchedulerOp.stop (rtcAt 1614164407)]
        admittedExample) ∧
    ∀ (status : HAL_StatusTypeDef) (rtc : Rtc),
      ((runOps [SchedulerOp.process HAL_StatusTypeDef.HAL_OK rtcAfterInit,
        SchedulerOp.process HAL_StatusTypeDef.HAL_OK (rtcAt 1614164405),
        SchedulerOp.executePendingJobs, SchedulerOp.stop (rtcAt 1614164407)]
        admittedExample).isRunning = 0 ∨
        0 < sub32 (RtcGetEpoch rtc)
          (runOps [SchedulerOp.process HAL_StatusTypeDef.HAL_OK rtcAfterInit,
            SchedulerOp.process HAL_StatusTypeDef.HAL_OK (rtcAt 1614164405),
            SchedulerOp.executePendingJobs, SchedulerOp.stop (rtcAt 1614164407)]
            admittedExample).startTime) →
      ∃ e r, (SchedulerProcess status rtc
        (runOps [SchedulerOp.process HAL_StatusTypeDef.HAL_OK rtcAfterInit,
          SchedulerOp.process HAL_StatusTypeDef.HAL_OK (rtcAt 1614164405),
          SchedulerOp.executePendingJobs, SchedulerOp.stop (rtcAt 1614164407)]
          admittedExample)).1.calls =
        rtc.calls ++ [RtcCall.setAlarmFromEpoch e r]) :=
  have h : ∀ op, op ∈ [SchedulerOp.process HAL_StatusTypeDef.HAL_OK rtcAfterInit,
      SchedulerOp.process HAL_StatusTypeDef.HAL_OK (rtcAt 1614164405),
      SchedulerOp.executePendingJobs, SchedulerOp.stop (rtcAt 1614164407)] →
      op.isRunTime = true := by
    intro op hop
    simp only [List.mem_cons, List.mem_singleton, List.not_mem_nil, or_false] at hop
    rcases hop with h | h | h | h <;> rw [h] <;> rfl
  have hadm : ∀ i, i < admittedExample.numOfJobs →
      0 < (admittedExample.jobs i).period ∧
      (admittedExample.jobs i).remainingTime = (admittedExample.jobs i).period := by
    intro i hi
    have hi2 : i < 2 := hi
    interval_cases i <;> exact ⟨by decide, by decide⟩
  ⟨h, by decide, hadm, runOps_remainingTime_bounds _ admittedExample h (by decide) hadm⟩

/-! Wake-ups at the requested alarm epochs -/

/-- If `r` is what is left of the period `p` after `x` seconds, then `x + r`
is a multiple of `p`. -/
theorem mod_complement_zero (p r x : Nat) (h : r + x % p = p) : (x + r) % p = 0 := by
  rw [← Nat.mod_add_mod, Nat.add_comm (x % p) r, h, Nat.mod_self]

/-- If `r` is what is left of the period `p` after `x` seconds, then fewer than
`r` further seconds do not complete the period. -/
theorem mod_complement_lt (p r x d : Nat) (h : r + x % p = p) (hd : d < r) :
    (x + d) % p = x % p + d := by
  rw [← Nat.mod_add_mod]
  exact Nat.mod_eq_of_lt (by omega)

/-- The selected remaining time depends only on `numOfJobs` and on the
remaining times in the table. -/
theorem nextRemainingTime_congr (s t : Scheduler_t) (hn : t.numOfJobs = s.numOfJobs)
    (hj : ∀ i, (t.jobs i).remainingTime = (s.jobs i).remainingTime) :
    nextRemainingTime t = nextRemainingTime s := by
  have hb : SchedulerProcess.searchBody t = SchedulerProcess.searchBody s := by
    funext a i
    unfold SchedulerProcess.searchBody
    rw [hj i, hj a]
  unfold nextRemainingTime SchedulerProcess.indexOfNextJob
  rw [hb, hn, hj]

/-- On a non-empty table the selected remaining time is a lower bound for the
remaining times of the admitted jobs. -/
theorem nextRemainingTime_le (s : Scheduler_t) (i : Nat) (hi : i < s.numOfJobs) :
    nextRemainingTime s ≤ (s.jobs i).remainingTime := by
  obtain ⟨n, hn⟩ : ∃ n, s.numOfJobs = n + 1 := ⟨s.numOfJobs - 1, by omega⟩
  unfold nextRemainingTime SchedulerProcess.indexOfNextJob
  rw [hn]
  exact (SchedulerProcess.search_loop s n).2.1 i (by omega)

/-- An advance of the whole table leaves every period as it was. -/
theorem Scheduler_ProcessRemainingTime_period (e : Nat) (s : Scheduler_t) (i : Nat) :
    ((Scheduler_ProcessRemainingTime e s).jobs i).period = (s.jobs i).period := by
  rw [Scheduler_ProcessRemainingTime_eq]
  show (if i < s.numOfJobs then advanceJob e (s.jobs i) else s.jobs i).period = _
  split
  · unfold advanceJob
    split <;> rfl
  · rfl

/-- The alarm request of the arming step, on a non-empty table with positive
remaining times, when the HAL reports `HAL_OK` and the sum does not overflow:
it asks for `now + nextRemainingTime` and succeeds. -/
theorem RtcSetAlarmFromEpoch_next (rtc : Rtc) (s : Scheduler_t) (hne : 0 < s.numOfJobs)
    (hb : ∀ i, i < s.numOfJobs → 1 ≤ (s.jobs i).remainingTime ∧
      RtcGetEpoch rtc + (s.jobs i).remainingTime < 4294967296) :
    0 < nextRemainingTime s ∧
    (RtcSetAlarmFromEpoch HAL_StatusTypeDef.HAL_OK
      (add32 (RtcGetEpoch rtc) (nextRemainingTime s)) rtc).1 = 1 ∧
    (RtcSetAlarmFromEpoch HAL_StatusTypeDef.HAL_OK
      (add32 (RtcGetEpoch rtc) (nextRemainingTime s)) rtc).2.calls =
      rtc.calls ++ [RtcCall.setAlarmFromEpoch (RtcGetEpoch rtc + nextRemainingTime s) 1] := by
  have hidx := SchedulerProcess.indexOfNextJob_lt s hne
  have hpos : 0 < nextRemainingTime s := (hb _ hidx).1
  have hfit : RtcGetEpoch rtc + nextRemainingTime s < 4294967296 := (hb _ hidx).2
  have hadd : add32 (RtcGetEpoch rtc) (nextRemainingTime s) =
      RtcGetEpoch rtc + nextRemainingTime s := by
    unfold add32 wrap32
    exact Nat.mod_eq_of_lt hfit
  rw [hadd, RtcSetAlarmFromEpoch_future _ _ _ (by omega)]
  exact ⟨hpos, by simp, by simp⟩

/-- The first `SchedulerProcess` on a stopped, non-empty table with positive
remaining times: it requests an alarm at `now + nextRemainingTime`, and with
the request granted it records `now` and enters the running state. -/
theorem SchedulerProcess_first (rtc : Rtc) (s : Scheduler_t) (hstop : s.isRunning = 0)
    (hne : 0 < s.numOfJobs)
    (hb : ∀ i, i < s.numOfJobs → 1 ≤ (s.jobs i).remainingTime ∧
      RtcGetEpoch rtc + (s.jobs i).remainingTime < 4294967296) :
    (SchedulerProcess HAL_StatusTypeDef.HAL_OK rtc s).2 =
      { s with startTime := RtcGetEpoch rtc, isRunning := 1 } ∧
    (SchedulerProcess HAL_StatusTypeDef.HAL_OK rtc s).1.calls =
      rtc.calls ++ [RtcCall.setAlarmFromEpoch (RtcGetEpoch rtc + nextRemainingTime s) 1] := by
  obtain ⟨hpos, h1, h2⟩ := RtcSetAlarmFromEpoch_next rtc s hne hb
  rw [SchedulerProcess_stopped_pos _ rtc s hstop hpos]
  simp only [h1]
  exact ⟨rfl, h2⟩

/-- A `SchedulerProcess` on a running table exactly `nextRemainingTime` seconds
after `startTime`: it advances the table by that time, requests the next alarm
at `now + nextRemainingTime` of the advanced table, and stays running. -/
theorem SchedulerProcess_on_time (rtc : Rtc) (s : Scheduler_t) (hrun : s.isRunning = 1)
    (hne : 0 < s.numOfJobs)
    (hb : ∀ i, i < s.numOfJobs → 1 ≤ (s.jobs i).remainingTime ∧
      (s.jobs i).remainingTime ≤ (s.jobs i).period ∧
      RtcGetEpoch rtc + (s.jobs i).period < 4294967296)
    (hT : RtcGetEpoch rtc = s.startTime + nextRemainingTime s) :
    (SchedulerProcess HAL_StatusTypeDef.HAL_OK rtc s).2 =
      { Scheduler_ProcessRemainingTime (nextRemainingTime s) s with
        startTime := RtcGetEpoch rtc, isRunning := 1 } ∧
    (SchedulerProcess HAL_StatusTypeDef.HAL_OK rtc s).1.calls =
      rtc.calls ++ [RtcCall.setAlarmFromEpoch (RtcGetEpoch rtc +
        nextRemainingTime (Scheduler_ProcessRemainingTime (nextRemainingTime s) s)) 1] := by
  have hpos : 0 < nextRemainingTime s :=
    nextRemainingTime_pos s hne (fun i hi => (hb i hi).1)
  have hlt := RtcGetEpoch_lt rtc
  have hel : sub32 (RtcGetEpoch rtc) s.startTime = nextRemainingTime s := by
    unfold sub32 wrap32
    omega
  obtain ⟨hn, hbA⟩ := Scheduler_ProcessRemainingTime_bounds (nextRemainingTime s) s
    (fun i hi => ⟨(hb i hi).1, (hb i hi).2.1⟩)
  obtain ⟨hposA, h1, h2⟩ := RtcSetAlarmFromEpoch_next rtc
    (Scheduler_ProcessRemainingTime (nextRemainingTime s) s) (by omega) (fun i hi => by
      have h3 := hbA i (by omega)
      have h4 := Scheduler_ProcessRemainingTime_period (nextRemainingTime s) s i
      have h5 := (hb i (by omega)).2.2
      omega)
  rw [SchedulerProcess_running_pos _ rtc s (by omega) (by omega), hel, if_pos hposA]
  simp only [h1]
  exact ⟨rfl, h2⟩

/-- One job across an on-time wake-up `m` seconds after the previous one, where
`x` seconds had passed since the start and `m` does not exceed the remaining
time of the job: the remaining time stays the complement of the time passed
modulo the period, and the job is pending exactly if the time passed is now a
multiple of the period. -/
theorem advanceJob_on_time (m x : Nat) (j : Job_t) (hm : 1 ≤ m) (hmr : m ≤ j.remainingTime)
    (hrel : j.remainingTime + x % j.period = j.period) :
    (advanceJob m { j with isPending := 0 }).period = j.period ∧
    1 ≤ (advanceJob m { j with isPending := 0 }).remainingTime ∧
    (advanceJob m { j with isPending := 0 }).remainingTime + (x + m) % j.period = j.period ∧
    (advanceJob m { j with isPending := 0 }).isPending =
      if 0 < x + m ∧ j.period ∣ (x + m) then 1 else 0 := by
  unfold advanceJob
  by_cases h : m ≥ j.remainingTime
  · have hmeq : m = j.remainingTime := by omega
    have hz : (x + m) % j.period = 0 := by
      rw [hmeq]
      exact mod_complement_zero _ _ _ hrel
    rw [if_pos h]
    refine ⟨rfl, ?_, ?_, ?_⟩
    · show 1 ≤ j.period
      omega
    · show j.period + (x + m) % j.period = j.period
      omega
    · rw [if_pos ⟨by omega, Nat.dvd_of_mod_eq_zero hz⟩]
  · have hz : (x + m) % j.period = x % j.period + m :=
      mod_complement_lt _ _ _ _ hrel (by omega)
    rw [if_neg h]
    refine ⟨rfl, ?_, ?_, ?_⟩
    · show 1 ≤ j.remainingTime - m
      omega
    · show j.remainingTime - m + (x + m) % j.period = j.period
      omega
    · rw [if_neg]
      intro hc
      have := Nat.mod_eq_zero_of_dvd hc.2
      omega

/-- The state of an on-time run at its `k`-th wake-up, for a table started in
the state admission leaves it in: the scheduler is running with
`startTime` the epoch of the wake-up, every remaining time is the complement of
the time since the first call modulo the period, a job is pending exactly if
that time is a positive multiple of its period, and the call has requested an
alarm, successfully, at the epoch of the wake-up plus the least remaining
time. -/
theorem wakeRun_invariant (rtcs : Nat → Rtc) (s0 : Scheduler_t) (N : Nat)
    (hstop : s0.isRunning = 0) (hne : 0 < s0.numOfJobs)
    (hadm : ∀ i, i < s0.numOfJobs →
      0 < (s0.jobs i).period ∧ (s0.jobs i).remainingTime = (s0.jobs i).period ∧
      (s0.jobs i).isPending = 0)
    (hno : ∀ k, k ≤ N → ∀ i, i < s0.numOfJobs →
      RtcGetEpoch (rtcs k) + (s0.jobs i).period < 4294967296)
    (hontime : ∀ k, k < N → ∀ e r,
      (wakeRun rtcs s0 k).1.calls = (rtcs k).calls ++ [RtcCall.setAlarmFromEpoch e r] →
      RtcGetEpoch (rtcs (k + 1)) = e) :
    ∀ k, k ≤ N →
      (wakeRun rtcs s0 k).2.numOfJobs = s0.numOfJobs ∧
      (wakeRun rtcs s0 k).2.isRunning = 1 ∧
      (wakeRun rtcs s0 k).2.startTime = RtcGetEpoch (rtcs k) ∧
      RtcGetEpoch (rtcs 0) ≤ RtcGetEpoch (rtcs k) ∧
      (∀ i, i < s0.numOfJobs →
        ((wakeRun rtcs s0 k).2.jobs i).period = (s0.jobs i).period ∧
        1 ≤ ((wakeRun rtcs s0 k).2.jobs i).remainingTime ∧
        ((wakeRun rtcs s0 k).2.jobs i).remainingTime +
          (RtcGetEpoch (rtcs k) - RtcGetEpoch (rtcs 0)) % (s0.jobs i).period =
            (s0.jobs i).period ∧
        ((wakeRun rtcs s0 k).2.jobs i).isPending =
          if 0 < RtcGetEpoch (rtcs k) - RtcGetEpoch (rtcs 0) ∧
              (s0.jobs i).period ∣ (RtcGetEpoch (rtcs k) - RtcGetEpoch (rtcs 0)) then 1
          else 0) ∧
      (wakeRun rtcs s0 k).1.calls = (rtcs k).calls ++
        [RtcCall.setAlarmFromEpoch
          (RtcGetEpoch (rtcs k) + nextRemainingTime (wakeRun rtcs s0 k).2) 1] := by
  intro k
  induction k with
  | zero =>
    intro _
    obtain ⟨h1, h2⟩ := SchedulerProcess_first (rtcs 0) s0 hstop hne (fun i hi => by
      obtain ⟨ha, hb, _⟩ := hadm i hi
      have := hno 0 (Nat.zero_le _) i hi
      omega)
    have hw : wakeRun rtcs s0 0 = SchedulerProcess HAL_StatusTypeDef.HAL_OK (rtcs 0) s0 := rfl
    rw [hw, h1]
    refine ⟨rfl, rfl, rfl, Nat.le_refl _, fun i hi => ?_, ?_⟩
    · obtain ⟨ha, hb, hc⟩ := hadm i hi
      refine ⟨rfl, ?_, ?_, ?_⟩
      · show 1 ≤ (s0.jobs i).remainingTime
        omega
      · show (s0.jobs i).remainingTime + _ = _
        rw [Nat.sub_self, Nat.zero_mod]
        omega
      · show (s0.jobs i).isPending = _
        rw [if_neg (by omega)]
        exact hc
    · rw [← h1, h2, h1]
      rfl
  | succ k ih =>
    intro hk
    obtain ⟨i1, i2, i3, i4, i5, i6⟩ := ih (by omega)
    have hT := hontime k (by omega) _ _ i6
    -- the table after `SchedulerExecutePendingJobs`
    obtain ⟨sE, hsE⟩ : ∃ sE, sE = (SchedulerExecutePendingJobs (wakeRun rtcs s0 k).2).2 :=
      ⟨_, rfl⟩
    have hEn : sE.numOfJobs = s0.numOfJobs := by
      rw [hsE, SchedulerExecutePendingJobs_state]
      exact i1
    have hEr : sE.isRunning = 1 := by
      rw [hsE, SchedulerExecutePendingJobs_state]
      exact i2
    have hEs : sE.startTime = RtcGetEpoch (rtcs k) := by
      rw [hsE, SchedulerExecutePendingJobs_state]
      exact i3
    have hEall : ∀ i, sE.jobs i =
        if i < (wakeRun rtcs s0 k).2.numOfJobs then
          { (wakeRun rtcs s0 k).2.jobs i with isPending := 0 }
        else (wakeRun rtcs s0 k).2.jobs i := by
      intro i
      rw [hsE, SchedulerExecutePendingJobs_state]
    have hEj : ∀ i, i < s0.numOfJobs →
        sE.jobs i = { (wakeRun rtcs s0 k).2.jobs i with isPending := 0 } := by
      intro i hi
      rw [hEall i, if_pos (by omega)]
    have hEm : nextRemainingTime sE = nextRemainingTime (wakeRun rtcs s0 k).2 := by
      apply nextRemainingTime_congr _ _ (hEn.trans i1.symm)
      intro i
      rw [hEall i]
      split <;> rfl
    have hw : wakeRun rtcs s0 (k + 1) =
        SchedulerProcess HAL_StatusTypeDef.HAL_OK (rtcs (k + 1)) sE := by
      rw [hsE]
      rfl
    have hmpos : 1 ≤ nextRemainingTime sE := by
      rw [hEm]
      exact nextRemainingTime_pos _ (by omega) (fun i hi => (i5 i (by omega)).2.1)
    obtain ⟨h1, h2⟩ := SchedulerProcess_on_time (rtcs (k + 1)) sE hEr (by omega)
      (fun i hi => by
        have hi0 : i < s0.numOfJobs := by omega
        obtain ⟨j1, j2, j3, _⟩ := i5 i hi0
        have := hno (k + 1) hk i hi0
        rw [hEj i hi0]
        show 1 ≤ ((wakeRun rtcs s0 k).2.jobs i).remainingTime ∧
          ((wakeRun rtcs s0 k).2.jobs i).remainingTime ≤ ((wakeRun rtcs s0 k).2.jobs i).period ∧
          RtcGetEpoch (rtcs (k + 1)) + ((wakeRun rtcs s0 k).2.jobs i).period < 4294967296
        omega)
      (by rw [hEs, hEm, hT])
    have hn2 : (Scheduler_ProcessRemainingTime (nextRemainingTime sE) sE).numOfJobs =
        s0.numOfJobs := by
      rw [Scheduler_ProcessRemainingTime_eq]
      exact hEn
    have hx : RtcGetEpoch (rtcs (k + 1)) - RtcGetEpoch (rtcs 0) =
        (RtcGetEpoch (rtcs k) - RtcGetEpoch (rtcs 0)) + nextRemainingTime sE := by
      rw [hT, hEm]
      omega
    rw [hw, h1]
    refine ⟨hn2, rfl, rfl, by omega, fun i hi => ?_, ?_⟩
    · obtain ⟨j1, j2, j3, _⟩ := i5 i hi
      have hle : nextRemainingTime sE ≤ ((wakeRun rtcs s0 k).2.jobs i).remainingTime := by
        rw [hEm]
        exact nextRemainingTime_le _ i (by omega)
      have hjob : (Scheduler_ProcessRemainingTime (nextRemainingTime sE) sE).jobs i =
          advanceJob (nextRemainingTime sE)
            { (wakeRun rtcs s0 k).2.jobs i with isPending := 0 } := by
        rw [Scheduler_ProcessRemainingTime_eq]
        show (if i < sE.numOfJobs then _ else _) = _
        rw [if_pos (by omega), hEj i hi]
      have hadv := advanceJob_on_time (nextRemainingTime sE)
        (RtcGetEpoch (rtcs k) - RtcGetEpoch (rtcs 0)) ((wakeRun rtcs s0 k).2.jobs i)
        hmpos hle (by rw [j1]; exact j3)
      show ((Scheduler_ProcessRemainingTime (nextRemainingTime sE) sE).jobs i).period = _ ∧
        1 ≤ ((Scheduler_ProcessRemainingTime (nextRemainingTime sE) sE).jobs i).remainingTime ∧
        ((Scheduler_ProcessRemainingTime (nextRemainingTime sE) sE).jobs i).remainingTime +
          _ = _ ∧
        ((Scheduler_ProcessRemainingTime (nextRemainingTime sE) sE).jobs i).isPending = _
      rw [hjob, hx, ← j1]
      exact hadv
    · rw [← h1, h2, h1]
      rfl

/-- C27: strict periodicity under on-time wake-ups. Take a stopped, non-empty
table in the state admission leaves it in (every admitted job has a positive
period, `remainingTime = period`, not pending) and run `SchedulerProcess` on it
`N + 1` times, the first time at epoch `T0`, with
`SchedulerExecutePendingJobs` after every call, every HAL alarm call reporting
`HAL_OK`, every later call made exactly at the epoch the call before it
requested, and no epoch plus a period reaching `2^32`. Then at each of these
calls, at epoch `T`, a job is marked pending exactly if `T - T0` is a positive
multiple of its period, and the call requests an alarm, successfully, at the
smallest epoch after `T` at which some period divides `epoch - T0`. -/
theorem wakeRun_strict_periodicity (rtcs : Nat → Rtc) (s0 : Scheduler_t) (N : Nat)
    (hstop : s0.isRunning = 0) (hne : 0 < s0.numOfJobs)
    (hadm : ∀ i, i < s0.numOfJobs →
      0 < (s0.jobs i).period ∧ (s0.jobs i).remainingTime = (s0.jobs i).period ∧
      (s0.jobs i).isPending = 0)
    (hno : ∀ k, k ≤ N → ∀ i, i < s0.numOfJobs →
      RtcGetEpoch (rtcs k) + (s0.jobs i).period < 4294967296)
    (hontime : ∀ k, k < N → ∀ e r,
      (wakeRun rtcs s0 k).1.calls = (rtcs k).calls ++ [RtcCall.setAlarmFromEpoch e r] →
      RtcGetEpoch (rtcs (k + 1)) = e) :
    ∀ k, k ≤ N →
      RtcGetEpoch (rtcs 0) ≤ RtcGetEpoch (rtcs k) ∧
      (∀ i, i < s0.numOfJobs →
        ((wakeRun rtcs s0 k).2.jobs i).isPending =
          if 0 < RtcGetEpoch (rtcs k) - RtcGetEpoch (rtcs 0) ∧
              (s0.jobs i).period ∣ (RtcGetEpoch (rtcs k) - RtcGetEpoch (rtcs 0)) then 1
          else 0) ∧
      ∃ e, (wakeRun rtcs s0 k).1.calls =
          (rtcs k).calls ++ [RtcCall.setAlarmFromEpoch e 1] ∧
        RtcGetEpoch (rtcs k) < e ∧
        (∃ i, i < s0.numOfJobs ∧ (s0.jobs i).period ∣ (e - RtcGetEpoch (rtcs 0))) ∧
        ∀ e2, RtcGetEpoch (rtcs k) < e2 → e2 < e →
          ∀ i, i < s0.numOfJobs → ¬ (s0.jobs i).period ∣ (e2 - RtcGetEpoch (rtcs 0)) := by
  intro k hk
  obtain ⟨i1, i2, i3, i4, i5, i6⟩ :=
    wakeRun_invariant rtcs s0 N hstop hne hadm hno hontime k hk
  have hidx := SchedulerProcess.indexOfNextJob_lt (wakeRun rtcs s0 k).2 (by omega)
  rw [i1] at hidx
  refine ⟨i4, fun i hi => (i5 i hi).2.2.2, _, i6, ?_, ⟨_, hidx, ?_⟩, ?_⟩
  · have := (i5 _ hidx).2.1
    unfold nextRemainingTime
    omega
  · obtain ⟨_, _, j3, _⟩ := i5 _ hidx
    have hz := mod_complement_zero _ _ _ j3
    have he : RtcGetEpoch (rtcs k) + nextRemainingTime (wakeRun rtcs s0 k).2 -
        RtcGetEpoch (rtcs 0) = (RtcGetEpoch (rtcs k) - RtcGetEpoch (rtcs 0)) +
          ((wakeRun rtcs s0 k).2.jobs
            (SchedulerProcess.indexOfNextJob (wakeRun rtcs s0 k).2)).remainingTime := by
      unfold nextRemainingTime
      omega
    rw [he]
    exact Nat.dvd_of_mod_eq_zero hz
  · intro e2 h1 h2 i hi hdvd
    obtain ⟨_, _, j3, _⟩ := i5 i hi
    have hle := nextRemainingTime_le (wakeRun rtcs s0 k).2 i (by omega)
    have hz := mod_complement_lt _ _ (RtcGetEpoch (rtcs k) - RtcGetEpoch (rtcs 0))
      (e2 - RtcGetEpoch (rtcs k)) j3 (by omega)
    have he : e2 - RtcGetEpoch (rtcs 0) = (RtcGetEpoch (rtcs k) - RtcGetEpoch (rtcs 0)) +
        (e2 - RtcGetEpoch (rtcs k)) := by omega
    rw [he] at hdvd
    have := Nat.mod_eq_zero_of_dvd hdvd
    omega

/-- Witness of C27: the two jobs of `main` (periods 5 and 10), first processed
at the epoch `RtcInit` sets and then woken every 5 seconds; at the second
wake-up, 10 seconds in, both jobs are pending. -/
theorem wakeRun_strict_periodicity_witness :
    admittedExample.isRunning = 0 ∧ 0 < admittedExample.numOfJobs ∧
    (∀ i, i < admittedExample.numOfJobs →
      0 < (admittedExample.jobs i).period ∧
      (admittedExample.jobs i).remainingTime = (admittedExample.jobs i).period ∧
      (admittedExample.jobs i).isPending = 0) ∧
    (∀ k, k ≤ 2 → ∀ i, i < admittedExample.numOfJobs →
      RtcGetEpoch (rtcAt (1614164400 + 5 * k)) + (admittedExample.jobs i).period
        < 4294967296) ∧
    (∀ k, k < 2 → ∀ e r,
      (wakeRun (fun k => rtcAt (1614164400 + 5 * k)) admittedExample k).1.calls =
        (rtcAt (1614164400 + 5 * k)).calls ++ [RtcCall.setAlarmFromEpoch e r] →
      RtcGetEpoch (rtcAt (1614164400 + 5 * (k + 1))) = e) ∧
    ((wakeRun (fun k => rtcAt (1614164400 + 5 * k)) admittedExample 2).2.jobs 0).isPending = 1 ∧
    ((wakeRun (fun k => rtcAt (1614164400 + 5 * k)) admittedExample 2).2.jobs 1).isPending = 1 ∧
    ∃ e, (wakeRun (fun k => rtcAt (1614164400 + 5 * k)) admittedExample 2).1.calls =
        [RtcCall.setAlarmFromEpoch e 1] ∧
      1614164410 < e := by
  have hadm : ∀ i, i < admittedExample.numOfJobs →
      0 < (admittedExample.jobs i).period ∧
      (admittedExample.jobs i).remainingTime = (admittedExample.jobs i).period ∧
      (admittedExample.jobs i).isPending = 0 := by
    intro i hi
    have hi2 : i < 2 := hi
    interval_cases i <;> exact ⟨by decide, by decide, by decide⟩
  have hno : ∀ k, k ≤ 2 → ∀ i, i < admittedExample.numOfJobs →
      RtcGetEpoch (rtcAt (1614164400 + 5 * k)) + (admittedExample.jobs i).period
        < 4294967296 := by
    intro k hk i hi
    have hi2 : i < 2 := hi
    interval_cases k <;> interval_cases i <;> decide
  have hontime : ∀ k, k < 2 → ∀ e r,
      (wakeRun (fun k => rtcAt (1614164400 + 5 * k)) admittedExample k).1.calls =
        (rtcAt (1614164400 + 5 * k)).calls ++ [RtcCall.setAlarmFromEpoch e r] →
      RtcGetEpoch (rtcAt (1614164400 + 5 * (k + 1))) = e := by
    intro k hk e r h
    interval_cases k
    · have h0 : (wakeRun (fun k => rtcAt (1614164400 + 5 * k)) admittedExample 0).1.calls =
          [RtcCall.setAlarmFromEpoch 1614164405 1] := by decide
      rw [h0] at h
      have h1 : RtcCall.setAlarmFromEpoch 1614164405 1 = RtcCall.setAlarmFromEpoch e r := by
        simpa [rtcAt] using h
      rw [← (RtcCall.setAlarmFromEpoch.inj h1).1]
      decide
    · have h0 : (wakeRun (fun k => rtcAt (1614164400 + 5 * k)) admittedExample 1).1.calls =
          [RtcCall.setAlarmFromEpoch 1614164410 1] := by decide
      rw [h0] at h
      have h1 : RtcCall.setAlarmFromEpoch 1614164410 1 = RtcCall.setAlarmFromEpoch e r := by
        simpa [rtcAt] using h
      rw [← (RtcCall.setAlarmFromEpoch.inj h1).1]
      decide
  have h := wakeRun_strict_periodicity (fun k => rtcAt (1614164400 + 5 * k)) admittedExample 2
    (by decide) (by decide) hadm hno hontime 2 (Nat.le_refl _)
  obtain ⟨_, hp, e, he, hlt, _⟩ := h
  have hT : RtcGetEpoch (rtcAt (1614164400 + 5 * 2)) = 1614164410 := by decide
  have hT0 : RtcGetEpoch (rtcAt (1614164400 + 5 * 0)) = 1614164400 := by decide
  refine ⟨by decide, by decide, hadm, hno, hontime, ?_, ?_, e, he, ?_⟩
  · have := hp 0 (by decide)
    simp only [hT, hT0] at this
    exact this.trans (by decide)
  · have := hp 1 (by decide)
    simp only [hT, hT0] at this
    exact this.trans (by decide)
  · simp only [hT] at hlt
    exact hlt

end Scheduler
